import Mathlib

/-!
# rr: record-time scheduler and replay-time signal positioning

A shallow embedding of `src/recorder/rec_sched.c` and
`src/replayer/rep_process_signal.c`.

* Pointers to `struct context` are natural numbers, `0` being `NULL`; the heap
  maps a pointer to the context stored there, so that two names of one context
  (the argument of `get_active_thread` and a slot of the table) alias.
* `registered_threads` is the memory at `registered_threads + i`: for
  `0 ≤ i < NUM_MAX_THREADS` the slots of the table, outside that range the
  neighbouring words, which is what an out-of-range index reads in the compiled
  program.  Every index read by the scan is recorded in `reads`.
* `int` fields are `Int`; nothing here comes near the ends of the `int` range
  (`switch_counter` moves in `[-1, MAX_SWITCH_COUNTER]`), so no wrap is modelled.
  The one `uint64_t` subtraction, `trace->rbc_up - SKID_SIZE`, is taken modulo
  `2 ^ 64` (`u64_sub`).
* What the replayer does to the child and to the counter is recorded, in program
  order, in `Replay.ops`; what they answer is a parameter (`ReplayEnv`,
  `SignalEnv`), indexed by the position of the asking operation.
* Loops that the source leaves unbounded take a fuel argument that counts loop
  iterations; `none` / `timeout` means the fuel ran out.
* `assert` is taken as active (no `NDEBUG`): a failed assertion aborts, and the
  model hands back the state at the abort.
-/

namespace RR

/-! ## Data model -/

/-- Modelled from the spec: the values of `exec_state` (`recorder.h` is not among the
sources; the spec lists Start, InSyscall, InSyscallDone, Running). -/
inductive ExecState where
  | EXEC_STATE_START
  | EXEC_STATE_IN_SYSCALL
  | EXEC_STATE_IN_SYSCALL_DONE
  | EXEC_STATE_RUNNING
  deriving DecidableEq

/-- The i386 `struct user_regs_struct` of `<sys/user.h>`. -/
structure user_regs_struct where
  ebx : Int
  ecx : Int
  edx : Int
  esi : Int
  edi : Int
  ebp : Int
  eax : Int
  xds : Int
  xes : Int
  xfs : Int
  xgs : Int
  orig_eax : Int
  eip : Int
  xcs : Int
  eflags : Int
  esp : Int
  xss : Int
  deriving DecidableEq

/-- The fields of `struct trace` that the two files use. -/
structure trace where
  stop_reason : Int
  rbc_up : Nat
  page_faults : Nat
  global_time : Nat
  recorded_regs : user_regs_struct
  deriving DecidableEq

/-- The fields of `struct context` that the two files use.  `hpc` is the pointer to the
thread's counter handle. -/
structure context where
  child_tid : Int
  child_mem_fd : Int
  status : Int
  exec_state : ExecState
  switch_counter : Int
  allow_ctx_switch : Bool
  hpc : Nat
  trace : trace
  child_sig : Int
  replay_sig : Int
  event : Int
  deriving DecidableEq

/-- All registers zero. -/
def user_regs_struct.zero : user_regs_struct :=
  ⟨0, 0, 0, 0, 0, 0, 0, 0, 0, 0, 0, 0, 0, 0, 0, 0, 0⟩

/-- The context `sys_malloc_zero` hands out: every field zero.  Which `exec_state` the
zero bit pattern stands for does not matter, `rec_sched_register_thread` overwrites it. -/
def context.zero : context :=
  { child_tid := 0, child_mem_fd := 0, status := 0,
    exec_state := ExecState.EXEC_STATE_START,
    switch_counter := 0, allow_ctx_switch := false, hpc := 0,
    trace := ⟨0, 0, 0, 0, user_regs_struct.zero⟩,
    child_sig := 0, replay_sig := 0, event := 0 }

/-- The constants and the macro of `config.h` / `sys.h` that `rec_sched.c` uses; the
headers are not among the sources, so they are parameters. -/
structure Config where
  NUM_MAX_THREADS : Nat
  MAX_SWITCH_COUNTER : Int
  MAX_TID : Int
  HASH : Int → Int

/-- What the spec says of `HASH`: it maps the legal tids into the table. -/
def Config.hash_in_range (cfg : Config) : Prop :=
  ∀ tid : Int, 0 < tid → tid < cfg.MAX_TID →
    0 ≤ cfg.HASH tid ∧ cfg.HASH tid < (cfg.NUM_MAX_THREADS : Int)

/-- The statics of `rec_sched.c` with the heap they point into.  `reads` (indices of
`registered_threads` read by the scan) and `probes` (tids handed to
`sys_waitpid_nonblock`) are records of what was done, in order. -/
structure Sched where
  heap : Nat → context
  registered_threads : Int → Nat
  num_active_threads : Int
  thread_ptr : Int
  reads : List Int
  probes : List Int

/-- The reason of an abort. -/
inductive Fault where
  | assert_child_range
  | assert_slot_empty
  | assert_num_active_nonneg
  | hpc_overcounted (rbc_rec rbc_now : Nat) (stop_reason : Int) (global_time : Nat)
  | assert_status (status expected : Int)
  | assert_found_spot (sig : Int) (global_time : Nat) (found_spot : Nat)
  | assert_child_sig (child_sig : Int)
  | assert_wstopsig (status expected_sig : Int)
  | assert_rdtsc
  | assert_rbc_up_positive
  | assert_registers (check : Int)
  | compare_stopped
  | not_from_hpc (event : Int)
  | unknown_signal (sig : Int)
  deriving DecidableEq

/-- How a call ends: it returns a value, it aborts in some state, or the fuel of the
model ran out before either. -/
inductive Res (σ α : Type) where
  | ret (a : α)
  | abort (why : Fault) (at_abort : σ)
  | timeout

/-! ## `rec_sched.c` -/

/-- The answer of `sys_waitpid_nonblock(tid, &status)`: given how many probes were issued
before and the tid, the return value (`0` is "not ready") and the status word left in
`status`. -/
abbrev ProbeOracle := Nat → Int → Int × Int

/-- `set_switch_counter`, lines 23-30. -/
def set_switch_counter (cfg : Config) (thread_ptr tmp_thread_ptr : Int) (ctx : context) :
    context :=
  if tmp_thread_ptr = thread_ptr then
    { ctx with switch_counter := ctx.switch_counter - 1 }
  else
    { ctx with switch_counter := cfg.MAX_SWITCH_COUNTER }

/-- The `while (1)` of `get_active_thread`, lines 59-79; one unit of fuel per evaluation
of the `for` condition. -/
def scan (cfg : Config) (probe : ProbeOracle) (tmp_thread_ptr : Int) :
    Nat → Sched → Option (Nat × Sched)
  | 0, _ => none
  | fuel + 1, s =>
    if s.thread_ptr < (cfg.NUM_MAX_THREADS : Int) then
      let return_ctx := s.registered_threads s.thread_ptr
      let s1 := { s with reads := s.reads ++ [s.thread_ptr] }
      if return_ctx ≠ 0 then
        let c := s1.heap return_ctx
        if c.exec_state = ExecState.EXEC_STATE_IN_SYSCALL then
          let r := probe s1.probes.length c.child_tid
          let c1 := { c with status := r.2 }
          let s2 := { s1 with heap := Function.update s1.heap return_ctx c1,
                              probes := s1.probes ++ [c.child_tid] }
          if r.1 ≠ 0 then
            let c2 := { c1 with exec_state := ExecState.EXEC_STATE_IN_SYSCALL_DONE }
            let c3 := set_switch_counter cfg s.thread_ptr tmp_thread_ptr c2
            some (return_ctx, { s2 with heap := Function.update s2.heap return_ctx c3 })
          else
            scan cfg probe tmp_thread_ptr fuel { s2 with thread_ptr := s2.thread_ptr + 1 }
        else
          let c3 := set_switch_counter cfg s.thread_ptr tmp_thread_ptr c
          some (return_ctx, { s1 with heap := Function.update s1.heap return_ctx c3 })
      else
        scan cfg probe tmp_thread_ptr fuel { s1 with thread_ptr := s1.thread_ptr + 1 }
    else
      scan cfg probe tmp_thread_ptr fuel { s with thread_ptr := 0 }

/-- The lines 45-55 of `get_active_thread` for a non-null `ctx` that allows a switch: on
an expired quantum the cursor moves on and the counter is reset. -/
def expire_quantum (cfg : Config) (s : Sched) (ctx : Nat) : Sched :=
  if (s.heap ctx).switch_counter < 0 then
    { s with thread_ptr := s.thread_ptr + 1,
             heap := Function.update s.heap ctx
               { s.heap ctx with switch_counter := cfg.MAX_SWITCH_COUNTER } }
  else s

/-- `get_active_thread`, lines 36-82.  `ctx = 0` is the null argument. -/
def get_active_thread (cfg : Config) (probe : ProbeOracle) (fuel : Nat) (s : Sched)
    (ctx : Nat) : Option (Nat × Sched) :=
  let tmp_thread_ptr := s.thread_ptr
  if ctx ≠ 0 then
    if (s.heap ctx).allow_ctx_switch = false then
      some (ctx, s)
    else
      scan cfg probe tmp_thread_ptr fuel (expire_quantum cfg s ctx)
  else
    scan cfg probe tmp_thread_ptr fuel s

/-- `rec_sched_get_num_threads`, lines 100-103. -/
def rec_sched_get_num_threads (s : Sched) : Int :=
  s.num_active_threads

/-- `rec_sched_register_thread`, lines 109-129.  `ptr` is what `sys_malloc_zero` returns,
`mem_fd` what `sys_open_child_mem` returns and `hpc` the handle `init_hpc` stores. -/
def rec_sched_register_thread (cfg : Config) (ptr : Nat) (mem_fd : Int) (hpc : Nat)
    (s : Sched) (_parent child : Int) : Res Sched Sched :=
  if ¬ (child > 0 ∧ child < cfg.MAX_TID) then
    Res.abort Fault.assert_child_range s
  else
    let hash := cfg.HASH child
    if s.registered_threads hash ≠ 0 then
      Res.abort Fault.assert_slot_empty s
    else
      let ctx : context :=
        { context.zero with
            exec_state := ExecState.EXEC_STATE_START
            status := 0
            child_tid := child
            child_mem_fd := mem_fd
            hpc := hpc }
      Res.ret { s with heap := Function.update s.heap ptr ctx,
                       registered_threads := Function.update s.registered_threads hash ptr,
                       num_active_threads := s.num_active_threads + 1 }

/-- The `do ... while (ret != -1)` of `rec_sched_deregister_thread`, lines 155-157:
`waitpid k` is the return value and the status word of the `k`-th call. -/
def drain_waitpid (waitpid : Nat → Int × Int) (ctx : Nat) : Nat → Nat → Sched → Option Sched
  | 0, _, _ => none
  | fuel + 1, k, s =>
    let r := waitpid k
    let s1 := { s with heap := Function.update s.heap ctx { s.heap ctx with status := r.2 } }
    if r.1 ≠ -1 then drain_waitpid waitpid ctx fuel (k + 1) s1 else some s1

/-- `rec_sched_deregister_thread`, lines 135-161, for `*ctx_ptr = ctx`.  The freed
context stays in the heap of the model; nothing reads it after `sys_free`. -/
def rec_sched_deregister_thread (cfg : Config) (waitpid : Nat → Int × Int) (fuel : Nat)
    (s : Sched) (ctx : Nat) : Res Sched Sched :=
  let hash := cfg.HASH (s.heap ctx).child_tid
  let s1 := { s with registered_threads := Function.update s.registered_threads hash 0,
                     num_active_threads := s.num_active_threads - 1 }
  if ¬ (s1.num_active_threads ≥ 0) then
    Res.abort Fault.assert_num_active_nonneg s1
  else
    match drain_waitpid waitpid ctx fuel 0 s1 with
    | some s2 => Res.ret s2
    | none => Res.timeout

/-! ## `rep_process_signal.c`: branch-exact positioning -/

/-- `SIGSEGV` of `<signal.h>` on Linux/i386. -/
def SIGSEGV : Int := 11

/-- What the replayer does to the child and to its counter, in program order. -/
inductive Op where
  | read_rbc_up
  | sys_ptrace_singlestep (tid sig : Int)
  | sys_waitpid (tid : Int)
  | read_child_registers (tid : Int)
  | sys_ptrace_syscall (tid : Int)
  | goto_next_event
  | get_inst (tid : Int)
  | write_child_registers (tid : Int) (regs : user_regs_struct)
  | reset_hpc (val : Nat)
  | stop_hpc_down
  | stop_hpc
  | fcntl_getown
  | sys_exit
  deriving DecidableEq

/-- The child and the counter as the replayer sees them.  Each answer is indexed by the
number of operations issued before the one that asks, so any behaviour of the hardware
counter and of the child is some `ReplayEnv`.  `compare_register_files` (of `util.c`, not
among the sources) is a parameter: registers now, registers recorded, `print`, `stop`. -/
structure ReplayEnv where
  rbc_up : Nat → Nat
  wait_status : Nat → Int
  child_regs : Nat → user_regs_struct
  compare_register_files : user_regs_struct → user_regs_struct → Int → Int → Int

/-- The context being replayed and the operations issued so far. -/
structure Replay where
  ctx : context
  ops : List Op

/-- The locals of `compensate_branch_count` next to the replay state. -/
structure Pos where
  w : Replay
  rbc_now : Nat
  found_spot : Nat

/-- How one pass through the body of the register-match loop ends: at the end of
the body (`next`) or at a `break` (`brk`). -/
inductive Iter where
  | next (st : Pos)
  | brk (st : Pos)

/-- `singlestep`, lines 20-32. -/
def singlestep (env : ReplayEnv) (w : Replay) (sig expected_val : Int) : Res Replay Replay :=
  let w1 : Replay := { w with ops := w.ops ++ [Op.sys_ptrace_singlestep w.ctx.child_tid sig] }
  let w2 : Replay := { ctx := { w1.ctx with status := env.wait_status w1.ops.length },
                       ops := w1.ops ++ [Op.sys_waitpid w1.ctx.child_tid] }
  if w2.ctx.status ≠ expected_val then
    Res.abort (Fault.assert_status w2.ctx.status expected_val) w2
  else
    Res.ret { w2 with ctx := { w2.ctx with status := 0, child_sig := 0 } }

/-- The body of the catch-up loop, lines 58-59. -/
def catch_up_iter (env : ReplayEnv) (st : Pos) : Res Replay Pos :=
  match singlestep env st.w 0 0x57f with
  | Res.ret w1 =>
    Res.ret { w := { w1 with ops := w1.ops ++ [Op.read_rbc_up] },
              rbc_now := env.rbc_up w1.ops.length,
              found_spot := st.found_spot }
  | Res.abort why a => Res.abort why a
  | Res.timeout => Res.timeout

/-- The catch-up loop, lines 57-60; one unit of fuel per evaluation of its condition. -/
def catch_up (env : ReplayEnv) (rbc_rec : Nat) : Nat → Pos → Res Replay Pos
  | 0, _ => Res.timeout
  | fuel + 1, st =>
    if st.rbc_now < rbc_rec then
      match catch_up_iter env st with
      | Res.ret st1 => catch_up env rbc_rec fuel st1
      | Res.abort why a => Res.abort why a
      | Res.timeout => Res.timeout
    else
      Res.ret st

/-- The lines 65-69 of the register-match loop: for `SIGSEGV`, resume with
`PTRACE_SYSCALL` and wait. -/
def segv_resume (env : ReplayEnv) (sig : Int) (w : Replay) : Replay :=
  if sig = SIGSEGV then
    { ctx := { w.ctx with status := env.wait_status (w.ops.length + 1) },
      ops := w.ops ++ [Op.sys_ptrace_syscall w.ctx.child_tid, Op.sys_waitpid w.ctx.child_tid] }
  else w

/-- The body of the register-match loop, lines 63-99. -/
def match_iter (env : ReplayEnv) (sig : Int) (st : Pos) : Res Replay Iter :=
  let regs := env.child_regs st.w.ops.length
  let w1 : Replay := { st.w with ops := st.w.ops ++ [Op.read_child_registers st.w.ctx.child_tid] }
  let w2 : Replay := segv_resume env sig w1
  let check := env.compare_register_files regs w2.ctx.trace.recorded_regs 0 0
  if check = 0 ∨ check = 0x80 then
    if sig = SIGSEGV then
      match singlestep env w2 0 0xb7f with
      | Res.ret w3 =>
        Res.ret (Iter.brk { w := w3, rbc_now := st.rbc_now, found_spot := st.found_spot + 1 })
      | Res.abort why a => Res.abort why a
      | Res.timeout => Res.timeout
    else
      Res.ret (Iter.brk { w := w2, rbc_now := st.rbc_now, found_spot := st.found_spot + 1 })
  else
    match singlestep env w2 0 0x57f with
    | Res.ret w3 =>
      Res.ret (Iter.next { w := { w3 with ops := w3.ops ++ [Op.read_rbc_up] },
                           rbc_now := env.rbc_up w3.ops.length,
                           found_spot := st.found_spot })
    | Res.abort why a => Res.abort why a
    | Res.timeout => Res.timeout

/-- The register-match loop, lines 62-100; one unit of fuel per evaluation of its
condition. -/
def match_loop (env : ReplayEnv) (sig : Int) (rbc_rec : Nat) : Nat → Pos → Res Replay Pos
  | 0, _ => Res.timeout
  | fuel + 1, st =>
    if st.rbc_now = rbc_rec then
      match match_iter env sig st with
      | Res.ret (Iter.next st1) => match_loop env sig rbc_rec fuel st1
      | Res.ret (Iter.brk st1) => Res.ret st1
      | Res.abort why a => Res.abort why a
      | Res.timeout => Res.timeout
    else
      Res.ret st

/-- `compensate_branch_count`, lines 37-105.  Each of the two loops may use up to `fuel`
evaluations of its condition. -/
def compensate_branch_count (env : ReplayEnv) (fuel : Nat) (w : Replay) (sig : Int) :
    Res Replay Replay :=
  let rbc_rec := w.ctx.trace.rbc_up
  let rbc_now := env.rbc_up w.ops.length
  let w1 : Replay := { w with ops := w.ops ++ [Op.read_rbc_up] }
  if rbc_now > rbc_rec then
    Res.abort (Fault.hpc_overcounted rbc_rec rbc_now w1.ctx.trace.stop_reason
      w1.ctx.trace.global_time) w1
  else
    let rbc_now := env.rbc_up w1.ops.length
    let w2 : Replay := { w1 with ops := w1.ops ++ [Op.read_rbc_up] }
    match catch_up env rbc_rec fuel { w := w2, rbc_now := rbc_now, found_spot := 0 } with
    | Res.ret st =>
      match match_loop env sig rbc_rec fuel st with
      | Res.ret st1 =>
        if st1.found_spot ≠ 1 then
          Res.abort (Fault.assert_found_spot sig st1.w.ctx.trace.global_time st1.found_spot) st1.w
        else
          Res.ret st1.w
      | Res.abort why a => Res.abort why a
      | Res.timeout => Res.timeout
    | Res.abort why a => Res.abort why a
    | Res.timeout => Res.timeout

/-! ## `rep_process_signal.c`: the dispatcher -/

/-- `SIGIO` of `<signal.h>` on Linux/i386. -/
def SIGIO : Int := 29

/-- `SIGCHLD` of `<signal.h>` on Linux/i386. -/
def SIGCHLD : Int := 17

/-- `SKID_SIZE`, line 18. -/
def SKID_SIZE : Nat := 55

/-- `WSTOPSIG` of `<sys/wait.h>`: `(status & 0xff00) >> 8`. -/
def WSTOPSIG (status : Int) : Int := (status / 256) % 256

/-- Subtraction of `uint64_t` values: modulo `2 ^ 64`. -/
def u64_sub (a b : Nat) : Nat := (a % 2 ^ 64 + 2 ^ 64 - b % 2 ^ 64) % 2 ^ 64

/-- The two synthetic stop reasons, constants of a header that is not among the sources;
they are parameters. -/
structure SignalConfig where
  SIG_SEGV_RDTSC : Int
  USR_SCHED : Int

/-- What the dispatcher asks of its surroundings besides the child and the counter, each
answer indexed like those of `ReplayEnv`.  `goto_next_event` (of the replayer, not among
the sources) may change any field of the context; `get_inst` gives the text and the
length of the instruction at the child's `eip`; `compare_stops` says whether
`compare_register_files`, called with these arguments, ends the program instead of
returning; `getown` is the answer of `fcntl(ctx->hpc->rbc_down.fd, F_GETOWN)`. -/
structure SignalEnv extends ReplayEnv where
  goto_next_event : Nat → context → context
  get_inst : Nat → List Char × Int
  compare_stops : user_regs_struct → user_regs_struct → Int → Int → Bool
  getown : Nat → Int

/-- The `case -SIG_SEGV_RDTSC` of `rep_process_signal`, lines 119-144, with `tid` the
local read at line 110.  The sum `eip + size` is not wrapped: a signed overflow there is
undefined in C.  The `sys_free` of the instruction text touches neither the child nor the
context and is left out. -/
def replay_rdtsc (env : SignalEnv) (w : Replay) (tid : Int) : Res Replay Replay :=
  let w1 : Replay := { ctx := env.goto_next_event w.ops.length w.ctx,
                       ops := w.ops ++ [Op.goto_next_event] }
  if WSTOPSIG w1.ctx.status ≠ SIGSEGV then
    Res.abort (Fault.assert_wstopsig w1.ctx.status SIGSEGV) w1
  else
    let inst := env.get_inst w1.ops.length
    let w2 : Replay := { w1 with ops := w1.ops ++ [Op.get_inst tid] }
    if inst.1.take 5 ≠ ['r', 'd', 't', 's', 'c'] then
      Res.abort Fault.assert_rdtsc w2
    else
      let regs := env.child_regs w2.ops.length
      let w3 : Replay := { w2 with ops := w2.ops ++ [Op.read_child_registers tid] }
      let regs1 : user_regs_struct :=
        { regs with eax := w3.ctx.trace.recorded_regs.eax,
                    edx := w3.ctx.trace.recorded_regs.edx,
                    eip := regs.eip + inst.2 }
      let w4 : Replay := { w3 with ops := w3.ops ++ [Op.write_child_registers tid regs1] }
      if env.compare_stops regs1 w4.ctx.trace.recorded_regs 1 1 then
        Res.abort Fault.compare_stopped w4
      else
        Res.ret { w4 with ctx := { w4.ctx with child_sig := 0 } }

/-- The lines 183-185 and 158-160: stop the down counter, position, stop the counter. -/
def position_fast (env : SignalEnv) (fuel : Nat) (w : Replay) (sig : Int) :
    Res Replay Replay :=
  let w1 : Replay := { w with ops := w.ops ++ [Op.stop_hpc_down] }
  match compensate_branch_count env.toReplayEnv fuel w1 sig with
  | Res.ret w2 => Res.ret { w2 with ops := w2.ops ++ [Op.stop_hpc] }
  | Res.abort why a => Res.abort why a
  | Res.timeout => Res.timeout

/-- The `case -USR_SCHED` of `rep_process_signal`, lines 146-167. -/
def replay_usr_sched (env : SignalEnv) (fuel : Nat) (w : Replay) (sig : Int) :
    Res Replay Replay :=
  if ¬ (w.ctx.trace.rbc_up > 0) then
    Res.abort Fault.assert_rbc_up_positive w
  else
    let w1 : Replay := { w with ops := w.ops ++ [Op.reset_hpc (u64_sub w.ctx.trace.rbc_up SKID_SIZE)] }
    let w2 : Replay := { ctx := env.goto_next_event w1.ops.length w1.ctx,
                         ops := w1.ops ++ [Op.goto_next_event] }
    let owner := env.getown w2.ops.length
    let w3 : Replay := { w2 with ops := w2.ops ++ [Op.fcntl_getown] }
    if owner = w3.ctx.child_tid then
      position_fast env fuel { w3 with ctx := { w3.ctx with child_sig := 0 } } sig
    else
      Res.abort (Fault.not_from_hpc w3.ctx.event) { w3 with ops := w3.ops ++ [Op.sys_exit] }

/-- The `case SIGIO: case SIGCHLD:` of `rep_process_signal`, lines 169-204. -/
def replay_async (env : SignalEnv) (fuel : Nat) (w : Replay) (tid sig : Int) :
    Res Replay Replay :=
  if w.ctx.trace.rbc_up = 0 then
    Res.ret { w with ctx := { w.ctx with replay_sig := sig } }
  else
    let w1 : Replay := { w with ops := w.ops ++ [Op.reset_hpc (u64_sub w.ctx.trace.rbc_up SKID_SIZE)] }
    if w1.ctx.trace.rbc_up ≤ 10000 then
      position_fast env fuel w1 sig
    else
      let w2 : Replay := { ctx := { w1.ctx with status := env.wait_status (w1.ops.length + 1) },
                           ops := w1.ops ++ [Op.sys_ptrace_syscall tid, Op.sys_waitpid tid] }
      if WSTOPSIG w2.ctx.status ≠ SIGIO then
        Res.abort (Fault.assert_wstopsig w2.ctx.status SIGIO) w2
      else
        let w3 : Replay := { w2 with ctx := { w2.ctx with child_sig := 0, status := 0 } }
        match compensate_branch_count env.toReplayEnv fuel w3 sig with
        | Res.ret w4 => Res.ret { w4 with ops := w4.ops ++ [Op.stop_hpc, Op.stop_hpc_down] }
        | Res.abort why a => Res.abort why a
        | Res.timeout => Res.timeout

/-- The `case SIGSEGV` of `rep_process_signal`, lines 206-225. -/
def replay_segv (env : SignalEnv) (w : Replay) (sig : Int) : Res Replay Replay :=
  if w.ctx.trace.rbc_up = 0 ∧ w.ctx.trace.page_faults = 0 then
    Res.ret { w with ctx := { w.ctx with replay_sig := sig } }
  else
    let w1 : Replay := { ctx := { w.ctx with status := env.wait_status (w.ops.length + 1) },
                         ops := w.ops ++ [Op.sys_ptrace_syscall w.ctx.child_tid,
                                          Op.sys_waitpid w.ctx.child_tid] }
    if WSTOPSIG w1.ctx.status ≠ SIGSEGV then
      Res.abort (Fault.assert_wstopsig w1.ctx.status SIGSEGV) w1
    else
      let regs := env.child_regs w1.ops.length
      let w2 : Replay := { w1 with ops := w1.ops ++ [Op.read_child_registers w1.ctx.child_tid] }
      if env.compare_stops regs w2.ctx.trace.recorded_regs 1 1 then
        Res.abort Fault.compare_stopped w2
      else
        let check := env.compare_register_files regs w2.ctx.trace.recorded_regs 1 1
        if check ≠ 0 then
          Res.abort (Fault.assert_registers check) w2
        else
          singlestep env.toReplayEnv w2 SIGSEGV 0x57f

/-- `rep_process_signal`, lines 107-232.  The `switch` is a chain of tests in the order
of its labels (C requires the labels to be distinct). -/
def rep_process_signal (scfg : SignalConfig) (env : SignalEnv) (fuel : Nat) (w : Replay) :
    Res Replay Replay :=
  let tid := w.ctx.child_tid
  let sig := - w.ctx.trace.stop_reason
  if w.ctx.child_sig ≠ 0 then
    Res.abort (Fault.assert_child_sig w.ctx.child_sig) w
  else if sig = - scfg.SIG_SEGV_RDTSC then
    replay_rdtsc env w tid
  else if sig = - scfg.USR_SCHED then
    replay_usr_sched env fuel w sig
  else if sig = SIGIO ∨ sig = SIGCHLD then
    replay_async env fuel w tid sig
  else if sig = SIGSEGV then
    replay_segv env w sig
  else
    Res.abort (Fault.unknown_signal sig) { w with ops := w.ops ++ [Op.sys_exit] }

/-! ## Calling patterns used to state the properties -/

/-- The number of non-null slots of `registered_threads`. -/
def populated_slots (cfg : Config) (s : Sched) : Nat :=
  ((Finset.range cfg.NUM_MAX_THREADS).filter
    (fun i : Nat => s.registered_threads (i : Int) ≠ 0)).card

/-- The pointer `p` is in a slot of the table. -/
def in_table (cfg : Config) (s : Sched) (p : Nat) : Prop :=
  ∃ i ∈ Finset.range cfg.NUM_MAX_THREADS, s.registered_threads (i : Int) = p

instance in_table_decidable (cfg : Config) (s : Sched) (p : Nat) :
    Decidable (in_table cfg s p) := by
  unfold in_table; infer_instance

/-- A call of the registry interface, with what its environment answers. -/
inductive RegCall where
  | register (parent child : Int) (ptr : Nat) (mem_fd : Int) (hpc : Nat)
  | deregister (ctx : Nat) (waitpid : Nat → Int × Int) (fuel : Nat)

/-- What a caller and the allocator owe to a call: `sys_malloc_zero` returns a non-null
block that is not one of the live contexts, and `rec_sched_deregister_thread` is called
on a context that is in the table. -/
def RegCall.admissible (cfg : Config) (s : Sched) : RegCall → Prop
  | RegCall.register _ _ ptr _ _ => ptr ≠ 0 ∧ ¬ in_table cfg s ptr
  | RegCall.deregister ctx _ _ => ctx ≠ 0 ∧ in_table cfg s ctx

instance RegCall.admissible_decidable (cfg : Config) (s : Sched) (c : RegCall) :
    Decidable (RegCall.admissible cfg s c) := by
  cases c <;> unfold RegCall.admissible <;> infer_instance

/-- The call `c` made in state `s`. -/
def RegCall.exec (cfg : Config) (s : Sched) : RegCall → Res Sched Sched
  | RegCall.register parent child ptr mem_fd hpc =>
    rec_sched_register_thread cfg ptr mem_fd hpc s parent child
  | RegCall.deregister ctx waitpid fuel =>
    rec_sched_deregister_thread cfg waitpid fuel s ctx

/-- A sequence of admissible calls that all return, made one after the other; `none` when
a call is not admissible, aborts or does not return. -/
def reg_run (cfg : Config) : List RegCall → Sched → Option Sched
  | [], s => some s
  | c :: cs, s =>
    if RegCall.admissible cfg s c then
      match RegCall.exec cfg s c with
      | Res.ret s1 => reg_run cfg cs s1
      | _ => none
    else none

/-- The table is empty and the count is zero, as the zero-initialised statics are. -/
def Sched.empty_registry (cfg : Config) (s : Sched) : Prop :=
  (∀ i : Nat, i < cfg.NUM_MAX_THREADS → s.registered_threads (i : Int) = 0) ∧
    s.num_active_threads = 0

/-- Successive calls of `get_active_thread`, each passing the context the call before
returned; the first passes `ctx`.  `sched_run k s ctx` is the result of the `k`-th call
(`k = 0`: no call made yet). -/
def sched_run (cfg : Config) (probe : ProbeOracle) (fuel : Nat) :
    Nat → Sched → Nat → Option (Nat × Sched)
  | 0, s, ctx => some (ctx, s)
  | k + 1, s, ctx =>
    match sched_run cfg probe fuel k s ctx with
    | some (r, s1) => get_active_thread cfg probe fuel s1 r
    | none => none

/-- Exactly two registered threads, `pa` in slot `a` and `pb` in slot `b`, neither parked
in a syscall, and `pa` may be switched away from. -/
structure TwoThreads (cfg : Config) (s : Sched) (a b pa pb : Nat) : Prop where
  slot_a_lt : a < cfg.NUM_MAX_THREADS
  slot_b_lt : b < cfg.NUM_MAX_THREADS
  slots_ne : a ≠ b
  a_nonnull : pa ≠ 0
  b_nonnull : pb ≠ 0
  ctx_ne : pa ≠ pb
  at_a : s.registered_threads (a : Int) = pa
  at_b : s.registered_threads (b : Int) = pb
  others_null : ∀ i : Nat, i < cfg.NUM_MAX_THREADS → i ≠ a → i ≠ b →
    s.registered_threads (i : Int) = 0
  a_unparked : (s.heap pa).exec_state ≠ ExecState.EXEC_STATE_IN_SYSCALL
  b_unparked : (s.heap pb).exec_state ≠ ExecState.EXEC_STATE_IN_SYSCALL
  a_allows : (s.heap pa).allow_ctx_switch = true

/-- Exactly one registered thread, `p` in slot `a`, not parked in a syscall and allowing a
context switch. -/
structure OneThread (cfg : Config) (s : Sched) (a p : Nat) : Prop where
  slot_lt : a < cfg.NUM_MAX_THREADS
  nonnull : p ≠ 0
  at_slot : s.registered_threads (a : Int) = p
  others_null : ∀ i : Nat, i < cfg.NUM_MAX_THREADS → i ≠ a →
    s.registered_threads (i : Int) = 0
  unparked : (s.heap p).exec_state ≠ ExecState.EXEC_STATE_IN_SYSCALL
  allows : (s.heap p).allow_ctx_switch = true

/-- The invariant of the registry: the count is the number of non-null slots and every
context in a slot hashes to that slot. -/
def RegInv (cfg : Config) (s : Sched) : Prop :=
  s.num_active_threads = (populated_slots cfg s : Int) ∧
  ∀ i : Nat, i < cfg.NUM_MAX_THREADS → s.registered_threads (i : Int) ≠ 0 →
    cfg.HASH (s.heap (s.registered_threads (i : Int))).child_tid = (i : Int)

/-- The value a call returned, if it returned. -/
def Res.value {σ α : Type} : Res σ α → Option α
  | Res.ret a => some a
  | Res.abort _ _ => none
  | Res.timeout => none

/-- The locals at the end of one pass through the register-match loop. -/
def Iter.pos : Iter → Pos
  | Iter.next st => st
  | Iter.brk st => st

/-- The pass ended at the end of the body, not at a `break`. -/
def Iter.is_next : Iter → Bool
  | Iter.next _ => true
  | Iter.brk _ => false

/-- The value `read_rbc_up` returned before the current operation, for the loops of
`compensate_branch_count`: `rbc_now` is some earlier reading of the counter. -/
def Pos.read_before (env : ReplayEnv) (st : Pos) : Prop :=
  ∃ t : Nat, t < st.w.ops.length ∧ st.rbc_now = env.rbc_up t

/-- The counter reads more after a single-step than at any reading before it.  A
single-step and its wait are two operations, so two readings with a single-step between
them are at least three operations apart. -/
def ReplayEnv.counter_advances (env : ReplayEnv) : Prop :=
  ∀ t t1 : Nat, t + 3 ≤ t1 → env.rbc_up t < env.rbc_up t1

/-- Slot `i` of the table holds a context that is not parked in a syscall. -/
def Sched.runnable_slot (cfg : Config) (s : Sched) (i : Nat) : Prop :=
  i < cfg.NUM_MAX_THREADS ∧ s.registered_threads (i : Int) ≠ 0 ∧
    (s.heap (s.registered_threads (i : Int))).exec_state ≠ ExecState.EXEC_STATE_IN_SYSCALL

/-- Nothing the scan can come to is returnable: every word from the cursor on, and every
slot of the table, is null or holds a context parked in a syscall. -/
def Sched.all_parked (cfg : Config) (s : Sched) : Prop :=
  ∀ j : Int, (0 ≤ j ∨ s.thread_ptr ≤ j) → j < (cfg.NUM_MAX_THREADS : Int) →
    s.registered_threads j = 0 ∨
    (s.heap (s.registered_threads j)).exec_state = ExecState.EXEC_STATE_IN_SYSCALL

/-- Every registered thread is unparked and allows a context switch. -/
def AllRunnable (cfg : Config) (s : Sched) : Prop :=
  ∀ i : Nat, i < cfg.NUM_MAX_THREADS → s.registered_threads (i : Int) ≠ 0 →
    (s.heap (s.registered_threads (i : Int))).exec_state ≠ ExecState.EXEC_STATE_IN_SYSCALL ∧
    (s.heap (s.registered_threads (i : Int))).allow_ctx_switch = true

/-- Slot `b` is the first populated slot after slot `a` in cyclic increasing order (it is
`a` itself when no other slot is populated). -/
def NextPopulated (cfg : Config) (s : Sched) (a b : Nat) : Prop :=
  b < cfg.NUM_MAX_THREADS ∧ s.registered_threads (b : Int) ≠ 0 ∧
    if a < b then
      ∀ j : Nat, a < j → j < b → s.registered_threads (j : Int) = 0
    else
      ∀ j : Nat, (a < j ∧ j < cfg.NUM_MAX_THREADS) ∨ j < b →
        s.registered_threads (j : Int) = 0

/-- Slot `c` lies strictly between slot `a` and slot `b` on the way round the table from
`a` to `b`. -/
def between_slots (a b c : Nat) : Prop :=
  (a < b ∧ a < c ∧ c < b) ∨ (b < a ∧ (a < c ∨ c < b))

/-- The cursor after the `k`-th of the successive calls of `sched_run`. -/
def sched_cursor (cfg : Config) (probe : ProbeOracle) (fuel : Nat) (s : Sched) (ctx : Nat)
    (k : Nat) : Option Int :=
  (sched_run cfg probe fuel k s ctx).map (fun x => x.2.thread_ptr)

/-- The locals and the replay state with which the catch-up loop is entered: what lines
41-55 leave when the overshoot check of line 47 passed. -/
def position_entry (env : ReplayEnv) (w : Replay) : Pos :=
  { w := { ctx := w.ctx, ops := w.ops ++ [Op.read_rbc_up] ++ [Op.read_rbc_up] },
    rbc_now := env.rbc_up (w.ops ++ [Op.read_rbc_up]).length, found_spot := 0 }

/-- The number of `sys_ptrace_singlestep` calls among the operations. -/
def singlesteps (ops : List Op) : Nat :=
  ops.countP (fun o => match o with
    | Op.sys_ptrace_singlestep _ _ => true
    | _ => false)

/-- The value `compare_register_files` returns in a pass through the register-match loop
that starts in `st`: the registers are those the child has at the first operation of the
pass. -/
def Pos.check (env : ReplayEnv) (st : Pos) : Int :=
  env.compare_register_files (env.child_regs st.w.ops.length) st.w.ctx.trace.recorded_regs 0 0

/-- The comparison of a pass that starts in `st` yields 0 or 0x80. -/
def Pos.regs_match (env : ReplayEnv) (st : Pos) : Prop :=
  st.check env = 0 ∨ st.check env = 0x80

instance Pos.regs_match_decidable (env : ReplayEnv) (st : Pos) :
    Decidable (st.regs_match env) := by
  unfold Pos.regs_match; infer_instance

/-- The state in which the register-match loop, entered in `st`, starts its pass number
`k` (counted from 0), if it gets that far: the loop condition `rbc_now == rbc_rec` held
every time and every earlier pass reached the end of the body. -/
def pass_start (env : ReplayEnv) (sig : Int) (rbc_rec : Nat) : Nat → Pos → Option Pos
  | 0, st => if st.rbc_now = rbc_rec then some st else none
  | k + 1, st =>
    if st.rbc_now = rbc_rec then
      match match_iter env sig st with
      | Res.ret (Iter.next st1) => pass_start env sig rbc_rec k st1
      | _ => none
    else none

/-- Some pass of the register-match loop entered in `st` compares the registers with the
result 0 or 0x80 (the pass runs, so `rbc_now == rbc_rec` holds at its start). -/
def match_occurs (env : ReplayEnv) (sig : Int) (rbc_rec : Nat) (st : Pos) : Prop :=
  ∃ (k : Nat) (stk : Pos), pass_start env sig rbc_rec k st = some stk ∧ stk.regs_match env

/-- The counter never reads less than at an earlier operation. -/
def ReplayEnv.counter_monotone (env : ReplayEnv) : Prop :=
  ∀ t t1 : Nat, t ≤ t1 → env.rbc_up t ≤ env.rbc_up t1

/-- The labels of the `switch` of `rep_process_signal` are pairwise distinct, as C
requires of a `switch`. -/
def SignalConfig.labels_distinct (scfg : SignalConfig) : Prop :=
  [- scfg.SIG_SEGV_RDTSC, - scfg.USR_SCHED, SIGIO, SIGCHLD, SIGSEGV].Nodup

instance SignalConfig.labels_distinct_decidable (scfg : SignalConfig) :
    Decidable scfg.labels_distinct := by
  unfold SignalConfig.labels_distinct; infer_instance

/-- The replay state in which a call ended, by return or by abort. -/
def Res.final {α : Type} : Res Replay α → (α → Replay) → Option Replay
  | Res.ret a, f => some (f a)
  | Res.abort _ a, _ => some a
  | Res.timeout, _ => none

/-! ## Sample data for the closed statements -/

/-- A small configuration: four slots, a quantum of two re-selections. -/
def cfg4 : Config :=
  { NUM_MAX_THREADS := 4, MAX_SWITCH_COUNTER := 2, MAX_TID := 4, HASH := fun tid => tid % 4 }

/-- A probe that never reports readiness. -/
def never_ready : ProbeOracle := fun _ _ => (0, 0)

/-- A thread context that may be switched away from. -/
def ctx_of (tid : Int) (st : ExecState) (allow : Bool) (sc : Int) : context :=
  { context.zero with child_tid := tid, exec_state := st, allow_ctx_switch := allow,
                      switch_counter := sc }

/-- The statics before the first call: empty table, null neighbours, cursor `-1`. -/
def sched_init : Sched :=
  { heap := fun _ => context.zero, registered_threads := fun _ => 0,
    num_active_threads := 0, thread_ptr := -1, reads := [], probes := [] }

/-- A `waitpid` that reports the exit of the child at once. -/
def waitpid_gone : Nat → Int × Int := fun _ => (-1, 0)

/-- Two registrations and one deregistration: tids 1 and 2 into blocks 10 and 11, then
the context in block 10 leaves. -/
def sample_calls : List RegCall :=
  [RegCall.register 0 1 10 3 20, RegCall.register 0 2 11 4 21,
   RegCall.deregister 10 waitpid_gone 1]

/-- One registered thread: tid 1 in block 1 and slot 1. -/
def one_thread (cursor sc : Int) (st : ExecState) (allow : Bool) : Sched :=
  { heap := fun p => if p = 1 then ctx_of 1 st allow sc else context.zero,
    registered_threads := fun i => if i = 1 then 1 else 0,
    num_active_threads := 1, thread_ptr := cursor, reads := [], probes := [] }

/-- Two registered threads that run and may be switched: tid 1 in block 1 and slot 1,
tid 2 in block 2 and slot 2. -/
def two_threads (cursor sc1 sc2 : Int) : Sched :=
  { heap := fun p =>
      if p = 1 then ctx_of 1 ExecState.EXEC_STATE_RUNNING true sc1
      else if p = 2 then ctx_of 2 ExecState.EXEC_STATE_RUNNING true sc2
      else context.zero,
    registered_threads := fun i => if i = 1 then 1 else if i = 2 then 2 else 0,
    num_active_threads := 2, thread_ptr := cursor, reads := [], probes := [] }

/-- A probe that reports readiness at once, with a stop status. -/
def always_ready : ProbeOracle := fun _ tid => (tid, 0x57f)

/-- A child whose counter reads `rbc t` at the `t`-th operation, whose every stop is a
plain `SIGTRAP` stop and whose registers always compare to `check`. -/
def env_of (rbc : Nat → Nat) (check : Int) : ReplayEnv :=
  { rbc_up := rbc, wait_status := fun _ => 0x57f,
    child_regs := fun _ => user_regs_struct.zero,
    compare_register_files := fun _ _ _ _ => check }

/-- A context replaying a `SIGIO` (29, recorded as `stop_reason = -29`) at branch count
`rbc_rec`, with a status and a pending signal left from before, and no operation issued
yet. -/
def replay_at (rbc_rec : Nat) : Replay :=
  { ctx := { context.zero with
               child_tid := 1, status := 0x1d7f, child_sig := 29,
               trace := ⟨-29, rbc_rec, 0, 7, user_regs_struct.zero⟩ },
    ops := [] }

/-- A counter that moves from 0 to 1 at the first single-step of
`compensate_branch_count` and then stands still. -/
def rbc_stuck : Nat → Nat := fun t => if t < 4 then 0 else 1

/-- The state `s` with `word` in the memory just below the table, where index `-1`
reads. -/
def below_table (s : Sched) (word : Nat) : Sched :=
  { s with registered_threads := fun i => if i = -1 then word else s.registered_threads i }

/-- Three registered threads that run and may be switched, in slots 0, 1 and 3 (blocks 4,
1 and 3), with the cursor on slot 1. -/
def three_threads (sc : Int) : Sched :=
  { heap := fun p =>
      if p = 4 then ctx_of 4 ExecState.EXEC_STATE_RUNNING true 2
      else if p = 1 then ctx_of 1 ExecState.EXEC_STATE_RUNNING true sc
      else if p = 3 then ctx_of 3 ExecState.EXEC_STATE_RUNNING true 2
      else context.zero,
    registered_threads := fun i => if i = 0 then 4 else if i = 1 then 1 else if i = 3 then 3 else 0,
    num_active_threads := 3, thread_ptr := 1, reads := [], probes := [] }

/-- A probe that reports "not ready" the first time and readiness from then on. -/
def ready_second_time : ProbeOracle := fun k tid => if k = 0 then (0, 0) else (tid, 0x57f)

/-- A counter that reads 0 until the second single-step of `compensate_branch_count` is
done, and 1 from then on. -/
def rbc_late : Nat → Nat := fun t => if t < 7 then 0 else 1

/-- Sample values of the two synthetic stop reasons. -/
def sample_signals : SignalConfig := { SIG_SEGV_RDTSC := -1005, USR_SCHED := -1006 }

/-- The surroundings of the dispatcher: the child and counter `renv`, a
`goto_next_event` that leaves the wait status `status_next` in the context, the
instruction `inst` at the child's `eip`, a `compare_register_files` that always returns,
and the owner `owner` of the down counter's descriptor. -/
def signal_env (renv : ReplayEnv) (status_next : Int) (inst : List Char × Int)
    (owner : Int) : SignalEnv :=
  { toReplayEnv := renv,
    goto_next_event := fun _ c => { c with status := status_next },
    get_inst := fun _ => inst,
    compare_stops := fun _ _ _ _ => false,
    getown := fun _ => owner }

/-- A context of tid 1 about to replay the event `stop_reason` recorded at branch count
`rbc_rec` with the registers `recorded`; no signal pending, no operation issued yet. -/
def event_at (stop_reason : Int) (rbc_rec : Nat) (recorded : user_regs_struct) : Replay :=
  { ctx := { context.zero with
               child_tid := 1, trace := ⟨stop_reason, rbc_rec, 0, 7, recorded⟩ },
    ops := [] }

/-- The registers the child has when it stops at an `rdtsc`. -/
def regs_at_rdtsc : user_regs_struct :=
  { user_regs_struct.zero with eax := 5, ebx := 6, edx := 7, eip := 0x8048000, esp := 0xbffff000 }

/-- The registers recorded after the `rdtsc`. -/
def regs_after_rdtsc : user_regs_struct :=
  { regs_at_rdtsc with eax := 0xDEADBEEF, edx := 0x12345678, eip := 0x8048002 }

/-- The surroundings of an `rdtsc` replay: the child stops with `SIGSEGV` (status
`0xb7f`) at a two-byte `rdtsc`, its registers being `regs_at_rdtsc`. -/
def env_rdtsc : SignalEnv :=
  signal_env { env_of (fun _ => 0) 0 with child_regs := fun _ => regs_at_rdtsc } 0xb7f
    (['r', 'd', 't', 's', 'c'], 2) 1

theorem populated_slots_fill (cfg : Config) (s s1 : Sched)
    (k : Nat) (p : Nat) (hk : k < cfg.NUM_MAX_THREADS) (hp : p ≠ 0)
    (h0 : s.registered_threads (k : Int) = 0)
    (h1 : s1.registered_threads = Function.update s.registered_threads (k : Int) p) :
    populated_slots cfg s1 = populated_slots cfg s + 1 := by
  unfold populated_slots
  rw [h1]
  have : (Finset.range cfg.NUM_MAX_THREADS).filter
      (fun i : Nat => Function.update s.registered_threads (k : Int) p (i : Int) ≠ 0)
      = insert k ((Finset.range cfg.NUM_MAX_THREADS).filter
          (fun i : Nat => s.registered_threads (i : Int) ≠ 0)) := by
    ext i
    simp only [Finset.mem_filter, Finset.mem_range, Finset.mem_insert]
    by_cases hik : i = k
    · subst hik; simp [hp, hk]
    · have : (i : Int) ≠ (k : Int) := by exact_mod_cast hik
      simp [Function.update_noteq this, hik]
  simp only [this]
  rw [Finset.card_insert_of_not_mem]
  simp [h0]

theorem populated_slots_clear (cfg : Config) (s s1 : Sched)
    (k : Nat) (hk : k < cfg.NUM_MAX_THREADS)
    (h0 : s.registered_threads (k : Int) ≠ 0)
    (h1 : s1.registered_threads = Function.update s.registered_threads (k : Int) 0) :
    populated_slots cfg s1 + 1 = populated_slots cfg s := by
  unfold populated_slots
  rw [h1]
  have : (Finset.range cfg.NUM_MAX_THREADS).filter
      (fun i : Nat => Function.update s.registered_threads (k : Int) 0 (i : Int) ≠ 0)
      = ((Finset.range cfg.NUM_MAX_THREADS).filter
          (fun i : Nat => s.registered_threads (i : Int) ≠ 0)).erase k := by
    ext i
    simp only [Finset.mem_filter, Finset.mem_range, Finset.mem_erase]
    by_cases hik : i = k
    · subst hik; simp
    · have : (i : Int) ≠ (k : Int) := by exact_mod_cast hik
      simp [Function.update_noteq this, hik]
  simp only [this]
  rw [Finset.card_erase_of_mem (by simp [hk, h0])]
  have : 0 < ((Finset.range cfg.NUM_MAX_THREADS).filter
          (fun i : Nat => s.registered_threads (i : Int) ≠ 0)).card :=
    Finset.card_pos.mpr ⟨k, by simp [hk, h0]⟩
  omega

theorem drain_waitpid_frame (waitpid : Nat → Int × Int) (ctx : Nat) :
    ∀ (fuel k : Nat) (s s1 : Sched), drain_waitpid waitpid ctx fuel k s = some s1 →
      s1.registered_threads = s.registered_threads ∧
      s1.num_active_threads = s.num_active_threads ∧
      ∀ p, (s1.heap p).child_tid = (s.heap p).child_tid := by
  intro fuel
  induction fuel with
  | zero => intro k s s1 h; simp [drain_waitpid] at h
  | succ f ih =>
    intro k s s1 h
    simp only [drain_waitpid] at h
    split at h
    · obtain ⟨h1, h2, h3⟩ := ih _ _ _ h
      refine ⟨h1, h2, fun p => ?_⟩
      rw [h3 p]
      by_cases hp : p = ctx
      · subst hp; simp
      · simp [Function.update_noteq hp]
    · cases h
      refine ⟨rfl, rfl, fun p => ?_⟩
      by_cases hp : p = ctx
      · subst hp; simp
      · simp [Function.update_noteq hp]

theorem populated_slots_congr (cfg : Config) (s s1 : Sched)
    (h : s1.registered_threads = s.registered_threads) :
    populated_slots cfg s1 = populated_slots cfg s := by
  unfold populated_slots; rw [h]

theorem register_keeps_inv (cfg : Config) (hh : cfg.hash_in_range) (s s1 : Sched)
    (parent child : Int) (ptr : Nat) (mem_fd : Int) (hpc : Nat)
    (hinv : RegInv cfg s) (hptr : ptr ≠ 0) (hfresh : ¬ in_table cfg s ptr)
    (hret : rec_sched_register_thread cfg ptr mem_fd hpc s parent child = Res.ret s1) :
    RegInv cfg s1 := by
  unfold rec_sched_register_thread at hret
  dsimp only at hret
  split at hret
  · cases hret
  · rename_i hc
    simp only [not_not] at hc
    obtain ⟨hlo, hhi⟩ := hh child hc.1 hc.2
    split at hret
    · cases hret
    · rename_i hslot
      simp only [ne_eq, not_not] at hslot
      obtain ⟨k, hk⟩ : ∃ k : Nat, cfg.HASH child = (k : Int) := ⟨(cfg.HASH child).toNat, by omega⟩
      have hkN : k < cfg.NUM_MAX_THREADS := by omega
      rw [hk] at hret hslot
      injection hret with hret
      subst hret
      refine ⟨?_, ?_⟩
      · rw [populated_slots_fill cfg s _ k ptr hkN hptr hslot rfl]
        simp only [hinv.1]; push_cast; ring
      · intro i hi hne
        by_cases hik : i = k
        · subst hik
          dsimp only
          rw [Function.update_same, Function.update_same]
          exact hk
        · have hik2 : (i : Int) ≠ (k : Int) := by exact_mod_cast hik
          have hp : s.registered_threads (i : Int) ≠ ptr := by
            intro he; exact hfresh ⟨i, by simpa using hi, he⟩
          dsimp only at hne ⊢
          rw [Function.update_noteq hik2] at hne ⊢
          rw [Function.update_noteq hp]
          exact hinv.2 i hi hne

theorem deregister_keeps_inv (cfg : Config) (s : Sched)
    (waitpid : Nat → Int × Int) (fuel : Nat) (ctx : Nat)
    (hinv : RegInv cfg s) (hctx : ctx ≠ 0) (hin : in_table cfg s ctx) :
    (∀ why a, rec_sched_deregister_thread cfg waitpid fuel s ctx ≠ Res.abort why a) ∧
    ∀ s1, rec_sched_deregister_thread cfg waitpid fuel s ctx = Res.ret s1 → RegInv cfg s1 := by
  obtain ⟨k, hk, hkc⟩ := hin
  simp only [Finset.mem_range] at hk
  have hne : s.registered_threads (k : Int) ≠ 0 := by rw [hkc]; exact hctx
  have hhash : cfg.HASH (s.heap ctx).child_tid = (k : Int) := by
    have := hinv.2 k hk hne
    rwa [hkc] at this
  unfold rec_sched_deregister_thread
  simp only [hhash]
  have hpos := populated_slots_clear cfg s
    { s with registered_threads := Function.update s.registered_threads (k : Int) 0 }
    k hk hne rfl
  have hnn : ¬ ¬ (s.num_active_threads - 1 ≥ 0) := by
    rw [hinv.1]; omega
  simp only [hnn, if_false]
  constructor
  · intro why a
    split <;> simp
  · intro s1 h
    split at h
    · rename_i s2 hd
      injection h with h
      subst h
      obtain ⟨h1, h2, h3⟩ := drain_waitpid_frame _ _ _ _ _ _ hd
      refine ⟨?_, ?_⟩
      · have hcount := populated_slots_clear cfg s s2 k hk hne h1
        rw [h2]
        simp only
        rw [hinv.1]; omega
      · intro i hi hne2
        rw [h1] at hne2 ⊢
        simp only at hne2 ⊢
        rw [h3]
        by_cases hik : i = k
        · subst hik; simp at hne2
        · have hik2 : (i : Int) ≠ (k : Int) := by exact_mod_cast hik
          simp only [Function.update_noteq hik2] at hne2 ⊢
          exact hinv.2 i hi hne2
    · cases h

theorem reg_run_keeps_inv (cfg : Config) (hh : cfg.hash_in_range) :
    ∀ (calls : List RegCall) (s s1 : Sched), RegInv cfg s → reg_run cfg calls s = some s1 →
      RegInv cfg s1 := by
  intro calls
  induction calls with
  | nil => intro s s1 hinv h; simp [reg_run] at h; subst h; exact hinv
  | cons c cs ih =>
    intro s s1 hinv h
    simp only [reg_run] at h
    split at h
    · rename_i hadm
      split at h
      · rename_i s2 hex
        refine ih s2 s1 ?_ h
        cases c with
        | register parent child ptr mem_fd hpc =>
          exact register_keeps_inv cfg hh s s2 parent child ptr mem_fd hpc hinv hadm.1 hadm.2 hex
        | deregister ctx waitpid fuel =>
          exact (deregister_keeps_inv cfg s waitpid fuel ctx hinv hadm.1 hadm.2).2 s2 hex
      · cases h
    · cases h

theorem empty_registry_inv (cfg : Config) (s : Sched) (h : s.empty_registry cfg) :
    RegInv cfg s := by
  refine ⟨?_, fun i hi hne => absurd (h.1 i hi) hne⟩
  rw [h.2]
  unfold populated_slots
  have : (Finset.range cfg.NUM_MAX_THREADS).filter
      (fun i : Nat => s.registered_threads (i : Int) ≠ 0) = ∅ := by
    ext i; simp; intro hi; exact h.1 i hi
  simp [this]

/-- C1: from the empty registry, after every sequence of admissible register and
deregister calls that return, `rec_sched_get_num_threads` is the number of non-null slots
of `registered_threads` and is not negative; and the `assert(num_active_threads >= 0)` of
a further admissible deregister call does not fire. -/
theorem num_threads_eq_populated_slots (cfg : Config) (hh : cfg.hash_in_range)
    (s0 : Sched) (h0 : s0.empty_registry cfg) (calls : List RegCall) (s : Sched)
    (hrun : reg_run cfg calls s0 = some s) :
    rec_sched_get_num_threads s = (populated_slots cfg s : Int) ∧
    0 ≤ rec_sched_get_num_threads s ∧
    ∀ (ctx : Nat) (waitpid : Nat → Int × Int) (fuel : Nat),
      RegCall.admissible cfg s (RegCall.deregister ctx waitpid fuel) →
      ∀ why a, rec_sched_deregister_thread cfg waitpid fuel s ctx ≠ Res.abort why a := by
  have hinv := reg_run_keeps_inv cfg hh calls s0 s (empty_registry_inv cfg s0 h0) hrun
  refine ⟨hinv.1, ?_, ?_⟩
  · unfold rec_sched_get_num_threads; rw [hinv.1]; omega
  · intro ctx waitpid fuel hadm
    exact (deregister_keeps_inv cfg s waitpid fuel ctx hinv hadm.1 hadm.2).1

theorem cfg4_hash_in_range : cfg4.hash_in_range := by
  intro tid h1 h2
  simp only [cfg4] at h2 ⊢
  omega

theorem sched_init_empty : sched_init.empty_registry cfg4 := by
  constructor
  · intro i _; rfl
  · rfl

/-- The instance of C1 at `sample_calls`: the run returns, and the count and the number
of non-null slots are both 1. -/
theorem num_threads_eq_populated_slots_witness :
    ∃ s, reg_run cfg4 sample_calls sched_init = some s ∧
      (rec_sched_get_num_threads s = (populated_slots cfg4 s : Int) ∧
       0 ≤ rec_sched_get_num_threads s) ∧
      rec_sched_get_num_threads s = 1 :=
  ⟨_, rfl,
    ⟨(num_threads_eq_populated_slots cfg4 cfg4_hash_in_range sched_init sched_init_empty
        sample_calls _ rfl).1,
     (num_threads_eq_populated_slots cfg4 cfg4_hash_in_range sched_init sched_init_empty
        sample_calls _ rfl).2.1⟩,
    by decide⟩

/-- C8: `rec_sched_register_thread` aborts on an assertion whenever slot `HASH(child)` is
already populated, and whenever `child` is outside the open range `(0, MAX_TID)`; the
state at the abort (table, count and all the rest) is the state at entry. -/
theorem register_rejects_taken_slot (cfg : Config) (ptr : Nat) (mem_fd : Int) (hpc : Nat)
    (s : Sched) (parent child : Int) :
    (s.registered_threads (cfg.HASH child) ≠ 0 →
      ∃ why, rec_sched_register_thread cfg ptr mem_fd hpc s parent child = Res.abort why s) ∧
    (¬ (0 < child ∧ child < cfg.MAX_TID) →
      rec_sched_register_thread cfg ptr mem_fd hpc s parent child
        = Res.abort Fault.assert_child_range s) := by
  constructor
  · intro h
    unfold rec_sched_register_thread
    by_cases hc : child > 0 ∧ child < cfg.MAX_TID
    · exact ⟨Fault.assert_slot_empty, by simp [hc, h]⟩
    · exact ⟨Fault.assert_child_range, by simp [hc]⟩
  · intro h
    unfold rec_sched_register_thread
    have : ¬ (child > 0 ∧ child < cfg.MAX_TID) := h
    simp [this]

/-- The instance of C8 at a table whose slot 1 is taken (tid 1 again) and at the tid 4,
which is not below `MAX_TID = 4`. -/
theorem register_rejects_taken_slot_witness :
    (one_thread 1 0 ExecState.EXEC_STATE_START false).registered_threads (cfg4.HASH 1) ≠ 0 ∧
    ¬ (0 < (4 : Int) ∧ (4 : Int) < cfg4.MAX_TID) ∧
    (∃ why, rec_sched_register_thread cfg4 10 3 20
        (one_thread 1 0 ExecState.EXEC_STATE_START false) 0 1
      = Res.abort why (one_thread 1 0 ExecState.EXEC_STATE_START false)) ∧
    rec_sched_register_thread cfg4 10 3 20 sched_init 0 4
      = Res.abort Fault.assert_child_range sched_init :=
  ⟨by decide, by decide,
    (register_rejects_taken_slot cfg4 10 3 20
      (one_thread 1 0 ExecState.EXEC_STATE_START false) 0 1).1 (by decide),
    (register_rejects_taken_slot cfg4 10 3 20 sched_init 0 4).2 (by decide)⟩

/-! ## `get_active_thread`: what holds of every call -/

/-- C2: for a non-null `ctx` with `allow_ctx_switch == false`, `get_active_thread(ctx)`
returns `ctx` and the state at return is the state at entry: cursor, every context, and
the records of slot reads and of probes (none is issued). -/
theorem sticky_returns_current_unchanged (cfg : Config) (probe : ProbeOracle) (fuel : Nat)
    (s : Sched) (ctx : Nat) (hctx : ctx ≠ 0)
    (hallow : (s.heap ctx).allow_ctx_switch = false) :
    get_active_thread cfg probe fuel s ctx = some (ctx, s) := by
  unfold get_active_thread
  simp [hctx, hallow]

/-- The instance of C2 at a parked thread that forbids the switch, with no fuel at all. -/
theorem sticky_returns_current_unchanged_witness :
    (1 : Nat) ≠ 0 ∧
    ((one_thread 1 0 ExecState.EXEC_STATE_IN_SYSCALL false).heap 1).allow_ctx_switch = false ∧
    get_active_thread cfg4 never_ready 0
        (one_thread 1 0 ExecState.EXEC_STATE_IN_SYSCALL false) 1
      = some (1, one_thread 1 0 ExecState.EXEC_STATE_IN_SYSCALL false) :=
  ⟨by decide, by decide,
    sticky_returns_current_unchanged cfg4 never_ready 0
      (one_thread 1 0 ExecState.EXEC_STATE_IN_SYSCALL false) 1 (by decide) (by decide)⟩

theorem set_switch_counter_exec_state (cfg : Config) (i tmp : Int) (c : context) :
    (set_switch_counter cfg i tmp c).exec_state = c.exec_state := by
  unfold set_switch_counter; split <;> rfl

theorem set_switch_counter_cases (cfg : Config) (i tmp : Int) (c : context) :
    (set_switch_counter cfg i tmp c).switch_counter = cfg.MAX_SWITCH_COUNTER ∨
    (set_switch_counter cfg i tmp c).switch_counter = c.switch_counter - 1 := by
  unfold set_switch_counter; split
  · right; rfl
  · left; rfl

/-- What every return of the scan has in common: the returned context is not left
`EXEC_STATE_IN_SYSCALL`; its counter is the full quantum or one less than before; and if
it was parked when the scan began, the last probe issued was for its tid and reported
readiness. -/
theorem scan_returned (cfg : Config) (probe : ProbeOracle) (tmp : Int) :
    ∀ (fuel : Nat) (s : Sched) (r : Nat) (s1 : Sched),
      scan cfg probe tmp fuel s = some (r, s1) →
      (s1.heap r).exec_state ≠ ExecState.EXEC_STATE_IN_SYSCALL ∧
      ((s1.heap r).switch_counter = cfg.MAX_SWITCH_COUNTER ∨
       (s1.heap r).switch_counter = (s.heap r).switch_counter - 1) ∧
      ((s.heap r).exec_state = ExecState.EXEC_STATE_IN_SYSCALL →
        ∃ before, s1.probes = before ++ [(s.heap r).child_tid] ∧
          (probe before.length (s.heap r).child_tid).1 ≠ 0) := by
  intro fuel
  induction fuel with
  | zero => intro s r s1 h; simp [scan] at h
  | succ f ih =>
    intro s r s1 h
    unfold scan at h
    dsimp only at h
    split at h
    · split at h
      · split at h
        · split at h
          · rename_i hready
            injection h with h
            injection h with hr hs
            subst hr; subst hs
            dsimp only
            rw [Function.update_same]
            refine ⟨?_, ?_, ?_⟩
            · rw [set_switch_counter_exec_state]; simp
            · have := set_switch_counter_cases cfg s.thread_ptr tmp
                { s.heap (s.registered_threads s.thread_ptr) with
                    status := (probe s.probes.length
                      (s.heap (s.registered_threads s.thread_ptr)).child_tid).2,
                    exec_state := ExecState.EXEC_STATE_IN_SYSCALL_DONE }
              exact this
            · intro _
              exact ⟨s.probes, rfl, hready⟩
          · obtain ⟨h1, h2, h3⟩ := ih _ _ _ h
            dsimp only at h2 h3
            by_cases hp : r = s.registered_threads s.thread_ptr
            · subst hp
              rw [Function.update_same] at h2 h3
              exact ⟨h1, h2, h3⟩
            · rw [Function.update_noteq hp] at h2 h3
              exact ⟨h1, h2, h3⟩
        · rename_i hst
          injection h with h
          injection h with hr hs
          subst hr; subst hs
          dsimp only
          rw [Function.update_same]
          refine ⟨?_, set_switch_counter_cases _ _ _ _, fun hpark => absurd hpark hst⟩
          rw [set_switch_counter_exec_state]; exact hst
      · have h1 := ih _ _ _ h
        exact h1
    · have h1 := ih _ _ _ h
      exact h1

theorem scan_wrap (cfg : Config) (probe : ProbeOracle) (tmp : Int) (fuel : Nat) (s : Sched)
    (h : ¬ s.thread_ptr < (cfg.NUM_MAX_THREADS : Int)) :
    scan cfg probe tmp (fuel + 1) s = scan cfg probe tmp fuel { s with thread_ptr := 0 } := by
  rw [scan]; simp only [h, if_false]

theorem scan_null (cfg : Config) (probe : ProbeOracle) (tmp : Int) (fuel : Nat) (s : Sched)
    (h : s.thread_ptr < (cfg.NUM_MAX_THREADS : Int))
    (h0 : s.registered_threads s.thread_ptr = 0) :
    scan cfg probe tmp (fuel + 1) s =
      scan cfg probe tmp fuel
        { s with reads := s.reads ++ [s.thread_ptr], thread_ptr := s.thread_ptr + 1 } := by
  rw [scan]; simp only [h, h0, if_true, ne_eq, not_true_eq_false, if_false]

theorem scan_hit (cfg : Config) (probe : ProbeOracle) (tmp : Int) (fuel : Nat) (s : Sched)
    (h : s.thread_ptr < (cfg.NUM_MAX_THREADS : Int))
    (h0 : s.registered_threads s.thread_ptr ≠ 0)
    (hst : (s.heap (s.registered_threads s.thread_ptr)).exec_state
      ≠ ExecState.EXEC_STATE_IN_SYSCALL) :
    scan cfg probe tmp (fuel + 1) s =
      some (s.registered_threads s.thread_ptr,
        { s with reads := s.reads ++ [s.thread_ptr],
                 heap := Function.update s.heap (s.registered_threads s.thread_ptr)
                   (set_switch_counter cfg s.thread_ptr tmp
                     (s.heap (s.registered_threads s.thread_ptr))) }) := by
  rw [scan]; simp only [h, h0, hst, if_true, ne_eq, not_false_eq_true, if_false]

/-- From the cursor, `n` null words and then an unparked context in slot `i`: the scan
returns that context and leaves the cursor on its slot. -/
theorem scan_find (cfg : Config) (probe : ProbeOracle) (tmp : Int) :
    ∀ (n : Nat) (s : Sched) (fuel : Nat) (i : Nat) (p : Nat),
      s.thread_ptr + (n : Int) = (i : Int) → i < cfg.NUM_MAX_THREADS →
      (∀ j : Nat, j < n → s.registered_threads (s.thread_ptr + (j : Int)) = 0) →
      s.registered_threads (i : Int) = p → p ≠ 0 →
      (s.heap p).exec_state ≠ ExecState.EXEC_STATE_IN_SYSCALL →
      n + 1 ≤ fuel →
      ∃ s1, scan cfg probe tmp fuel s = some (p, s1) ∧ s1.thread_ptr = (i : Int) ∧
        s1.registered_threads = s.registered_threads ∧
        s1.heap = Function.update s.heap p (set_switch_counter cfg (i : Int) tmp (s.heap p)) ∧
        s1.num_active_threads = s.num_active_threads ∧ s1.probes = s.probes := by
  intro n
  induction n with
  | zero =>
    intro s fuel i p hc hi _ hp hp0 hst hf
    obtain ⟨f, rfl⟩ : ∃ f, fuel = f + 1 := ⟨fuel - 1, by omega⟩
    have hc2 : s.thread_ptr = (i : Int) := by simpa using hc
    have hlt : s.thread_ptr < (cfg.NUM_MAX_THREADS : Int) := by rw [hc2]; exact_mod_cast hi
    have hp2 : s.registered_threads s.thread_ptr = p := by rw [hc2]; exact hp
    rw [scan_hit cfg probe tmp f s hlt (by rw [hp2]; exact hp0) (by rw [hp2]; exact hst)]
    rw [hp2, hc2]
    exact ⟨_, rfl, rfl, rfl, rfl, rfl, rfl⟩
  | succ n ih =>
    intro s fuel i p hc hi hnull hp hp0 hst hf
    obtain ⟨f, rfl⟩ : ∃ f, fuel = f + 1 := ⟨fuel - 1, by omega⟩
    have hlt : s.thread_ptr < (cfg.NUM_MAX_THREADS : Int) := by
      have : (i : Int) < (cfg.NUM_MAX_THREADS : Int) := by exact_mod_cast hi
      push_cast at hc; omega
    have h0 : s.registered_threads s.thread_ptr = 0 := by
      have := hnull 0 (by omega); simpa using this
    rw [scan_null cfg probe tmp f s hlt h0]
    have := ih { s with reads := s.reads ++ [s.thread_ptr], thread_ptr := s.thread_ptr + 1 }
      f i p (by push_cast at hc ⊢; omega) hi
      (by
        intro j hj
        have := hnull (j + 1) (by omega)
        dsimp only
        rw [← this]; congr 1; push_cast; ring)
      hp hp0 hst (by omega)
    exact this

/-- From the cursor, `n` null words up to the end of the table: the scan wraps to slot 0. -/
theorem scan_to_end (cfg : Config) (probe : ProbeOracle) (tmp : Int) :
    ∀ (n : Nat) (s : Sched) (fuel : Nat),
      s.thread_ptr + (n : Int) = (cfg.NUM_MAX_THREADS : Int) →
      (∀ j : Nat, j < n → s.registered_threads (s.thread_ptr + (j : Int)) = 0) →
      ∃ rd, scan cfg probe tmp (fuel + n + 1) s =
        scan cfg probe tmp fuel { s with thread_ptr := 0, reads := rd } := by
  intro n
  induction n with
  | zero =>
    intro s fuel hc _
    have hge : ¬ s.thread_ptr < (cfg.NUM_MAX_THREADS : Int) := by
      simp only [Nat.cast_zero, add_zero] at hc; omega
    exact ⟨s.reads, by rw [Nat.add_zero, scan_wrap cfg probe tmp fuel s hge]⟩
  | succ n ih =>
    intro s fuel hc hnull
    have hlt : s.thread_ptr < (cfg.NUM_MAX_THREADS : Int) := by push_cast at hc; omega
    have h0 : s.registered_threads s.thread_ptr = 0 := by
      have := hnull 0 (by omega); simpa using this
    have e : fuel + (n + 1) + 1 = (fuel + n + 1) + 1 := by omega
    rw [e, scan_null cfg probe tmp (fuel + n + 1) s hlt h0]
    obtain ⟨rd, hrd⟩ := ih
      { s with reads := s.reads ++ [s.thread_ptr], thread_ptr := s.thread_ptr + 1 } fuel
      (by push_cast at hc ⊢; omega)
      (by
        intro j hj
        have := hnull (j + 1) (by omega)
        dsimp only
        rw [← this]; congr 1; push_cast; ring)
    exact ⟨rd, hrd⟩

/-- From the cursor, null words to the end of the table, null slots `0 .. i-1` and an
unparked context in slot `i`: the scan wraps once and returns that context. -/
theorem scan_find_wrap (cfg : Config) (probe : ProbeOracle) (tmp : Int)
    (n : Nat) (s : Sched) (fuel : Nat) (i : Nat) (p : Nat)
    (hc : s.thread_ptr + (n : Int) = (cfg.NUM_MAX_THREADS : Int))
    (hnull : ∀ j : Nat, j < n → s.registered_threads (s.thread_ptr + (j : Int)) = 0)
    (hi : i < cfg.NUM_MAX_THREADS)
    (hlow : ∀ j : Nat, j < i → s.registered_threads (j : Int) = 0)
    (hp : s.registered_threads (i : Int) = p) (hp0 : p ≠ 0)
    (hst : (s.heap p).exec_state ≠ ExecState.EXEC_STATE_IN_SYSCALL)
    (hf : n + 1 + i + 1 ≤ fuel) :
    ∃ s1, scan cfg probe tmp fuel s = some (p, s1) ∧ s1.thread_ptr = (i : Int) ∧
      s1.registered_threads = s.registered_threads ∧
      s1.heap = Function.update s.heap p (set_switch_counter cfg (i : Int) tmp (s.heap p)) ∧
      s1.num_active_threads = s.num_active_threads ∧ s1.probes = s.probes := by
  obtain ⟨f, rfl⟩ : ∃ f, fuel = f + n + 1 := ⟨fuel - n - 1, by omega⟩
  obtain ⟨rd, hrd⟩ := scan_to_end cfg probe tmp n s f hc hnull
  rw [hrd]
  have := scan_find cfg probe tmp i { s with thread_ptr := 0, reads := rd } f i p
    (by simp) hi (by intro j hj; simpa using hlow j hj) hp hp0 hst (by omega)
  exact this

/-- C3 (counterexample): a single thread whose quantum has expired (`switch_counter == -1`,
cursor on its slot, `MAX_SWITCH_COUNTER == 2`) is returned with `switch_counter == 1`,
which is neither `MAX_SWITCH_COUNTER` nor its value at entry minus 1; and a thread that
forbids the switch is returned with its counter as it was, `0`. -/
theorem returned_switch_counter_counterexample :
    ((get_active_thread cfg4 never_ready 8
        (one_thread 1 (-1) ExecState.EXEC_STATE_RUNNING true) 1).map
      (fun x => (x.1, (x.2.heap x.1).switch_counter)) = some (1, 1) ∧
     ((one_thread 1 (-1) ExecState.EXEC_STATE_RUNNING true).heap 1).switch_counter = -1 ∧
     cfg4.MAX_SWITCH_COUNTER = 2) ∧
    ((get_active_thread cfg4 never_ready 8
        (one_thread 1 0 ExecState.EXEC_STATE_RUNNING false) 1).map
      (fun x => (x.1, (x.2.heap x.1).switch_counter)) = some (1, 0) ∧
     ((one_thread 1 0 ExecState.EXEC_STATE_RUNNING false).heap 1).switch_counter = 0) := by
  decide

/-- C3 (amended): for every call of `get_active_thread` that returns, the returned
context's `switch_counter` at return is `MAX_SWITCH_COUNTER`, or its value at entry minus
1, or `MAX_SWITCH_COUNTER - 1` when the returned context is the argument and its counter
was negative at entry, or its value at entry when the argument forbids the switch. -/
theorem returned_switch_counter (cfg : Config) (probe : ProbeOracle) (fuel : Nat)
    (s : Sched) (ctx r : Nat) (s1 : Sched)
    (h : get_active_thread cfg probe fuel s ctx = some (r, s1)) :
    (s1.heap r).switch_counter = cfg.MAX_SWITCH_COUNTER ∨
    (s1.heap r).switch_counter = (s.heap r).switch_counter - 1 ∨
    (r = ctx ∧ ctx ≠ 0 ∧ (s.heap ctx).allow_ctx_switch = true ∧
      (s.heap ctx).switch_counter < 0 ∧
      (s1.heap r).switch_counter = cfg.MAX_SWITCH_COUNTER - 1) ∨
    (r = ctx ∧ ctx ≠ 0 ∧ (s.heap ctx).allow_ctx_switch = false ∧
      (s1.heap r).switch_counter = (s.heap r).switch_counter) := by
  unfold get_active_thread at h
  dsimp only at h
  split at h
  · rename_i hctx
    split at h
    · rename_i hallow
      injection h with h
      injection h with hr hs
      subst hr; subst hs
      exact Or.inr (Or.inr (Or.inr ⟨rfl, hctx, hallow, rfl⟩))
    · rename_i hallow
      have hallow2 : (s.heap ctx).allow_ctx_switch = true := by
        cases hb : (s.heap ctx).allow_ctx_switch
        · exact absurd hb hallow
        · rfl
      rcases (scan_returned cfg probe s.thread_ptr fuel _ r s1 h).2.1 with h1 | h1
      · exact Or.inl h1
      · unfold expire_quantum at h1
        split at h1
        · rename_i hneg
          dsimp only at h1
          by_cases hrc : r = ctx
          · subst hrc
            rw [Function.update_same] at h1
            exact Or.inr (Or.inr (Or.inl ⟨rfl, hctx, hallow2, hneg, h1⟩))
          · rw [Function.update_noteq hrc] at h1
            exact Or.inr (Or.inl h1)
        · exact Or.inr (Or.inl h1)
  · rcases (scan_returned cfg probe s.thread_ptr fuel _ r s1 h).2.1 with h1 | h1
    · exact Or.inl h1
    · exact Or.inr (Or.inl h1)

/-- The instance of the amended C3 at two running threads with the cursor on the first,
whose counter is 1: it is returned again with counter 0. -/
theorem returned_switch_counter_witness :
    ∃ s1, get_active_thread cfg4 never_ready 8 (two_threads 1 1 2) 1 = some (1, s1) ∧
      (s1.heap 1).switch_counter = 0 ∧
      ((s1.heap 1).switch_counter = cfg4.MAX_SWITCH_COUNTER ∨
       (s1.heap 1).switch_counter = ((two_threads 1 1 2).heap 1).switch_counter - 1 ∨
       (1 = 1 ∧ 1 ≠ 0 ∧ ((two_threads 1 1 2).heap 1).allow_ctx_switch = true ∧
         ((two_threads 1 1 2).heap 1).switch_counter < 0 ∧
         (s1.heap 1).switch_counter = cfg4.MAX_SWITCH_COUNTER - 1) ∨
       (1 = 1 ∧ 1 ≠ 0 ∧ ((two_threads 1 1 2).heap 1).allow_ctx_switch = false ∧
         (s1.heap 1).switch_counter = ((two_threads 1 1 2).heap 1).switch_counter)) :=
  ⟨_, rfl, by decide,
    returned_switch_counter cfg4 never_ready 8 (two_threads 1 1 2) 1 1 _ rfl⟩

/-- C4 (counterexample): a context that forbids the switch and is parked in a syscall is
returned as it is, `EXEC_STATE_IN_SYSCALL`, although the probe would report "not ready"
for it (and no probe was issued). -/
theorem returns_parked_sticky_counterexample :
    (get_active_thread cfg4 never_ready 8
        (one_thread 1 0 ExecState.EXEC_STATE_IN_SYSCALL false) 1).map
      (fun x => (x.1, (x.2.heap x.1).exec_state, x.2.probes,
        (never_ready x.2.probes.length (x.2.heap x.1).child_tid).1))
      = some (1, ExecState.EXEC_STATE_IN_SYSCALL, [], 0) := by
  decide

theorem expire_quantum_frame (cfg : Config) (s : Sched) (ctx q : Nat) :
    ((expire_quantum cfg s ctx).heap q).exec_state = (s.heap q).exec_state ∧
    ((expire_quantum cfg s ctx).heap q).child_tid = (s.heap q).child_tid ∧
    (expire_quantum cfg s ctx).probes = s.probes := by
  unfold expire_quantum
  split
  · dsimp only
    by_cases hq : q = ctx
    · subst hq; rw [Function.update_same]; exact ⟨rfl, rfl, rfl⟩
    · rw [Function.update_noteq hq]; exact ⟨rfl, rfl, rfl⟩
  · exact ⟨rfl, rfl, rfl⟩

/-- C4 (amended): `get_active_thread` never returns a context that is in
`EXEC_STATE_IN_SYSCALL` at return, except its own argument when that forbids the switch
(`allow_ctx_switch == false`), which comes back as it is with no probe issued; and a
returned context that was in `EXEC_STATE_IN_SYSCALL` at entry is, but for that exception,
one whose probe was the last one issued and returned non-zero ("ready"). -/
theorem returns_parked_only_when_sticky (cfg : Config) (probe : ProbeOracle) (fuel : Nat)
    (s : Sched) (ctx r : Nat) (s1 : Sched)
    (h : get_active_thread cfg probe fuel s ctx = some (r, s1)) :
    (r = ctx ∧ ctx ≠ 0 ∧ (s.heap ctx).allow_ctx_switch = false ∧ s1 = s) ∨
    ((s1.heap r).exec_state ≠ ExecState.EXEC_STATE_IN_SYSCALL ∧
     ((s.heap r).exec_state = ExecState.EXEC_STATE_IN_SYSCALL →
       ∃ before, s1.probes = before ++ [(s.heap r).child_tid] ∧
         (probe before.length (s.heap r).child_tid).1 ≠ 0)) := by
  unfold get_active_thread at h
  dsimp only at h
  split at h
  · rename_i hctx
    split at h
    · rename_i hallow
      injection h with h
      injection h with hr hs
      exact Or.inl ⟨hr.symm, hctx, hallow, hs.symm⟩
    · obtain ⟨h1, _, h3⟩ := scan_returned cfg probe s.thread_ptr fuel _ r s1 h
      obtain ⟨e1, e2, _⟩ := expire_quantum_frame cfg s ctx r
      rw [e1, e2] at h3
      exact Or.inr ⟨h1, h3⟩
  · obtain ⟨h1, _, h3⟩ := scan_returned cfg probe s.thread_ptr fuel _ r s1 h
    exact Or.inr ⟨h1, h3⟩

/-- The instance of the amended C4 at one parked thread whose probe reports readiness: it
is returned as `EXEC_STATE_IN_SYSCALL_DONE`, after one probe of its tid. -/
theorem returns_parked_only_when_sticky_witness :
    ∃ r s1, get_active_thread cfg4 always_ready 8
        (one_thread (-1) 0 ExecState.EXEC_STATE_IN_SYSCALL true) 0 = some (r, s1) ∧
      (r, (s1.heap r).exec_state, s1.probes)
        = (1, ExecState.EXEC_STATE_IN_SYSCALL_DONE, [1]) ∧
      ((r = 0 ∧ (0 : Nat) ≠ 0 ∧
          ((one_thread (-1) 0 ExecState.EXEC_STATE_IN_SYSCALL true).heap 0).allow_ctx_switch
            = false ∧
          s1 = one_thread (-1) 0 ExecState.EXEC_STATE_IN_SYSCALL true) ∨
       ((s1.heap r).exec_state ≠ ExecState.EXEC_STATE_IN_SYSCALL ∧
        (((one_thread (-1) 0 ExecState.EXEC_STATE_IN_SYSCALL true).heap r).exec_state
            = ExecState.EXEC_STATE_IN_SYSCALL →
          ∃ before, s1.probes = before ++
              [((one_thread (-1) 0 ExecState.EXEC_STATE_IN_SYSCALL true).heap r).child_tid] ∧
            (always_ready before.length
              ((one_thread (-1) 0 ExecState.EXEC_STATE_IN_SYSCALL true).heap r).child_tid).1
              ≠ 0))) := by
  have hv : (get_active_thread cfg4 always_ready 8
      (one_thread (-1) 0 ExecState.EXEC_STATE_IN_SYSCALL true) 0).map
        (fun x => (x.1, (x.2.heap x.1).exec_state, x.2.probes))
      = some (1, ExecState.EXEC_STATE_IN_SYSCALL_DONE, [1]) := by decide
  cases h : get_active_thread cfg4 always_ready 8
      (one_thread (-1) 0 ExecState.EXEC_STATE_IN_SYSCALL true) 0 with
  | none => rw [h] at hv; cases hv
  | some x =>
    rw [h] at hv
    exact ⟨x.1, x.2, rfl, Option.some.inj hv,
      returns_parked_only_when_sticky cfg4 always_ready 8
        (one_thread (-1) 0 ExecState.EXEC_STATE_IN_SYSCALL true) 0 x.1 x.2 h⟩

/-! ## `get_active_thread`: two threads and one thread -/

theorem set_switch_counter_allow (cfg : Config) (i tmp : Int) (c : context) :
    (set_switch_counter cfg i tmp c).allow_ctx_switch = c.allow_ctx_switch := by
  unfold set_switch_counter; split <;> rfl

theorem set_switch_counter_same (cfg : Config) (i : Int) (c : context) :
    (set_switch_counter cfg i i c).switch_counter = c.switch_counter - 1 := by
  unfold set_switch_counter; simp

theorem set_switch_counter_other (cfg : Config) (i tmp : Int) (c : context) (h : tmp ≠ i) :
    (set_switch_counter cfg i tmp c).switch_counter = cfg.MAX_SWITCH_COUNTER := by
  unfold set_switch_counter; simp [h]

theorem two_threads_of_frame {cfg : Config} {s : Sched} {a b pa pb : Nat}
    (h : TwoThreads cfg s a b pa pb) (s1 : Sched)
    (hrt : s1.registered_threads = s.registered_threads)
    (hex : ∀ p, (s1.heap p).exec_state = (s.heap p).exec_state)
    (hal : ∀ p, (s1.heap p).allow_ctx_switch = (s.heap p).allow_ctx_switch) :
    TwoThreads cfg s1 a b pa pb where
  slot_a_lt := h.slot_a_lt
  slot_b_lt := h.slot_b_lt
  slots_ne := h.slots_ne
  a_nonnull := h.a_nonnull
  b_nonnull := h.b_nonnull
  ctx_ne := h.ctx_ne
  at_a := by rw [hrt]; exact h.at_a
  at_b := by rw [hrt]; exact h.at_b
  others_null := by rw [hrt]; exact h.others_null
  a_unparked := by rw [hex]; exact h.a_unparked
  b_unparked := by rw [hex]; exact h.b_unparked
  a_allows := by rw [hal]; exact h.a_allows

theorem one_thread_of_frame {cfg : Config} {s : Sched} {a p : Nat}
    (h : OneThread cfg s a p) (s1 : Sched)
    (hrt : s1.registered_threads = s.registered_threads)
    (hex : ∀ q, (s1.heap q).exec_state = (s.heap q).exec_state)
    (hal : ∀ q, (s1.heap q).allow_ctx_switch = (s.heap q).allow_ctx_switch) :
    OneThread cfg s1 a p where
  slot_lt := h.slot_lt
  nonnull := h.nonnull
  at_slot := by rw [hrt]; exact h.at_slot
  others_null := by rw [hrt]; exact h.others_null
  unparked := by rw [hex]; exact h.unparked
  allows := by rw [hal]; exact h.allows

/-- Writing a new `switch_counter` into one context leaves every `exec_state` and every
`allow_ctx_switch` as it was. -/
theorem update_counter_frame (heap : Nat → context) (p : Nat) (c : context)
    (hex : c.exec_state = (heap p).exec_state)
    (hal : c.allow_ctx_switch = (heap p).allow_ctx_switch) (q : Nat) :
    (Function.update heap p c q).exec_state = (heap q).exec_state ∧
    (Function.update heap p c q).allow_ctx_switch = (heap q).allow_ctx_switch := by
  by_cases hq : q = p
  · subst hq; rw [Function.update_same]; exact ⟨hex, hal⟩
  · rw [Function.update_noteq hq]; exact ⟨rfl, rfl⟩

theorem expire_quantum_of_nonneg (cfg : Config) (s : Sched) (ctx : Nat)
    (h : 0 ≤ (s.heap ctx).switch_counter) : expire_quantum cfg s ctx = s := by
  unfold expire_quantum
  rw [if_neg (by omega)]

theorem expire_quantum_of_neg (cfg : Config) (s : Sched) (ctx : Nat)
    (h : (s.heap ctx).switch_counter < 0) :
    expire_quantum cfg s ctx =
      { s with thread_ptr := s.thread_ptr + 1,
               heap := Function.update s.heap ctx
                 { s.heap ctx with switch_counter := cfg.MAX_SWITCH_COUNTER } } := by
  unfold expire_quantum
  rw [if_pos h]

theorem get_active_thread_switchable (cfg : Config) (probe : ProbeOracle) (fuel : Nat)
    (s : Sched) (ctx : Nat) (h0 : ctx ≠ 0) (hal : (s.heap ctx).allow_ctx_switch = true) :
    get_active_thread cfg probe fuel s ctx =
      scan cfg probe s.thread_ptr fuel (expire_quantum cfg s ctx) := by
  unfold get_active_thread
  simp [h0, hal]

theorem get_active_thread_null (cfg : Config) (probe : ProbeOracle) (fuel : Nat)
    (s : Sched) :
    get_active_thread cfg probe fuel s 0 = scan cfg probe s.thread_ptr fuel s := by
  unfold get_active_thread
  simp

/-- Two threads, cursor on `pa`, quantum of `pa` not expired: `pa` is selected again and
its counter goes down by one. -/
theorem two_threads_reselect (cfg : Config) (probe : ProbeOracle) (fuel : Nat) (s : Sched)
    (a b pa pb : Nat) (h : TwoThreads cfg s a b pa pb) (hc : s.thread_ptr = (a : Int))
    (hsc : 0 ≤ (s.heap pa).switch_counter) (hf : 1 ≤ fuel) :
    ∃ s1, get_active_thread cfg probe fuel s pa = some (pa, s1) ∧
      TwoThreads cfg s1 a b pa pb ∧ s1.thread_ptr = (a : Int) ∧
      (s1.heap pa).switch_counter = (s.heap pa).switch_counter - 1 := by
  rw [get_active_thread_switchable cfg probe fuel s pa h.a_nonnull h.a_allows,
    expire_quantum_of_nonneg cfg s pa hsc]
  obtain ⟨s1, h1, h2, h3, h4, _, _⟩ := scan_find cfg probe s.thread_ptr 0 s fuel a pa
    (by simp [hc]) h.slot_a_lt (by intro j hj; omega) h.at_a h.a_nonnull h.a_unparked
    (by omega)
  refine ⟨s1, h1, ?_, h2, ?_⟩
  · refine two_threads_of_frame h s1 h3 (fun q => ?_) (fun q => ?_)
    · rw [h4]
      exact (update_counter_frame s.heap pa _ (set_switch_counter_exec_state _ _ _ _)
        (set_switch_counter_allow _ _ _ _) q).1
    · rw [h4]
      exact (update_counter_frame s.heap pa _ (set_switch_counter_exec_state _ _ _ _)
        (set_switch_counter_allow _ _ _ _) q).2
  · rw [h4, Function.update_same, hc, set_switch_counter_same]

/-- Two threads, cursor on `pa`, quantum of `pa` expired: the scheduler rotates to `pb`,
which gets the full quantum, and the counter of `pa` is reset. -/
theorem two_threads_rotate (cfg : Config) (probe : ProbeOracle) (fuel : Nat) (s : Sched)
    (a b pa pb : Nat) (h : TwoThreads cfg s a b pa pb) (hc : s.thread_ptr = (a : Int))
    (hsc : (s.heap pa).switch_counter < 0) (hf : cfg.NUM_MAX_THREADS + 1 ≤ fuel) :
    ∃ s1, get_active_thread cfg probe fuel s pa = some (pb, s1) ∧
      TwoThreads cfg s1 a b pa pb ∧ s1.thread_ptr = (b : Int) ∧
      (s1.heap pb).switch_counter = cfg.MAX_SWITCH_COUNTER ∧
      (s1.heap pa).switch_counter = cfg.MAX_SWITCH_COUNTER := by
  rw [get_active_thread_switchable cfg probe fuel s pa h.a_nonnull h.a_allows,
    expire_quantum_of_neg cfg s pa hsc]
  have hne : pb ≠ pa := fun e => h.ctx_ne e.symm
  have hab : (a : Int) ≠ (b : Int) := by exact_mod_cast h.slots_ne
  have ha := h.slot_a_lt
  have hb := h.slot_b_lt
  have key : ∃ s1, scan cfg probe s.thread_ptr fuel
        { s with thread_ptr := s.thread_ptr + 1,
                 heap := Function.update s.heap pa
                   { s.heap pa with switch_counter := cfg.MAX_SWITCH_COUNTER } }
          = some (pb, s1) ∧ s1.thread_ptr = (b : Int) ∧
        s1.registered_threads = s.registered_threads ∧
        s1.heap = Function.update
          (Function.update s.heap pa
            { s.heap pa with switch_counter := cfg.MAX_SWITCH_COUNTER }) pb
          (set_switch_counter cfg (b : Int) s.thread_ptr
            (Function.update s.heap pa
              { s.heap pa with switch_counter := cfg.MAX_SWITCH_COUNTER } pb)) := by
    by_cases hlt : a < b
    · obtain ⟨s1, h1, h2, h3, h4, _, _⟩ := scan_find cfg probe s.thread_ptr (b - a - 1)
        { s with thread_ptr := s.thread_ptr + 1,
                 heap := Function.update s.heap pa
                   { s.heap pa with switch_counter := cfg.MAX_SWITCH_COUNTER } }
        fuel b pb
        (by dsimp only; rw [hc]; omega) hb
        (by
          intro j hj
          dsimp only
          rw [hc]
          have e : (a : Int) + 1 + (j : Int) = ((a + 1 + j : Nat) : Int) := by
            push_cast; ring
          rw [e]
          exact h.others_null (a + 1 + j) (by omega) (by omega) (by omega))
        h.at_b h.b_nonnull
        (by dsimp only; rw [Function.update_noteq hne]; exact h.b_unparked)
        (by omega)
      exact ⟨s1, h1, h2, h3, h4⟩
    · have hba : b < a := by omega
      obtain ⟨s1, h1, h2, h3, h4, _, _⟩ := scan_find_wrap cfg probe s.thread_ptr
        (cfg.NUM_MAX_THREADS - a - 1)
        { s with thread_ptr := s.thread_ptr + 1,
                 heap := Function.update s.heap pa
                   { s.heap pa with switch_counter := cfg.MAX_SWITCH_COUNTER } }
        fuel b pb
        (by dsimp only; rw [hc]; omega)
        (by
          intro j hj
          dsimp only
          rw [hc]
          have e : (a : Int) + 1 + (j : Int) = ((a + 1 + j : Nat) : Int) := by
            push_cast; ring
          rw [e]
          exact h.others_null (a + 1 + j) (by omega) (by omega) (by omega))
        hb
        (by intro j hj; exact h.others_null j (by omega) (by omega) (by omega))
        h.at_b h.b_nonnull
        (by dsimp only; rw [Function.update_noteq hne]; exact h.b_unparked)
        (by omega)
      exact ⟨s1, h1, h2, h3, h4⟩
  obtain ⟨s1, h1, h2, h3, h4⟩ := key
  have hframe : ∀ q, (s1.heap q).exec_state = (s.heap q).exec_state ∧
      (s1.heap q).allow_ctx_switch = (s.heap q).allow_ctx_switch := by
    intro q
    rw [h4]
    have e1 := update_counter_frame
      (Function.update s.heap pa { s.heap pa with switch_counter := cfg.MAX_SWITCH_COUNTER })
      pb _ (set_switch_counter_exec_state cfg (b : Int) s.thread_ptr _)
      (set_switch_counter_allow cfg (b : Int) s.thread_ptr _) q
    have e2 := update_counter_frame s.heap pa
      { s.heap pa with switch_counter := cfg.MAX_SWITCH_COUNTER } rfl rfl q
    exact ⟨e1.1.trans e2.1, e1.2.trans e2.2⟩
  refine ⟨s1, h1, two_threads_of_frame h s1 h3 (fun q => (hframe q).1) (fun q => (hframe q).2), h2, ?_, ?_⟩
  · rw [h4, Function.update_same, set_switch_counter_other cfg _ _ _ (by rw [hc]; exact hab)]
  · rw [h4, Function.update_noteq h.ctx_ne, Function.update_same]

/-- Two threads, `pa` in the lower slot, cursor at its initial `-1` and a null word below
the table: the first call, with a null argument, selects `pa` with the full quantum. -/
theorem two_threads_first (cfg : Config) (probe : ProbeOracle) (fuel : Nat) (s : Sched)
    (a b pa pb : Nat) (h : TwoThreads cfg s a b pa pb) (hc : s.thread_ptr = -1)
    (hbelow : s.registered_threads (-1) = 0) (hab : a < b)
    (hf : cfg.NUM_MAX_THREADS + 1 ≤ fuel) :
    ∃ s1, get_active_thread cfg probe fuel s 0 = some (pa, s1) ∧
      TwoThreads cfg s1 a b pa pb ∧ s1.thread_ptr = (a : Int) ∧
      (s1.heap pa).switch_counter = cfg.MAX_SWITCH_COUNTER := by
  rw [get_active_thread_null]
  have ha := h.slot_a_lt
  obtain ⟨s1, h1, h2, h3, h4, _, _⟩ := scan_find cfg probe s.thread_ptr (a + 1) s fuel a pa
    (by rw [hc]; push_cast; omega) ha
    (by
      intro j hj
      rw [hc]
      rcases Nat.eq_zero_or_pos j with h0 | hpos
      · subst h0; simpa using hbelow
      · have := h.others_null (j - 1) (by omega) (by omega) (by omega)
        rw [← this]; congr 1; omega)
    h.at_a h.a_nonnull h.a_unparked (by omega)
  refine ⟨s1, h1, ?_, h2, ?_⟩
  · refine two_threads_of_frame h s1 h3 (fun q => ?_) (fun q => ?_)
    · rw [h4]
      exact (update_counter_frame s.heap pa _ (set_switch_counter_exec_state _ _ _ _)
        (set_switch_counter_allow _ _ _ _) q).1
    · rw [h4]
      exact (update_counter_frame s.heap pa _ (set_switch_counter_exec_state _ _ _ _)
        (set_switch_counter_allow _ _ _ _) q).2
  · rw [h4, Function.update_same, set_switch_counter_other cfg _ _ _ (by rw [hc]; omega)]

theorem sched_run_succ (cfg : Config) (probe : ProbeOracle) (fuel k : Nat) (s : Sched)
    (ctx r : Nat) (s1 : Sched) (h : sched_run cfg probe fuel k s ctx = some (r, s1)) :
    sched_run cfg probe fuel (k + 1) s ctx = get_active_thread cfg probe fuel s1 r := by
  rw [sched_run, h]

/-- The first of `k + 1` successive calls can be split off. -/
theorem sched_run_first (cfg : Config) (probe : ProbeOracle) (fuel : Nat) :
    ∀ (k : Nat) (s : Sched) (ctx r : Nat) (s1 : Sched),
      get_active_thread cfg probe fuel s ctx = some (r, s1) →
      sched_run cfg probe fuel (k + 1) s ctx = sched_run cfg probe fuel k s1 r := by
  intro k
  induction k with
  | zero =>
    intro s ctx r s1 h
    rw [sched_run_succ cfg probe fuel 0 s ctx ctx s rfl, h]
    rfl
  | succ k ih =>
    intro s ctx r s1 h
    rw [sched_run, ih s ctx r s1 h]
    rfl

/-- Two threads, cursor on `pa` with counter `m`: each of the next `k ≤ m + 1` calls
selects `pa`, and after them its counter is `m - k`. -/
theorem two_threads_quantum (cfg : Config) (probe : ProbeOracle) (fuel : Nat)
    (a b pa pb : Nat) (m : Nat) (hf : 1 ≤ fuel) :
    ∀ (k : Nat) (s : Sched), k ≤ m + 1 → TwoThreads cfg s a b pa pb →
      s.thread_ptr = (a : Int) → (s.heap pa).switch_counter = (m : Int) →
      ∃ sk, sched_run cfg probe fuel k s pa = some (pa, sk) ∧
        TwoThreads cfg sk a b pa pb ∧ sk.thread_ptr = (a : Int) ∧
        (sk.heap pa).switch_counter = (m : Int) - (k : Int) := by
  intro k
  induction k with
  | zero =>
    intro s _ h hc hsc
    exact ⟨s, rfl, h, hc, by simp [hsc]⟩
  | succ k ih =>
    intro s hk h hc hsc
    obtain ⟨sk, h1, h2, h3, h4⟩ := ih s (by omega) h hc hsc
    obtain ⟨s1, g1, g2, g3, g4⟩ := two_threads_reselect cfg probe fuel sk a b pa pb h2 h3
      (by rw [h4]; omega) hf
    refine ⟨s1, ?_, g2, g3, ?_⟩
    · rw [sched_run_succ cfg probe fuel k s pa pa sk h1, g1]
    · rw [g4, h4]; push_cast; ring

/-- Two threads, cursor on `pa` with the full quantum `m`: the call after `m + 1`
re-selections rotates to `pb`. -/
theorem two_threads_quantum_rotate (cfg : Config) (probe : ProbeOracle) (fuel : Nat)
    (s : Sched) (a b pa pb : Nat) (m : Nat) (hm : cfg.MAX_SWITCH_COUNTER = (m : Int))
    (h : TwoThreads cfg s a b pa pb) (hc : s.thread_ptr = (a : Int))
    (hsc : (s.heap pa).switch_counter = cfg.MAX_SWITCH_COUNTER)
    (hf : cfg.NUM_MAX_THREADS + 1 ≤ fuel) :
    ∃ sk, sched_run cfg probe fuel (m + 2) s pa = some (pb, sk) ∧
      (sk.heap pb).switch_counter = cfg.MAX_SWITCH_COUNTER ∧
      (sk.heap pa).switch_counter = cfg.MAX_SWITCH_COUNTER := by
  obtain ⟨sl, l1, l2, l3, l4⟩ := two_threads_quantum cfg probe fuel a b pa pb m (by omega)
    (m + 1) s (le_refl _) h hc (hsc.trans hm)
  obtain ⟨s1, g1, _, _, g4, g5⟩ := two_threads_rotate cfg probe fuel sl a b pa pb l2 l3
    (by rw [l4]; push_cast; omega) hf
  exact ⟨s1, by rw [sched_run_succ cfg probe fuel (m + 1) s pa pa sl l1, g1], g4, g5⟩

/-- C6: two threads, `A` returned by the previous call (cursor on its slot) with
`switch_counter == MAX_SWITCH_COUNTER`, allowing a switch, neither thread parked.  Each
of the next `MAX_SWITCH_COUNTER + 1` calls `get_active_thread(A)` returns `A`; after them
`A.switch_counter == -1`; the call after them returns `B` with
`B.switch_counter == MAX_SWITCH_COUNTER` and `A.switch_counter == MAX_SWITCH_COUNTER`. -/
theorem quantum_then_rotate (cfg : Config) (probe : ProbeOracle) (fuel : Nat) (s : Sched)
    (a b pa pb : Nat) (m : Nat) (hm : cfg.MAX_SWITCH_COUNTER = (m : Int))
    (h : TwoThreads cfg s a b pa pb) (hc : s.thread_ptr = (a : Int))
    (hsc : (s.heap pa).switch_counter = cfg.MAX_SWITCH_COUNTER)
    (hf : cfg.NUM_MAX_THREADS + 1 ≤ fuel) :
    (∀ k : Nat, 1 ≤ k → k ≤ m + 1 →
      ∃ sk, sched_run cfg probe fuel k s pa = some (pa, sk)) ∧
    (∃ sk, sched_run cfg probe fuel (m + 1) s pa = some (pa, sk) ∧
      (sk.heap pa).switch_counter = -1) ∧
    (∃ sk, sched_run cfg probe fuel (m + 2) s pa = some (pb, sk) ∧
      (sk.heap pb).switch_counter = cfg.MAX_SWITCH_COUNTER ∧
      (sk.heap pa).switch_counter = cfg.MAX_SWITCH_COUNTER) := by
  have hq := two_threads_quantum cfg probe fuel a b pa pb m (by omega)
  obtain ⟨sl, l1, l2, l3, l4⟩ := hq (m + 1) s (le_refl _) h hc (hsc.trans hm)
  refine ⟨?_, ⟨sl, l1, by rw [l4]; push_cast; ring⟩, ?_⟩
  · intro k _ hk
    obtain ⟨sk, h1, _⟩ := hq k s hk h hc (hsc.trans hm)
    exact ⟨sk, h1⟩
  · exact two_threads_quantum_rotate cfg probe fuel s a b pa pb m hm h hc hsc hf

/-- C5 (amended): from the initial cursor `-1`, with a null word below the table and
exactly two threads, neither parked and `A`, in the lower slot, allowing the switch, each
call passing what the call before returned (null at first): the first
`MAX_SWITCH_COUNTER + 2` selections return `A` and the selection after them returns `B`. -/
theorem fresh_two_threads_quantum (cfg : Config) (probe : ProbeOracle) (fuel : Nat)
    (s : Sched) (a b pa pb : Nat) (m : Nat) (hm : cfg.MAX_SWITCH_COUNTER = (m : Int))
    (h : TwoThreads cfg s a b pa pb) (hab : a < b) (hc : s.thread_ptr = -1)
    (hbelow : s.registered_threads (-1) = 0)
    (hf : cfg.NUM_MAX_THREADS + 1 ≤ fuel) :
    (∀ k : Nat, 1 ≤ k → k ≤ m + 2 →
      (sched_run cfg probe fuel k s 0).map Prod.fst = some pa) ∧
    (sched_run cfg probe fuel (m + 3) s 0).map Prod.fst = some pb := by
  obtain ⟨s1, f1, f2, f3, f4⟩ := two_threads_first cfg probe fuel s a b pa pb h hc hbelow hab hf
  have hq := two_threads_quantum_rotate cfg probe fuel s1 a b pa pb m hm f2 f3 f4 hf
  refine ⟨?_, ?_⟩
  · intro k hk1 hk2
    obtain ⟨j, rfl⟩ : ∃ j, k = j + 1 := ⟨k - 1, by omega⟩
    rw [sched_run_first cfg probe fuel j s 0 pa s1 f1]
    obtain ⟨sk, h1, _⟩ := two_threads_quantum cfg probe fuel a b pa pb m (by omega) j s1
      (by omega) f2 f3 (f4.trans hm)
    rw [h1]; rfl
  · rw [sched_run_first cfg probe fuel (m + 2) s 0 pa s1 f1]
    obtain ⟨sk, h1, _⟩ := hq
    rw [h1]; rfl

theorem two_threads_sample (cursor sc1 sc2 : Int) :
    TwoThreads cfg4 (two_threads cursor sc1 sc2) 1 2 1 2 where
  slot_a_lt := by decide
  slot_b_lt := by decide
  slots_ne := by decide
  a_nonnull := by decide
  b_nonnull := by decide
  ctx_ne := by decide
  at_a := rfl
  at_b := rfl
  others_null := by
    intro i hi h1 h2
    have h3 : (i : Int) ≠ 1 := by exact_mod_cast h1
    have h4 : (i : Int) ≠ 2 := by exact_mod_cast h2
    simp [two_threads, h3, h4]
  a_unparked := by simp [two_threads, ctx_of]
  b_unparked := by simp [two_threads, ctx_of]
  a_allows := by simp [two_threads, ctx_of]

theorem one_thread_sample (cursor sc : Int) :
    OneThread cfg4 (one_thread cursor sc ExecState.EXEC_STATE_RUNNING true) 1 1 where
  slot_lt := by decide
  nonnull := by decide
  at_slot := rfl
  others_null := by
    intro i hi h1
    have h3 : (i : Int) ≠ 1 := by exact_mod_cast h1
    simp [one_thread, h3]
  unparked := by simp [one_thread, ctx_of]
  allows := by simp [one_thread, ctx_of]

/-- The instance of C6 at `cfg4` (quantum 2): thread 1 in slot 1 holds the cursor with
counter 2, thread 2 is in slot 2. -/
theorem quantum_then_rotate_witness :
    (∀ k : Nat, 1 ≤ k → k ≤ 2 + 1 →
      ∃ sk, sched_run cfg4 never_ready 5 k (two_threads 1 2 0) 1 = some (1, sk)) ∧
    (∃ sk, sched_run cfg4 never_ready 5 (2 + 1) (two_threads 1 2 0) 1 = some (1, sk) ∧
      (sk.heap 1).switch_counter = -1) ∧
    (∃ sk, sched_run cfg4 never_ready 5 (2 + 2) (two_threads 1 2 0) 1 = some (2, sk) ∧
      (sk.heap 2).switch_counter = cfg4.MAX_SWITCH_COUNTER ∧
      (sk.heap 1).switch_counter = cfg4.MAX_SWITCH_COUNTER) :=
  quantum_then_rotate cfg4 never_ready 5 (two_threads 1 2 0) 1 2 1 2 2 rfl
    (two_threads_sample 1 2 0) rfl rfl (by decide)

/-- C5 (counterexample): with `MAX_SWITCH_COUNTER == 2` and two running threads, from the
initial cursor the selections 1 to 4 return thread 1 and only the fifth returns thread 2:
after `MAX_SWITCH_COUNTER + 1 = 3` consecutive selections of thread 1 the next selection
is thread 1 again, not thread 2. -/
theorem fresh_two_threads_counterexample :
    [1, 2, 3, 4, 5].map
      (fun k => (sched_run cfg4 never_ready 8 k (two_threads (-1) 0 0) 0).map Prod.fst)
      = [some 1, some 1, some 1, some 1, some 2] ∧
    cfg4.MAX_SWITCH_COUNTER = 2 := by
  decide

/-- The instance of the amended C5 at `cfg4` (quantum 2) and the two sample threads. -/
theorem fresh_two_threads_quantum_witness :
    (∀ k : Nat, 1 ≤ k → k ≤ 2 + 2 →
      (sched_run cfg4 never_ready 5 k (two_threads (-1) 0 0) 0).map Prod.fst = some 1) ∧
    (sched_run cfg4 never_ready 5 (2 + 3) (two_threads (-1) 0 0) 0).map Prod.fst = some 2 :=
  fresh_two_threads_quantum cfg4 never_ready 5 (two_threads (-1) 0 0) 1 2 1 2 2 rfl
    (two_threads_sample (-1) 0 0) (by decide) rfl rfl (by decide)

/-- One thread, cursor on it, quantum not expired: it is selected again and its counter
goes down by one. -/
theorem one_thread_reselect (cfg : Config) (probe : ProbeOracle) (fuel : Nat) (s : Sched)
    (a p : Nat) (h : OneThread cfg s a p) (hc : s.thread_ptr = (a : Int))
    (hsc : 0 ≤ (s.heap p).switch_counter) (hf : 1 ≤ fuel) :
    ∃ s1, get_active_thread cfg probe fuel s p = some (p, s1) ∧
      OneThread cfg s1 a p ∧ s1.thread_ptr = (a : Int) ∧
      (s1.heap p).switch_counter = (s.heap p).switch_counter - 1 := by
  rw [get_active_thread_switchable cfg probe fuel s p h.nonnull h.allows,
    expire_quantum_of_nonneg cfg s p hsc]
  obtain ⟨s1, h1, h2, h3, h4, _, _⟩ := scan_find cfg probe s.thread_ptr 0 s fuel a p
    (by simp [hc]) h.slot_lt (by intro j hj; omega) h.at_slot h.nonnull h.unparked
    (by omega)
  refine ⟨s1, h1, ?_, h2, ?_⟩
  · refine one_thread_of_frame h s1 h3 (fun q => ?_) (fun q => ?_)
    · rw [h4]
      exact (update_counter_frame s.heap p _ (set_switch_counter_exec_state _ _ _ _)
        (set_switch_counter_allow _ _ _ _) q).1
    · rw [h4]
      exact (update_counter_frame s.heap p _ (set_switch_counter_exec_state _ _ _ _)
        (set_switch_counter_allow _ _ _ _) q).2
  · rw [h4, Function.update_same, hc, set_switch_counter_same]

/-- One thread, cursor on it, quantum expired: the counter is reset, the scan goes once
round the table, comes back to the thread and takes one off the fresh quantum. -/
theorem one_thread_expired (cfg : Config) (probe : ProbeOracle) (fuel : Nat) (s : Sched)
    (a p : Nat) (h : OneThread cfg s a p) (hc : s.thread_ptr = (a : Int))
    (hsc : (s.heap p).switch_counter < 0) (hf : cfg.NUM_MAX_THREADS + 1 ≤ fuel) :
    ∃ s1, get_active_thread cfg probe fuel s p = some (p, s1) ∧
      OneThread cfg s1 a p ∧ s1.thread_ptr = (a : Int) ∧
      (s1.heap p).switch_counter = cfg.MAX_SWITCH_COUNTER - 1 := by
  rw [get_active_thread_switchable cfg probe fuel s p h.nonnull h.allows,
    expire_quantum_of_neg cfg s p hsc]
  have ha := h.slot_lt
  obtain ⟨s1, h1, h2, h3, h4, _, _⟩ := scan_find_wrap cfg probe s.thread_ptr
    (cfg.NUM_MAX_THREADS - a - 1)
    { s with thread_ptr := s.thread_ptr + 1,
             heap := Function.update s.heap p
               { s.heap p with switch_counter := cfg.MAX_SWITCH_COUNTER } }
    fuel a p
    (by dsimp only; rw [hc]; omega)
    (by
      intro j hj
      dsimp only
      rw [hc]
      have e : (a : Int) + 1 + (j : Int) = ((a + 1 + j : Nat) : Int) := by
        push_cast; ring
      rw [e]
      exact h.others_null (a + 1 + j) (by omega) (by omega))
    ha
    (by intro j hj; exact h.others_null j (by omega) (by omega))
    h.at_slot h.nonnull
    (by dsimp only; rw [Function.update_same]; exact h.unparked)
    (by omega)
  dsimp only at h3 h4
  have hframe : ∀ q, (s1.heap q).exec_state = (s.heap q).exec_state ∧
      (s1.heap q).allow_ctx_switch = (s.heap q).allow_ctx_switch := by
    intro q
    rw [h4]
    have e1 := update_counter_frame
      (Function.update s.heap p { s.heap p with switch_counter := cfg.MAX_SWITCH_COUNTER })
      p _ (set_switch_counter_exec_state cfg (a : Int) s.thread_ptr _)
      (set_switch_counter_allow cfg (a : Int) s.thread_ptr _) q
    have e2 := update_counter_frame s.heap p
      { s.heap p with switch_counter := cfg.MAX_SWITCH_COUNTER } rfl rfl q
    exact ⟨e1.1.trans e2.1, e1.2.trans e2.2⟩
  refine ⟨s1, h1, one_thread_of_frame h s1 h3 (fun q => (hframe q).1) (fun q => (hframe q).2), h2, ?_⟩
  rw [h4, Function.update_same, Function.update_same, hc, set_switch_counter_same]

/-- Either way the single thread is selected, and its counter at return is the value at
entry minus one, or the quantum minus one when the value at entry was negative. -/
theorem one_thread_call (cfg : Config) (probe : ProbeOracle) (fuel : Nat) (s : Sched)
    (a p : Nat) (h : OneThread cfg s a p) (hc : s.thread_ptr = (a : Int))
    (hf : cfg.NUM_MAX_THREADS + 1 ≤ fuel) :
    ∃ s1, get_active_thread cfg probe fuel s p = some (p, s1) ∧
      OneThread cfg s1 a p ∧ s1.thread_ptr = (a : Int) ∧
      (s1.heap p).switch_counter =
        if (s.heap p).switch_counter < 0 then cfg.MAX_SWITCH_COUNTER - 1
        else (s.heap p).switch_counter - 1 := by
  by_cases hsc : (s.heap p).switch_counter < 0
  · rw [if_pos hsc]
    exact one_thread_expired cfg probe fuel s a p h hc hsc hf
  · rw [if_neg hsc]
    exact one_thread_reselect cfg probe fuel s a p h hc (by omega) (by omega)

/-- C7 (counterexample): one running thread with the cursor on it, quantum 2 and counter
2.  Three calls bring the counter to `-1`; the fourth call returns the thread with
counter `1`, not with the value at entry minus 1 (`-2`). -/
theorem single_thread_counterexample :
    (sched_run cfg4 never_ready 8 3 (one_thread 1 2 ExecState.EXEC_STATE_RUNNING true) 1).map
      (fun x => (x.1, (x.2.heap x.1).switch_counter)) = some (1, -1) ∧
    (sched_run cfg4 never_ready 8 4 (one_thread 1 2 ExecState.EXEC_STATE_RUNNING true) 1).map
      (fun x => (x.1, (x.2.heap x.1).switch_counter)) = some (1, 1) := by
  decide

/-- C7 (amended): with exactly one registered thread `T`, not parked and allowing the
switch, and the cursor on its slot, after every number `k` of calls
`get_active_thread(T)` the next call returns `T` and leaves `T.switch_counter` equal to
its value at entry minus 1 when that value is not negative, and equal to
`MAX_SWITCH_COUNTER - 1` when it is negative. -/
theorem single_thread_forever (cfg : Config) (probe : ProbeOracle) (fuel : Nat) (s : Sched)
    (a p : Nat) (h : OneThread cfg s a p) (hc : s.thread_ptr = (a : Int))
    (hf : cfg.NUM_MAX_THREADS + 1 ≤ fuel) (k : Nat) :
    ∃ sk, sched_run cfg probe fuel k s p = some (p, sk) ∧
      ∃ s1, get_active_thread cfg probe fuel sk p = some (p, s1) ∧
        (s1.heap p).switch_counter =
          if (sk.heap p).switch_counter < 0 then cfg.MAX_SWITCH_COUNTER - 1
          else (sk.heap p).switch_counter - 1 := by
  have hk : ∃ sk, sched_run cfg probe fuel k s p = some (p, sk) ∧
      OneThread cfg sk a p ∧ sk.thread_ptr = (a : Int) := by
    induction k with
    | zero => exact ⟨s, rfl, h, hc⟩
    | succ k ih =>
      obtain ⟨sk, h1, h2, h3⟩ := ih
      obtain ⟨s1, g1, g2, g3, _⟩ := one_thread_call cfg probe fuel sk a p h2 h3 hf
      exact ⟨s1, by rw [sched_run_succ cfg probe fuel k s p p sk h1, g1], g2, g3⟩
  obtain ⟨sk, h1, h2, h3⟩ := hk
  obtain ⟨s1, g1, _, _, g4⟩ := one_thread_call cfg probe fuel sk a p h2 h3 hf
  exact ⟨sk, h1, s1, g1, g4⟩

/-- The instance of the amended C7 at the sample thread after four calls. -/
theorem single_thread_forever_witness :
    ∃ sk, sched_run cfg4 never_ready 5 4
        (one_thread 1 2 ExecState.EXEC_STATE_RUNNING true) 1 = some (1, sk) ∧
      ∃ s1, get_active_thread cfg4 never_ready 5 sk 1 = some (1, s1) ∧
        (s1.heap 1).switch_counter =
          if (sk.heap 1).switch_counter < 0 then cfg4.MAX_SWITCH_COUNTER - 1
          else (sk.heap 1).switch_counter - 1 :=
  single_thread_forever cfg4 never_ready 5 (one_thread 1 2 ExecState.EXEC_STATE_RUNNING true)
    1 1 (one_thread_sample 1 2) rfl (by decide) 4

/-! ## `compensate_branch_count` -/

/-- C9: when the branch count read at entry is greater than `trace.rbc_up`,
`compensate_branch_count` aborts with the overcount diagnostic, and the state at the abort
is the state at entry with one `read_rbc_up` added to the operations: no single-step, no
`PTRACE_SYSCALL` resume, no register read, no signal delivered, and `ctx` (so `status`
and `child_sig`) unchanged. -/
theorem overshoot_aborts_before_any_step (env : ReplayEnv) (fuel : Nat) (w : Replay)
    (sig : Int) (h : env.rbc_up w.ops.length > w.ctx.trace.rbc_up) :
    compensate_branch_count env fuel w sig =
      Res.abort
        (Fault.hpc_overcounted w.ctx.trace.rbc_up (env.rbc_up w.ops.length)
          w.ctx.trace.stop_reason w.ctx.trace.global_time)
        { ctx := w.ctx, ops := w.ops ++ [Op.read_rbc_up] } := by
  unfold compensate_branch_count
  simp only [h, if_true]

/-- The instance of C9 at a counter that reads 6 against a recorded count of 5. -/
theorem overshoot_aborts_before_any_step_witness :
    (env_of (fun _ => 6) 0).rbc_up (replay_at 5).ops.length > (replay_at 5).ctx.trace.rbc_up ∧
    compensate_branch_count (env_of (fun _ => 6) 0) 0 (replay_at 5) 29 =
      Res.abort (Fault.hpc_overcounted 5 6 (-29) 7)
        { ctx := (replay_at 5).ctx, ops := [Op.read_rbc_up] } :=
  ⟨by decide,
    overshoot_aborts_before_any_step (env_of (fun _ => 6) 0) 0 (replay_at 5) 29 (by decide)⟩


theorem match_loop_stuck (sig : Int) (hsig : sig ≠ SIGSEGV) (rbc_rec : Nat)
    (hrec : rbc_rec = 1) :
    ∀ (fuel : Nat) (st : Pos), st.rbc_now = 1 → 4 ≤ st.w.ops.length →
      match_loop (env_of rbc_stuck 1) sig rbc_rec fuel st = Res.timeout := by
  subst hrec
  intro fuel
  induction fuel with
  | zero => intro st _ _; rfl
  | succ f ih =>
    intro st h1 h4
    rw [match_loop, if_pos h1]
    have hit : match_iter (env_of rbc_stuck 1) sig st =
        Res.ret (Iter.next
          { w := { ctx := { st.w.ctx with status := 0, child_sig := 0 },
                   ops := st.w.ops ++ [Op.read_child_registers st.w.ctx.child_tid]
                     ++ [Op.sys_ptrace_singlestep st.w.ctx.child_tid 0]
                     ++ [Op.sys_waitpid st.w.ctx.child_tid] ++ [Op.read_rbc_up] },
            rbc_now := 1, found_spot := st.found_spot }) := by
      unfold match_iter singlestep segv_resume
      simp [hsig, env_of, rbc_stuck]
      omega
    rw [hit]
    exact ih _ rfl (by simp only [List.length_append, List.length_singleton]; omega)

/-- C10 (counterexample): the recorded count is 1 and the registers never match.
(a) An iteration of the catch-up loop at a counter that stands at 0 leaves `rbc_now` and
`found_spot` as they were.  (b) An iteration of the register-match loop at a counter that
stands at 1 leaves them as they were, too.  (c) With a counter that reads 0, 0 and, from
the first single-step on, 1, one single-step reaches `rbc_now == rbc_rec`, and still no
amount of fuel lets `compensate_branch_count` finish. -/
theorem positioning_progress_counterexample :
    (catch_up_iter (env_of (fun _ => 0) 1)
        { w := replay_at 1, rbc_now := 0, found_spot := 0 }).value.map
      (fun st1 => (st1.rbc_now, st1.found_spot)) = some (0, 0) ∧
    (match_iter (env_of (fun _ => 1) 1) 29
        { w := replay_at 1, rbc_now := 1, found_spot := 0 }).value.map
      (fun it => (it.is_next, it.pos.rbc_now, it.pos.found_spot)) = some (true, 1, 0) ∧
    (catch_up (env_of rbc_stuck 1) 1 2
        { w := { replay_at 1 with ops := [Op.read_rbc_up, Op.read_rbc_up] },
          rbc_now := 0, found_spot := 0 }).value.map
      (fun st1 => (st1.rbc_now, st1.w.ops.length)) = some (1, 5) ∧
    ∀ fuel : Nat, compensate_branch_count (env_of rbc_stuck 1) fuel (replay_at 1) 29
      = Res.timeout := by
  refine ⟨by decide, by decide, by decide, ?_⟩
  intro fuel
  have hsig : (29 : Int) ≠ SIGSEGV := by decide
  unfold compensate_branch_count
  have h0 : ¬ ((env_of rbc_stuck 1).rbc_up (replay_at 1).ops.length
      > (replay_at 1).ctx.trace.rbc_up) := by decide
  simp only [h0, if_false]
  match fuel with
  | 0 => rfl
  | 1 => rfl
  | f + 2 =>
    have hc : catch_up (env_of rbc_stuck 1) (replay_at 1).ctx.trace.rbc_up (f + 2)
        { w := { ctx := (replay_at 1).ctx,
                 ops := (replay_at 1).ops ++ [Op.read_rbc_up] ++ [Op.read_rbc_up] },
          rbc_now := (env_of rbc_stuck 1).rbc_up
            ((replay_at 1).ops ++ [Op.read_rbc_up]).length,
          found_spot := 0 } =
        Res.ret
          { w := { ctx := { (replay_at 1).ctx with status := 0, child_sig := 0 },
                   ops := [Op.read_rbc_up, Op.read_rbc_up, Op.sys_ptrace_singlestep 1 0,
                     Op.sys_waitpid 1, Op.read_rbc_up] },
            rbc_now := 1, found_spot := 0 } := by
      rfl
    rw [hc]
    dsimp only
    rw [match_loop_stuck 29 hsig (replay_at 1).ctx.trace.rbc_up rfl (f + 2)]
    · rfl
    · decide

theorem singlestep_ops (env : ReplayEnv) (w w1 : Replay) (sig expected_val : Int)
    (h : singlestep env w sig expected_val = Res.ret w1) :
    w1.ops.length = w.ops.length + 2 := by
  unfold singlestep at h
  dsimp only at h
  split at h
  · cases h
  · injection h with h
    subst h
    simp

theorem singlestep_ne_timeout (env : ReplayEnv) (w : Replay) (sig expected_val : Int) :
    singlestep env w sig expected_val ≠ Res.timeout := by
  unfold singlestep
  dsimp only
  split <;> simp

theorem catch_up_iter_ne_timeout (env : ReplayEnv) (st : Pos) :
    catch_up_iter env st ≠ Res.timeout := by
  unfold catch_up_iter
  have := singlestep_ne_timeout env st.w 0 0x57f
  split <;> simp_all

theorem segv_resume_ops (env : ReplayEnv) (sig : Int) (w : Replay) :
    w.ops.length ≤ (segv_resume env sig w).ops.length := by
  unfold segv_resume
  split
  · simp
  · exact le_refl _

theorem match_iter_ne_timeout (env : ReplayEnv) (sig : Int) (st : Pos) :
    match_iter env sig st ≠ Res.timeout := by
  unfold match_iter
  dsimp only
  generalize segv_resume env sig _ = w2
  split
  · split
    · have := singlestep_ne_timeout env w2 0 0xb7f
      split <;> simp_all
    · simp
  · have := singlestep_ne_timeout env w2 0 0x57f
    split <;> simp_all

/-- With a counter that advances, a pass through the catch-up loop reads a larger count. -/
theorem catch_up_iter_advances (env : ReplayEnv) (hadv : env.counter_advances)
    (st st1 : Pos) (hb : st.read_before env) (h : catch_up_iter env st = Res.ret st1) :
    st.rbc_now < st1.rbc_now ∧ st1.read_before env ∧ st1.found_spot = st.found_spot := by
  unfold catch_up_iter at h
  split at h
  · rename_i w1 hs
    injection h with h
    subst h
    have hl := singlestep_ops env st.w w1 0 0x57f hs
    obtain ⟨t, ht, hnow⟩ := hb
    refine ⟨?_, ⟨w1.ops.length, by simp, rfl⟩, rfl⟩
    rw [hnow]
    exact hadv t w1.ops.length (by omega)
  · cases h
  · cases h

/-- With a counter that advances, a pass through the register-match loop that reaches the
end of the body reads a larger count; a pass that breaks has counted one more spot. -/
theorem match_iter_advances (env : ReplayEnv) (hadv : env.counter_advances) (sig : Int)
    (st : Pos) (it : Iter) (hb : st.read_before env)
    (h : match_iter env sig st = Res.ret it) :
    (it.is_next = true ∧ st.rbc_now < it.pos.rbc_now ∧ it.pos.read_before env) ∨
    (it.is_next = false ∧ it.pos.found_spot = st.found_spot + 1) := by
  unfold match_iter at h
  dsimp only at h
  have hw := segv_resume_ops env sig
    { ctx := st.w.ctx, ops := st.w.ops ++ [Op.read_child_registers st.w.ctx.child_tid] }
  generalize segv_resume env sig _ = w2 at h hw
  split at h
  · right
    split at h
    · split at h
      · injection h with h; subst h; exact ⟨rfl, rfl⟩
      · cases h
      · cases h
    · injection h with h; subst h; exact ⟨rfl, rfl⟩
  · left
    split at h
    · rename_i w3 hs
      injection h with h
      subst h
      have hl := singlestep_ops env _ w3 0 0x57f hs
      obtain ⟨t, ht, hnow⟩ := hb
      refine ⟨rfl, ?_, ⟨w3.ops.length, by simp [Iter.pos], rfl⟩⟩
      show st.rbc_now < env.rbc_up w3.ops.length
      rw [hnow]
      refine hadv t w3.ops.length ?_
      simp only [List.length_append, List.length_singleton] at hw
      omega
    · cases h
    · cases h

theorem catch_up_finishes (env : ReplayEnv) (hadv : env.counter_advances) (rbc_rec : Nat) :
    ∀ (fuel : Nat) (st : Pos), st.read_before env → 1 ≤ fuel →
      rbc_rec + 1 ≤ fuel + st.rbc_now →
      catch_up env rbc_rec fuel st ≠ Res.timeout ∧
      ∀ st1, catch_up env rbc_rec fuel st = Res.ret st1 → st1.read_before env := by
  intro fuel
  induction fuel with
  | zero => intro st _ h1 _; omega
  | succ f ih =>
    intro st hb _ hm
    rw [catch_up]
    split
    · rename_i hlt
      cases hit : catch_up_iter env st with
      | ret st1 =>
        obtain ⟨h1, h2, _⟩ := catch_up_iter_advances env hadv st st1 hb hit
        exact ih st1 h2 (by omega) (by omega)
      | abort why a => exact ⟨by simp, by intro st1 h; cases h⟩
      | timeout => exact absurd hit (catch_up_iter_ne_timeout env st)
    · exact ⟨by simp, by intro st1 h; injection h with h; subst h; exact hb⟩

theorem match_loop_finishes (env : ReplayEnv) (hadv : env.counter_advances) (sig : Int)
    (rbc_rec : Nat) (fuel : Nat) (st : Pos) (hb : st.read_before env) (hf : 2 ≤ fuel) :
    match_loop env sig rbc_rec fuel st ≠ Res.timeout := by
  obtain ⟨f, rfl⟩ : ∃ f, fuel = f + 2 := ⟨fuel - 2, by omega⟩
  rw [match_loop]
  split
  · rename_i heq
    cases hit : match_iter env sig st with
    | ret it =>
      cases it with
      | next st1 =>
        rcases match_iter_advances env hadv sig st _ hb hit with ⟨_, h2, _⟩ | ⟨h1, _⟩
        · simp only [Iter.pos] at h2
          dsimp only
          rw [match_loop, if_neg (by omega)]
          simp
        · simp [Iter.is_next] at h1
      | brk st1 => simp
    | abort why a => simp
    | timeout => exact absurd hit (match_iter_ne_timeout env sig st)
  · simp


/-- C10 (amended): for a counter that reads more after a single-step than at any reading
before it, every iteration of the catch-up loop and of the register-match loop that
completes either strictly increases `rbc_now` or increments `found_spot`, and
`compensate_branch_count` terminates (it returns or aborts) within
`trace.rbc_up + 2` evaluations of each loop condition. -/
theorem positioning_progress_when_counter_advances (env : ReplayEnv)
    (hadv : env.counter_advances) :
    (∀ st st1 : Pos, st.read_before env → catch_up_iter env st = Res.ret st1 →
      st.rbc_now < st1.rbc_now ∨ st1.found_spot = st.found_spot + 1) ∧
    (∀ (sig : Int) (st : Pos) (it : Iter), st.read_before env →
      match_iter env sig st = Res.ret it →
      st.rbc_now < it.pos.rbc_now ∨ it.pos.found_spot = st.found_spot + 1) ∧
    (∀ (fuel : Nat) (w : Replay) (sig : Int), w.ctx.trace.rbc_up + 2 ≤ fuel →
      compensate_branch_count env fuel w sig ≠ Res.timeout) := by
  refine ⟨?_, ?_, ?_⟩
  · intro st st1 hb h
    exact Or.inl (catch_up_iter_advances env hadv st st1 hb h).1
  · intro sig st it hb h
    rcases match_iter_advances env hadv sig st it hb h with ⟨_, h2, _⟩ | ⟨_, h2⟩
    · exact Or.inl h2
    · exact Or.inr h2
  · intro fuel w sig hf
    unfold compensate_branch_count
    dsimp only
    split
    · simp
    · have hb : Pos.read_before env
          { w := { ctx := w.ctx, ops := w.ops ++ [Op.read_rbc_up] ++ [Op.read_rbc_up] },
            rbc_now := env.rbc_up (w.ops ++ [Op.read_rbc_up]).length, found_spot := 0 } :=
        ⟨(w.ops ++ [Op.read_rbc_up]).length, by simp, rfl⟩
      obtain ⟨h1, h2⟩ := catch_up_finishes env hadv w.ctx.trace.rbc_up fuel _ hb (by omega)
        (by omega)
      cases hcu : catch_up env w.ctx.trace.rbc_up fuel
          { w := { ctx := w.ctx, ops := w.ops ++ [Op.read_rbc_up] ++ [Op.read_rbc_up] },
            rbc_now := env.rbc_up (w.ops ++ [Op.read_rbc_up]).length, found_spot := 0 } with
      | ret st =>
        have h3 := match_loop_finishes env hadv sig w.ctx.trace.rbc_up fuel st (h2 st hcu)
          (by omega)
        dsimp only
        cases hml : match_loop env sig w.ctx.trace.rbc_up fuel st with
        | ret st1 => dsimp only; split <;> simp
        | abort why a => simp
        | timeout => exact absurd hml h3
      | abort why a => simp
      | timeout => exact absurd hcu h1

theorem counter_per_step_advances (check : Int) :
    (env_of (fun t => t / 3) check).counter_advances := by
  intro t t1 h
  show t / 3 < t1 / 3
  omega

/-- The instance of the amended C10 at a counter that goes up by one with every
single-step, a recorded count of 1 and registers that match: the call returns after one
single-step, six operations in all. -/
theorem positioning_progress_when_counter_advances_witness :
    (env_of (fun t => t / 3) 0).counter_advances ∧
    compensate_branch_count (env_of (fun t => t / 3) 0) 3 (replay_at 1) 29 ≠ Res.timeout ∧
    (compensate_branch_count (env_of (fun t => t / 3) 0) 3 (replay_at 1) 29).value.map
      (fun w => (w.ops.length, w.ctx.status, w.ctx.child_sig)) = some (6, 0, 0) :=
  ⟨counter_per_step_advances 0,
    (positioning_progress_when_counter_advances (env_of (fun t => t / 3) 0)
      (counter_per_step_advances 0)).2.2 3 (replay_at 1) 29 (by decide),
    by decide⟩

/-! ## `get_active_thread`: probes, frame and the indices read -/

theorem scan_probe_ready (cfg : Config) (probe : ProbeOracle) (tmp : Int) (fuel : Nat)
    (s : Sched) (h : s.thread_ptr < (cfg.NUM_MAX_THREADS : Int))
    (h0 : s.registered_threads s.thread_ptr ≠ 0)
    (hst : (s.heap (s.registered_threads s.thread_ptr)).exec_state
      = ExecState.EXEC_STATE_IN_SYSCALL)
    (hr : (probe s.probes.length (s.heap (s.registered_threads s.thread_ptr)).child_tid).1
      ≠ 0) :
    ∃ s1, scan cfg probe tmp (fuel + 1) s = some (s.registered_threads s.thread_ptr, s1) ∧
      s1.reads = s.reads ++ [s.thread_ptr] ∧
      s1.registered_threads = s.registered_threads := by
  rw [scan]
  simp only [h, h0, hst, hr, if_true, ne_eq, not_false_eq_true]
  exact ⟨_, rfl, rfl, rfl⟩

/-- A probe that reports "not ready" changes the status word of the probed context and
nothing else in the heap; the scan moves on to the next slot. -/
theorem scan_probe_not_ready (cfg : Config) (probe : ProbeOracle) (tmp : Int) (fuel : Nat)
    (s : Sched) (h : s.thread_ptr < (cfg.NUM_MAX_THREADS : Int))
    (h0 : s.registered_threads s.thread_ptr ≠ 0)
    (hst : (s.heap (s.registered_threads s.thread_ptr)).exec_state
      = ExecState.EXEC_STATE_IN_SYSCALL)
    (hr : (probe s.probes.length (s.heap (s.registered_threads s.thread_ptr)).child_tid).1
      = 0) :
    scan cfg probe tmp (fuel + 1) s =
      scan cfg probe tmp fuel
        { s with
            heap := Function.update s.heap (s.registered_threads s.thread_ptr)
              { s.heap (s.registered_threads s.thread_ptr) with
                  status := (probe s.probes.length
                    (s.heap (s.registered_threads s.thread_ptr)).child_tid).2 },
            probes := s.probes ++ [(s.heap (s.registered_threads s.thread_ptr)).child_tid],
            reads := s.reads ++ [s.thread_ptr],
            thread_ptr := s.thread_ptr + 1 } := by
  rw [scan]
  simp only [h, h0, hst, hr, if_true, ne_eq, not_false_eq_true, not_true_eq_false, if_false]

theorem update_status_frame (heap : Nat → context) (p : Nat) (st : Int) (q : Nat) :
    (Function.update heap p { heap p with status := st } q).exec_state = (heap q).exec_state ∧
    (Function.update heap p { heap p with status := st } q).switch_counter
      = (heap q).switch_counter ∧
    (Function.update heap p { heap p with status := st } q).allow_ctx_switch
      = (heap q).allow_ctx_switch ∧
    (Function.update heap p { heap p with status := st } q).child_tid = (heap q).child_tid := by
  by_cases hq : q = p
  · subst hq; rw [Function.update_same]; exact ⟨rfl, rfl, rfl, rfl⟩
  · rw [Function.update_noteq hq]; exact ⟨rfl, rfl, rfl, rfl⟩

/-- What a return of the scan does to the heap: a returned context that was parked is
`EXEC_STATE_IN_SYSCALL_DONE`, a returned context that was not parked keeps its
`exec_state`, and every other context keeps `exec_state` and `switch_counter`. -/
theorem scan_frame (cfg : Config) (probe : ProbeOracle) (tmp : Int) :
    ∀ (fuel : Nat) (s : Sched) (r : Nat) (s1 : Sched),
      scan cfg probe tmp fuel s = some (r, s1) →
      ((s.heap r).exec_state = ExecState.EXEC_STATE_IN_SYSCALL →
        (s1.heap r).exec_state = ExecState.EXEC_STATE_IN_SYSCALL_DONE) ∧
      ((s.heap r).exec_state ≠ ExecState.EXEC_STATE_IN_SYSCALL →
        (s1.heap r).exec_state = (s.heap r).exec_state) ∧
      (∀ q, q ≠ r → (s1.heap q).exec_state = (s.heap q).exec_state ∧
        (s1.heap q).switch_counter = (s.heap q).switch_counter) := by
  intro fuel
  induction fuel with
  | zero => intro s r s1 h; simp [scan] at h
  | succ f ih =>
    intro s r s1 h
    unfold scan at h
    dsimp only at h
    split at h
    · split at h
      · split at h
        · rename_i hpark
          split at h
          · injection h with h
            injection h with hr hs
            subst hr; subst hs
            dsimp only
            refine ⟨?_, ?_, ?_⟩
            · intro _
              rw [Function.update_same, set_switch_counter_exec_state]
            · intro hne; exact absurd hpark hne
            · intro q hq
              rw [Function.update_noteq hq, Function.update_noteq hq]
              exact ⟨rfl, rfl⟩
          · obtain ⟨h1, h2, h3⟩ := ih _ _ _ h
            dsimp only at h1 h2 h3
            have e := update_status_frame s.heap (s.registered_threads s.thread_ptr)
              (probe s.probes.length (s.heap (s.registered_threads s.thread_ptr)).child_tid).2
            refine ⟨?_, ?_, ?_⟩
            · intro hp; exact h1 (by rw [(e r).1]; exact hp)
            · intro hp
              rw [h2 (by rw [(e r).1]; exact hp), (e r).1]
            · intro q hq
              obtain ⟨g1, g2⟩ := h3 q hq
              rw [g1, g2, (e q).1, (e q).2.1]
              exact ⟨rfl, rfl⟩
        · rename_i hst
          injection h with h
          injection h with hr hs
          subst hr; subst hs
          dsimp only
          refine ⟨?_, ?_, ?_⟩
          · intro hp; exact absurd hp hst
          · intro _
            rw [Function.update_same, set_switch_counter_exec_state]
          · intro q hq
            rw [Function.update_noteq hq]
            exact ⟨rfl, rfl⟩
      · have h1 := ih _ _ _ h
        exact h1
    · have h1 := ih _ _ _ h
      exact h1

/-- C17: on the scan path of `get_active_thread` (argument null or allowing the switch), a
returned context that was in `EXEC_STATE_IN_SYSCALL` at entry is in
`EXEC_STATE_IN_SYSCALL_DONE` at return and the last probe issued was for its tid and
reported readiness; a returned context that was not in `EXEC_STATE_IN_SYSCALL` keeps its
`exec_state`; every context other than the returned one keeps `exec_state`, and keeps
`switch_counter` unless it is the argument with an expired quantum, whose counter is
reset to `MAX_SWITCH_COUNTER`. -/
theorem scan_path_effects (cfg : Config) (probe : ProbeOracle) (fuel : Nat)
    (s : Sched) (ctx r : Nat) (s1 : Sched)
    (hpath : ctx = 0 ∨ (s.heap ctx).allow_ctx_switch = true)
    (h : get_active_thread cfg probe fuel s ctx = some (r, s1)) :
    ((s.heap r).exec_state = ExecState.EXEC_STATE_IN_SYSCALL →
      (s1.heap r).exec_state = ExecState.EXEC_STATE_IN_SYSCALL_DONE ∧
      ∃ before, s1.probes = before ++ [(s.heap r).child_tid] ∧
        (probe before.length (s.heap r).child_tid).1 ≠ 0) ∧
    ((s.heap r).exec_state ≠ ExecState.EXEC_STATE_IN_SYSCALL →
      (s1.heap r).exec_state = (s.heap r).exec_state) ∧
    (∀ q, q ≠ r →
      (s1.heap q).exec_state = (s.heap q).exec_state ∧
      ((s1.heap q).switch_counter = (s.heap q).switch_counter ∨
       (q = ctx ∧ ctx ≠ 0 ∧ (s.heap ctx).switch_counter < 0 ∧
         (s1.heap q).switch_counter = cfg.MAX_SWITCH_COUNTER))) := by
  unfold get_active_thread at h
  dsimp only at h
  split at h
  · rename_i hctx
    split at h
    · rename_i hallow
      rcases hpath with h0 | h1
      · exact absurd h0 hctx
      · rw [hallow] at h1; cases h1
    · obtain ⟨f1, f2, f3⟩ := scan_frame cfg probe s.thread_ptr fuel _ r s1 h
      obtain ⟨_, _, g3⟩ := scan_returned cfg probe s.thread_ptr fuel _ r s1 h
      have e := expire_quantum_frame cfg s ctx
      rw [(e r).1] at f1 f2
      rw [(e r).1, (e r).2.1] at g3
      refine ⟨fun hp => ⟨f1 hp, g3 hp⟩, f2, ?_⟩
      intro q hq
      obtain ⟨k1, k2⟩ := f3 q hq
      rw [(e q).1] at k1
      refine ⟨k1, ?_⟩
      rw [k2]
      unfold expire_quantum
      split
      · rename_i hneg
        dsimp only
        by_cases hqc : q = ctx
        · subst hqc
          rw [Function.update_same]
          exact Or.inr ⟨rfl, hctx, hneg, rfl⟩
        · rw [Function.update_noteq hqc]
          exact Or.inl rfl
      · exact Or.inl rfl
  · obtain ⟨f1, f2, f3⟩ := scan_frame cfg probe s.thread_ptr fuel _ r s1 h
    obtain ⟨_, _, g3⟩ := scan_returned cfg probe s.thread_ptr fuel _ r s1 h
    exact ⟨fun hp => ⟨f1 hp, g3 hp⟩, f2, fun q hq => ⟨(f3 q hq).1, Or.inl (f3 q hq).2⟩⟩

/-- C20 (the code at the failing input): the first call, made with a null argument from
the initial cursor `-1`, reads `registered_threads[-1]`, below the table, before it reads
slots 0 and 1 and returns the thread in slot 1. -/
theorem first_call_reads_below_table :
    (get_active_thread cfg4 never_ready 8 (two_threads (-1) 0 0) 0).map
      (fun x => (x.1, x.2.reads)) = some (1, [-1, 0, 1]) ∧
    (two_threads (-1) 0 0).thread_ptr = -1 ∧
    ¬ (0 ≤ (-1 : Int) ∧ (-1 : Int) < (cfg4.NUM_MAX_THREADS : Int)) := by
  decide

/-- The instance of C17 at the "parked then woken" scenario: one parked thread, the probe
says "not ready" once and "ready" the second time round; the thread comes back as
`EXEC_STATE_IN_SYSCALL_DONE` after two probes. -/
theorem scan_path_effects_witness :
    ∃ r s1, get_active_thread cfg4 ready_second_time 10
        (one_thread (-1) 0 ExecState.EXEC_STATE_IN_SYSCALL true) 0 = some (r, s1) ∧
      (r, s1.probes) = (1, [1, 1]) ∧
      (s1.heap r).exec_state = ExecState.EXEC_STATE_IN_SYSCALL_DONE ∧
      ∃ before, s1.probes = before ++
          [((one_thread (-1) 0 ExecState.EXEC_STATE_IN_SYSCALL true).heap r).child_tid] ∧
        (ready_second_time before.length
          ((one_thread (-1) 0 ExecState.EXEC_STATE_IN_SYSCALL true).heap r).child_tid).1
          ≠ 0 := by
  have hv : (get_active_thread cfg4 ready_second_time 10
      (one_thread (-1) 0 ExecState.EXEC_STATE_IN_SYSCALL true) 0).map
        (fun x => (x.1, x.2.probes)) = some (1, [1, 1]) := by decide
  cases h : get_active_thread cfg4 ready_second_time 10
      (one_thread (-1) 0 ExecState.EXEC_STATE_IN_SYSCALL true) 0 with
  | none => rw [h] at hv; cases hv
  | some x =>
    rw [h] at hv
    have hx : (x.1, x.2.probes) = (1, [1, 1]) := Option.some.inj hv
    have hx1 : x.1 = 1 := congrArg Prod.fst hx
    have hpark : ((one_thread (-1) 0 ExecState.EXEC_STATE_IN_SYSCALL true).heap x.1).exec_state
        = ExecState.EXEC_STATE_IN_SYSCALL := by rw [hx1]; rfl
    have hthm := (scan_path_effects cfg4 ready_second_time 10
      (one_thread (-1) 0 ExecState.EXEC_STATE_IN_SYSCALL true) 0 x.1 x.2 (Or.inl rfl) h).1
      hpark
    exact ⟨x.1, x.2, rfl, hx, hthm.1, hthm.2⟩

theorem runnable_slot_of_frame (cfg : Config) (s s1 : Sched) (i : Nat)
    (h : s.runnable_slot cfg i) (hrt : s1.registered_threads = s.registered_threads)
    (hex : ∀ q, (s1.heap q).exec_state = (s.heap q).exec_state) :
    s1.runnable_slot cfg i := by
  obtain ⟨h1, h2, h3⟩ := h
  refine ⟨h1, by rw [hrt]; exact h2, ?_⟩
  rw [hrt, hex]; exact h3

theorem in_table_of_frame (cfg : Config) (s s1 : Sched) (p : Nat)
    (hrt : s1.registered_threads = s.registered_threads) (h : in_table cfg s1 p) :
    in_table cfg s p := by
  unfold in_table at h ⊢
  rw [hrt] at h
  exact h

/-- One sweep towards a runnable slot: from the cursor, `n` words before slot `i`, which
holds an unparked context.  The scan returns a context of the table (the first returnable
one on the way), reading each index on the way once. -/
theorem scan_reaches (cfg : Config) (probe : ProbeOracle) (tmp : Int) :
    ∀ (n : Nat) (s : Sched) (fuel : Nat) (i : Nat),
      s.thread_ptr + (n : Int) = (i : Int) → s.runnable_slot cfg i →
      -1 ≤ s.thread_ptr → (s.thread_ptr = -1 → s.registered_threads (-1) = 0) →
      n + 1 ≤ fuel →
      ∃ r s1 l, scan cfg probe tmp fuel s = some (r, s1) ∧ r ≠ 0 ∧ in_table cfg s r ∧
        s1.reads = s.reads ++ l ∧ l.Nodup ∧ ∀ j ∈ l, s.thread_ptr ≤ j := by
  intro n
  induction n with
  | zero =>
    intro s fuel i hc hrun _ _ hf
    obtain ⟨f, rfl⟩ : ∃ f, fuel = f + 1 := ⟨fuel - 1, by omega⟩
    obtain ⟨hi, hp0, hst⟩ := hrun
    have hc2 : s.thread_ptr = (i : Int) := by simpa using hc
    have hlt : s.thread_ptr < (cfg.NUM_MAX_THREADS : Int) := by rw [hc2]; exact_mod_cast hi
    rw [← hc2] at hp0 hst
    rw [scan_hit cfg probe tmp f s hlt hp0 hst]
    refine ⟨_, _, [s.thread_ptr], rfl, hp0, ⟨i, by simpa using hi, by rw [hc2]⟩, rfl,
      List.nodup_singleton _, ?_⟩
    intro j hj
    simp only [List.mem_singleton] at hj
    omega
  | succ n ih =>
    intro s fuel i hc hrun hlow hbelow hf
    obtain ⟨f, rfl⟩ : ∃ f, fuel = f + 1 := ⟨fuel - 1, by omega⟩
    have hiN : (i : Int) < (cfg.NUM_MAX_THREADS : Int) := by exact_mod_cast hrun.1
    have hlt : s.thread_ptr < (cfg.NUM_MAX_THREADS : Int) := by push_cast at hc; omega
    -- what the recursive call gives, whatever the step did to heap, probes and reads
    have step : ∀ s2 : Sched, s2.thread_ptr = s.thread_ptr + 1 →
        s2.registered_threads = s.registered_threads →
        (∀ q, (s2.heap q).exec_state = (s.heap q).exec_state) →
        s2.reads = s.reads ++ [s.thread_ptr] →
        ∃ r s1 l, scan cfg probe tmp f s2 = some (r, s1) ∧ r ≠ 0 ∧ in_table cfg s r ∧
          s1.reads = s.reads ++ l ∧ l.Nodup ∧ ∀ j ∈ l, s.thread_ptr ≤ j := by
      intro s2 hc2 hrt hex hrd
      obtain ⟨r, s1, l, g1, g2, g3, g4, g5, g6⟩ := ih s2 f i
        (by rw [hc2]; push_cast at hc ⊢; omega)
        (runnable_slot_of_frame cfg s s2 i hrun hrt hex)
        (by rw [hc2]; omega) (by intro h; rw [hc2] at h; omega) (by omega)
      refine ⟨r, s1, s.thread_ptr :: l, g1, g2, in_table_of_frame cfg s s2 r hrt g3, ?_, ?_, ?_⟩
      · rw [g4, hrd]; simp
      · refine List.nodup_cons.mpr ⟨?_, g5⟩
        intro hmem
        have := g6 _ hmem
        rw [hc2] at this; omega
      · intro j hj
        rcases List.mem_cons.mp hj with h1 | h1
        · omega
        · have := g6 _ h1
          rw [hc2] at this; omega
    by_cases h0 : s.registered_threads s.thread_ptr = 0
    · rw [scan_null cfg probe tmp f s hlt h0]
      exact step _ rfl rfl (fun _ => rfl) rfl
    · have hge : 0 ≤ s.thread_ptr := by
        by_contra hneg
        have : s.thread_ptr = -1 := by omega
        exact h0 (by rw [this]; exact hbelow this)
      have hin : in_table cfg s (s.registered_threads s.thread_ptr) := by
        refine ⟨s.thread_ptr.toNat, ?_, ?_⟩
        · simp only [Finset.mem_range]; omega
        · congr 1; omega
      by_cases hst : (s.heap (s.registered_threads s.thread_ptr)).exec_state
          = ExecState.EXEC_STATE_IN_SYSCALL
      · by_cases hr : (probe s.probes.length
            (s.heap (s.registered_threads s.thread_ptr)).child_tid).1 = 0
        · rw [scan_probe_not_ready cfg probe tmp f s hlt h0 hst hr]
          exact step _ rfl rfl (fun q => (update_status_frame _ _ _ q).1) rfl
        · obtain ⟨s1, g1, g2, _⟩ := scan_probe_ready cfg probe tmp f s hlt h0 hst hr
          refine ⟨_, s1, [s.thread_ptr], g1, h0, hin, g2, List.nodup_singleton _, ?_⟩
          intro j hj
          simp only [List.mem_singleton] at hj
          omega
      · rw [scan_hit cfg probe tmp f s hlt h0 hst]
        refine ⟨_, _, [s.thread_ptr], rfl, h0, hin, rfl, List.nodup_singleton _, ?_⟩
        intro j hj
        simp only [List.mem_singleton] at hj
        omega

/-- A cursor at or past the end of the table: the scan wraps to slot 0 and sweeps up to
the runnable slot `i`. -/
theorem scan_wrap_reaches (cfg : Config) (probe : ProbeOracle) (tmp : Int) (s : Sched)
    (fuel : Nat) (i : Nat) (hge : ¬ s.thread_ptr < (cfg.NUM_MAX_THREADS : Int))
    (hrun : s.runnable_slot cfg i) (hf : i + 2 ≤ fuel) :
    ∃ r s1 l, scan cfg probe tmp fuel s = some (r, s1) ∧ r ≠ 0 ∧ in_table cfg s r ∧
      s1.reads = s.reads ++ l ∧ l.Nodup := by
  obtain ⟨f, rfl⟩ : ∃ f, fuel = f + 1 := ⟨fuel - 1, by omega⟩
  rw [scan_wrap cfg probe tmp f s hge]
  obtain ⟨r, s1, l, g1, g2, g3, g4, g5, _⟩ := scan_reaches cfg probe tmp i
    { s with thread_ptr := 0 } f i (by simp) hrun (by simp) (by intro h; simp at h) (by omega)
  exact ⟨r, s1, l, g1, g2, g3, g4, g5⟩

/-- Two sweeps towards a runnable slot: from the cursor to the end of the table, then from
slot 0 to slot `i`.  Each sweep reads an index at most once. -/
theorem scan_reaches_wrapping (cfg : Config) (probe : ProbeOracle) (tmp : Int) :
    ∀ (n : Nat) (s : Sched) (fuel : Nat) (i : Nat),
      (cfg.NUM_MAX_THREADS : Int) ≤ s.thread_ptr + (n : Int) → s.runnable_slot cfg i →
      -1 ≤ s.thread_ptr → (s.thread_ptr = -1 → s.registered_threads (-1) = 0) →
      n + (i + 2) ≤ fuel →
      ∃ r s1 l1 l2, scan cfg probe tmp fuel s = some (r, s1) ∧ r ≠ 0 ∧ in_table cfg s r ∧
        s1.reads = s.reads ++ l1 ++ l2 ∧ l1.Nodup ∧ l2.Nodup ∧
        ∀ j ∈ l1, s.thread_ptr ≤ j := by
  intro n
  induction n with
  | zero =>
    intro s fuel i hc hrun _ _ hf
    obtain ⟨r, s1, l, g1, g2, g3, g4, g5⟩ := scan_wrap_reaches cfg probe tmp s fuel i
      (by simp at hc; omega) hrun (by omega)
    exact ⟨r, s1, [], l, g1, g2, g3, by simpa using g4, List.nodup_nil, g5, by simp⟩
  | succ n ih =>
    intro s fuel i hc hrun hlow hbelow hf
    by_cases hlt : s.thread_ptr < (cfg.NUM_MAX_THREADS : Int)
    · obtain ⟨f, rfl⟩ : ∃ f, fuel = f + 1 := ⟨fuel - 1, by omega⟩
      have step : ∀ s2 : Sched, s2.thread_ptr = s.thread_ptr + 1 →
          s2.registered_threads = s.registered_threads →
          (∀ q, (s2.heap q).exec_state = (s.heap q).exec_state) →
          s2.reads = s.reads ++ [s.thread_ptr] →
          ∃ r s1 l1 l2, scan cfg probe tmp f s2 = some (r, s1) ∧ r ≠ 0 ∧ in_table cfg s r ∧
            s1.reads = s.reads ++ l1 ++ l2 ∧ l1.Nodup ∧ l2.Nodup ∧
            ∀ j ∈ l1, s.thread_ptr ≤ j := by
        intro s2 hc2 hrt hex hrd
        obtain ⟨r, s1, l1, l2, g1, g2, g3, g4, g5, g6, g7⟩ := ih s2 f i
          (by rw [hc2]; push_cast at hc ⊢; omega)
          (runnable_slot_of_frame cfg s s2 i hrun hrt hex)
          (by rw [hc2]; omega) (by intro h; rw [hc2] at h; omega) (by omega)
        refine ⟨r, s1, s.thread_ptr :: l1, l2, g1, g2, in_table_of_frame cfg s s2 r hrt g3,
          ?_, ?_, g6, ?_⟩
        · rw [g4, hrd]; simp
        · refine List.nodup_cons.mpr ⟨?_, g5⟩
          intro hmem
          have := g7 _ hmem
          rw [hc2] at this; omega
        · intro j hj
          rcases List.mem_cons.mp hj with h1 | h1
          · omega
          · have := g7 _ h1
            rw [hc2] at this; omega
      by_cases h0 : s.registered_threads s.thread_ptr = 0
      · rw [scan_null cfg probe tmp f s hlt h0]
        exact step _ rfl rfl (fun _ => rfl) rfl
      · have hge : 0 ≤ s.thread_ptr := by
          by_contra hneg
          have : s.thread_ptr = -1 := by omega
          exact h0 (by rw [this]; exact hbelow this)
        have hin : in_table cfg s (s.registered_threads s.thread_ptr) := by
          refine ⟨s.thread_ptr.toNat, ?_, ?_⟩
          · simp only [Finset.mem_range]; omega
          · congr 1; omega
        have one : ∀ s1 : Sched, s1.reads = s.reads ++ [s.thread_ptr] →
            s1.reads = s.reads ++ [s.thread_ptr] ++ [] ∧ [s.thread_ptr].Nodup ∧
            ([] : List Int).Nodup ∧ ∀ j ∈ [s.thread_ptr], s.thread_ptr ≤ j := by
          intro s1 h1
          refine ⟨by simpa using h1, List.nodup_singleton _, List.nodup_nil, ?_⟩
          intro j hj
          simp only [List.mem_singleton] at hj
          omega
        by_cases hst : (s.heap (s.registered_threads s.thread_ptr)).exec_state
            = ExecState.EXEC_STATE_IN_SYSCALL
        · by_cases hr : (probe s.probes.length
              (s.heap (s.registered_threads s.thread_ptr)).child_tid).1 = 0
          · rw [scan_probe_not_ready cfg probe tmp f s hlt h0 hst hr]
            exact step _ rfl rfl (fun q => (update_status_frame _ _ _ q).1) rfl
          · obtain ⟨s1, g1, g2, _⟩ := scan_probe_ready cfg probe tmp f s hlt h0 hst hr
            obtain ⟨k1, k2, k3, k4⟩ := one s1 g2
            exact ⟨_, s1, [s.thread_ptr], [], g1, h0, hin, k1, k2, k3, k4⟩
        · rw [scan_hit cfg probe tmp f s hlt h0 hst]
          obtain ⟨k1, k2, k3, k4⟩ := one
            { s with reads := s.reads ++ [s.thread_ptr],
                     heap := Function.update s.heap (s.registered_threads s.thread_ptr)
                       (set_switch_counter cfg s.thread_ptr tmp
                         (s.heap (s.registered_threads s.thread_ptr))) } rfl
          exact ⟨_, _, [s.thread_ptr], [], rfl, h0, hin, k1, k2, k3, k4⟩
    · obtain ⟨r, s1, l, g1, g2, g3, g4, g5⟩ := scan_wrap_reaches cfg probe tmp s fuel i
        hlt hrun (by omega)
      exact ⟨r, s1, [], l, g1, g2, g3, by simpa using g4, List.nodup_nil, g5, by simp⟩

/-- With nothing returnable and a probe that never reports readiness, the scan uses up
any amount of fuel. -/
theorem scan_all_parked (cfg : Config) (probe : ProbeOracle) (tmp : Int)
    (hprobe : ∀ k tid, (probe k tid).1 = 0) :
    ∀ (fuel : Nat) (s : Sched), s.all_parked cfg → scan cfg probe tmp fuel s = none := by
  intro fuel
  induction fuel with
  | zero => intro s _; rfl
  | succ f ih =>
    intro s hall
    by_cases hlt : s.thread_ptr < (cfg.NUM_MAX_THREADS : Int)
    · rcases hall s.thread_ptr (Or.inr (le_refl _)) hlt with h0 | hst
      · rw [scan_null cfg probe tmp f s hlt h0]
        refine ih _ ?_
        intro j hj hjN
        exact hall j (by rcases hj with h | h; exact Or.inl h; exact Or.inr (by
          have : s.thread_ptr + 1 ≤ j := h
          omega)) hjN
      · by_cases h0 : s.registered_threads s.thread_ptr = 0
        · rw [scan_null cfg probe tmp f s hlt h0]
          refine ih _ ?_
          intro j hj hjN
          exact hall j (by rcases hj with h | h; exact Or.inl h; exact Or.inr (by
            have : s.thread_ptr + 1 ≤ j := h
            omega)) hjN
        · rw [scan_probe_not_ready cfg probe tmp f s hlt h0 hst (hprobe _ _)]
          refine ih _ ?_
          intro j hj hjN
          have hj2 : 0 ≤ j ∨ s.thread_ptr ≤ j := by
            rcases hj with h | h
            · exact Or.inl h
            · refine Or.inr ?_
              have : s.thread_ptr + 1 ≤ j := h
              omega
          rcases hall j hj2 hjN with g | g
          · exact Or.inl g
          · refine Or.inr ?_
            show (Function.update s.heap _ _ (s.registered_threads j)).exec_state = _
            rw [(update_status_frame s.heap _ _ _).1]
            exact g
    · rw [scan_wrap cfg probe tmp f s hlt]
      refine ih _ ?_
      intro j hj hjN
      have hj0 : 0 ≤ j := by
        rcases hj with h | h
        · exact h
        · exact h
      exact hall j (Or.inl hj0) hjN

theorem expire_quantum_cursor (cfg : Config) (s : Sched) (ctx : Nat) :
    (expire_quantum cfg s ctx).registered_threads = s.registered_threads ∧
    (expire_quantum cfg s ctx).reads = s.reads ∧
    ((expire_quantum cfg s ctx).thread_ptr = s.thread_ptr ∨
     (expire_quantum cfg s ctx).thread_ptr = s.thread_ptr + 1) := by
  unfold expire_quantum
  split
  · exact ⟨rfl, rfl, Or.inr rfl⟩
  · exact ⟨rfl, rfl, Or.inl rfl⟩

/-- The scan from any cursor not below `-1` finds a returnable context when some slot is
runnable, in at most two sweeps. -/
theorem scan_finds_runnable (cfg : Config) (probe : ProbeOracle) (tmp : Int) (s : Sched)
    (fuel : Nat) (i : Nat) (hrun : s.runnable_slot cfg i) (hlow : -1 ≤ s.thread_ptr)
    (hbelow : s.thread_ptr = -1 → s.registered_threads (-1) = 0)
    (hf : cfg.NUM_MAX_THREADS + 2 ≤ fuel) :
    ∃ r s1 l, scan cfg probe tmp fuel s = some (r, s1) ∧ r ≠ 0 ∧ in_table cfg s r ∧
      s1.reads = s.reads ++ l ∧ ∀ j, l.count j ≤ 2 := by
  have hi := hrun.1
  by_cases hle : s.thread_ptr ≤ (i : Int)
  · obtain ⟨r, s1, l, g1, g2, g3, g4, g5, _⟩ := scan_reaches cfg probe tmp
      ((i : Int) - s.thread_ptr).toNat s fuel i (by omega) hrun hlow hbelow (by omega)
    refine ⟨r, s1, l, g1, g2, g3, g4, fun j => ?_⟩
    have := List.nodup_iff_count_le_one.mp g5 j
    omega
  · obtain ⟨r, s1, l1, l2, g1, g2, g3, g4, g5, g6, _⟩ := scan_reaches_wrapping cfg probe tmp
      ((cfg.NUM_MAX_THREADS : Int) - s.thread_ptr).toNat s fuel i (by omega) hrun hlow hbelow
      (by omega)
    refine ⟨r, s1, l1 ++ l2, g1, g2, g3, by rw [g4, List.append_assoc], fun j => ?_⟩
    have h1 := List.nodup_iff_count_le_one.mp g5 j
    have h2 := List.nodup_iff_count_le_one.mp g6 j
    rw [List.count_append]
    omega

/-- C16 (amended): if at entry some slot holds a context that is not in
`EXEC_STATE_IN_SYSCALL`, then for every cursor from `-1` on (at `-1`, the word read at
index `-1` being null), every argument that is null, allows the switch or is in the
table, and every probe oracle, `get_active_thread` returns (fuel `NUM_MAX_THREADS + 2` is
enough) a non-null context of the table, having read no index more than twice; and with
nothing returnable in the table (empty, or every context parked) and a probe that never
reports readiness, a call whose argument is null or allows the switch returns for no
amount of fuel. -/
theorem runnable_slot_is_found (cfg : Config) (probe : ProbeOracle) (s : Sched)
    (ctx : Nat) :
    (∀ (i fuel : Nat), s.runnable_slot cfg i → -1 ≤ s.thread_ptr →
      (s.thread_ptr = -1 → s.registered_threads (-1) = 0) →
      (ctx = 0 ∨ (s.heap ctx).allow_ctx_switch = true ∨ in_table cfg s ctx) →
      cfg.NUM_MAX_THREADS + 2 ≤ fuel →
      ∃ r s1 l, get_active_thread cfg probe fuel s ctx = some (r, s1) ∧ r ≠ 0 ∧
        in_table cfg s r ∧ s1.reads = s.reads ++ l ∧ ∀ j, l.count j ≤ 2) ∧
    ((∀ k tid, (probe k tid).1 = 0) → s.all_parked cfg →
      (ctx = 0 ∨ (s.heap ctx).allow_ctx_switch = true) →
      ∀ fuel, get_active_thread cfg probe fuel s ctx = none) := by
  constructor
  · intro i fuel hrun hlow hbelow hctx hf
    by_cases h0 : ctx = 0
    · subst h0
      rw [get_active_thread_null]
      exact scan_finds_runnable cfg probe s.thread_ptr s fuel i hrun hlow hbelow hf
    · by_cases hal : (s.heap ctx).allow_ctx_switch = true
      · rw [get_active_thread_switchable cfg probe fuel s ctx h0 hal]
        obtain ⟨e1, e2, e3⟩ := expire_quantum_cursor cfg s ctx
        obtain ⟨r, s1, l, g1, g2, g3, g4, g5⟩ := scan_finds_runnable cfg probe s.thread_ptr
          (expire_quantum cfg s ctx) fuel i
          (runnable_slot_of_frame cfg s _ i hrun e1
            (fun q => (expire_quantum_frame cfg s ctx q).1))
          (by rcases e3 with h | h <;> rw [h] <;> omega)
          (by
            intro h
            rw [e1]
            rcases e3 with h1 | h1
            · exact hbelow (by rw [← h1]; exact h)
            · rw [h1] at h; omega)
          hf
        exact ⟨r, s1, l, g1, g2, in_table_of_frame cfg s _ r e1 g3, by rw [g4, e2], g5⟩
      · have hf2 : (s.heap ctx).allow_ctx_switch = false := by
          cases hb : (s.heap ctx).allow_ctx_switch
          · rfl
          · exact absurd hb hal
        have hin : in_table cfg s ctx := by
          rcases hctx with h | h | h
          · exact absurd h h0
          · exact absurd h hal
          · exact h
        refine ⟨ctx, s, [], ?_, h0, hin, by simp, by simp⟩
        unfold get_active_thread
        simp [h0, hf2]
  · intro hprobe hall hctx fuel
    by_cases h0 : ctx = 0
    · subst h0
      rw [get_active_thread_null]
      exact scan_all_parked cfg probe s.thread_ptr hprobe fuel s hall
    · have hal : (s.heap ctx).allow_ctx_switch = true := by
        rcases hctx with h | h
        · exact absurd h h0
        · exact h
      rw [get_active_thread_switchable cfg probe fuel s ctx h0 hal]
      refine scan_all_parked cfg probe s.thread_ptr hprobe fuel _ ?_
      obtain ⟨e1, _, e3⟩ := expire_quantum_cursor cfg s ctx
      intro j hj hjN
      have hj2 : 0 ≤ j ∨ s.thread_ptr ≤ j := by
        rcases hj with h | h
        · exact Or.inl h
        · rcases e3 with h1 | h1 <;> rw [h1] at h
          · exact Or.inr h
          · exact Or.inr (by omega)
      rw [e1, (expire_quantum_frame cfg s ctx _).1]
      exact hall j hj2 hjN

/-- C16 (counterexample): thread 1 in slot 1 is runnable in both cases.  (a) The argument
5 forbids the switch and is not in the table: it is what the call returns.  (b) From the
initial cursor `-1` with the non-null word 7 below the table, the first call returns 7,
which is not in the table either. -/
theorem returns_unregistered_counterexample :
    (((two_threads 1 0 0).heap ((two_threads 1 0 0).registered_threads 1)).exec_state
        ≠ ExecState.EXEC_STATE_IN_SYSCALL ∧
      (get_active_thread cfg4 never_ready 8 (two_threads 1 0 0) 5).map Prod.fst = some 5 ∧
      ¬ in_table cfg4 (two_threads 1 0 0) 5) ∧
    ((get_active_thread cfg4 never_ready 8 (below_table (two_threads (-1) 0 0) 7) 0).map
        (fun x => (x.1, x.2.reads)) = some (7, [-1]) ∧
      ¬ in_table cfg4 (below_table (two_threads (-1) 0 0) 7) 7) := by
  decide

theorem two_threads_runnable_slot (cursor sc1 sc2 : Int) :
    (two_threads cursor sc1 sc2).runnable_slot cfg4 2 := by
  refine ⟨by decide, ?_, ?_⟩
  · simp [two_threads]
  · simp [two_threads, ctx_of]

/-- The instance of the amended C16 at two running threads with the cursor at the end of
the table (4, one past the last slot): the scan wraps and returns a thread of the
table. -/
theorem runnable_slot_is_found_witness :
    (∃ r s1 l, get_active_thread cfg4 never_ready 6 (two_threads 4 0 0) 0 = some (r, s1) ∧
      r ≠ 0 ∧ in_table cfg4 (two_threads 4 0 0) r ∧
      s1.reads = (two_threads 4 0 0).reads ++ l ∧ ∀ j, l.count j ≤ 2) ∧
    ∀ fuel, get_active_thread cfg4 never_ready fuel sched_init 0 = none :=
  ⟨(runnable_slot_is_found cfg4 never_ready (two_threads 4 0 0) 0).1 2 6
      (two_threads_runnable_slot 4 0 0) (by decide) (by decide) (Or.inl rfl) (by decide),
    (runnable_slot_is_found cfg4 never_ready sched_init 0).2 (fun _ _ => rfl)
      (fun _ _ _ => Or.inl rfl) (Or.inl rfl)⟩

/-! ## `get_active_thread`: rotation among any number of runnable threads -/

theorem next_populated_congr (cfg : Config) (s s1 : Sched) (a b : Nat)
    (hrt : s1.registered_threads = s.registered_threads) (h : NextPopulated cfg s1 a b) :
    NextPopulated cfg s a b := by
  unfold NextPopulated at h ⊢
  rw [hrt] at h
  exact h

/-- A populated table has a first populated slot after any slot, going round. -/
theorem exists_next_populated (cfg : Config) (s : Sched) (a : Nat)
    (ha : a < cfg.NUM_MAX_THREADS) (hpa : s.registered_threads (a : Int) ≠ 0) :
    ∃ b, NextPopulated cfg s a b := by
  classical
  by_cases hex : ∃ j, a < j ∧ j < cfg.NUM_MAX_THREADS ∧ s.registered_threads (j : Int) ≠ 0
  · refine ⟨Nat.find hex, (Nat.find_spec hex).2.1, (Nat.find_spec hex).2.2, ?_⟩
    rw [if_pos (Nat.find_spec hex).1]
    intro j h1 h2
    by_contra hne
    exact Nat.find_min hex h2 ⟨h1, by have := (Nat.find_spec hex).2.1; omega, hne⟩
  · have hex2 : ∃ j, j < cfg.NUM_MAX_THREADS ∧ s.registered_threads (j : Int) ≠ 0 :=
      ⟨a, ha, hpa⟩
    have hle : Nat.find hex2 ≤ a := Nat.find_min' hex2 ⟨ha, hpa⟩
    refine ⟨Nat.find hex2, (Nat.find_spec hex2).1, (Nat.find_spec hex2).2, ?_⟩
    rw [if_neg (by omega)]
    intro j hj
    by_contra hne
    rcases hj with ⟨h1, h2⟩ | h1
    · exact hex ⟨j, h1, h2, hne⟩
    · exact Nat.find_min hex2 h1 ⟨by omega, hne⟩

theorem all_runnable_of_frame (cfg : Config) (s s1 : Sched) (h : AllRunnable cfg s)
    (hrt : s1.registered_threads = s.registered_threads)
    (hex : ∀ q, (s1.heap q).exec_state = (s.heap q).exec_state)
    (hal : ∀ q, (s1.heap q).allow_ctx_switch = (s.heap q).allow_ctx_switch) :
    AllRunnable cfg s1 := by
  intro i hi hne
  rw [hrt] at hne ⊢
  rw [hex, hal]
  exact h i hi hne

/-- With every registered thread runnable and the cursor on the slot of the argument, a
call leaves the cursor where it is or moves it to the next populated slot, and returns
the context of the slot the cursor ends on. -/
theorem all_runnable_step (cfg : Config) (probe : ProbeOracle) (fuel : Nat) (s : Sched)
    (a : Nat) (hall : AllRunnable cfg s) (ha : a < cfg.NUM_MAX_THREADS)
    (hpa : s.registered_threads (a : Int) ≠ 0) (hc : s.thread_ptr = (a : Int))
    (hf : cfg.NUM_MAX_THREADS + 1 ≤ fuel) :
    ∃ (b : Nat) (s1 : Sched), get_active_thread cfg probe fuel s (s.registered_threads (a : Int))
        = some (s.registered_threads (b : Int), s1) ∧
      s1.thread_ptr = (b : Int) ∧ s1.registered_threads = s.registered_threads ∧
      AllRunnable cfg s1 ∧ b < cfg.NUM_MAX_THREADS ∧ s.registered_threads (b : Int) ≠ 0 ∧
      (b = a ∨ NextPopulated cfg s a b) := by
  obtain ⟨hrun_a, hal_a⟩ := hall a ha hpa
  rw [get_active_thread_switchable cfg probe fuel s _ hpa hal_a]
  by_cases hsc : 0 ≤ (s.heap (s.registered_threads (a : Int))).switch_counter
  · rw [expire_quantum_of_nonneg cfg s _ hsc]
    obtain ⟨s1, h1, h2, h3, h4, _, _⟩ := scan_find cfg probe s.thread_ptr 0 s fuel a
      (s.registered_threads (a : Int)) (by simp [hc]) ha (by intro j hj; omega) rfl hpa
      hrun_a (by omega)
    refine ⟨a, s1, h1, h2, h3, ?_, ha, hpa, Or.inl rfl⟩
    refine all_runnable_of_frame cfg s s1 hall h3 (fun q => ?_) (fun q => ?_)
    · rw [h4]
      exact (update_counter_frame s.heap _ _ (set_switch_counter_exec_state _ _ _ _)
        (set_switch_counter_allow _ _ _ _) q).1
    · rw [h4]
      exact (update_counter_frame s.heap _ _ (set_switch_counter_exec_state _ _ _ _)
        (set_switch_counter_allow _ _ _ _) q).2
  · have hneg : (s.heap (s.registered_threads (a : Int))).switch_counter < 0 := by omega
    rw [expire_quantum_of_neg cfg s _ hneg]
    obtain ⟨b, hb, hpb, hnext⟩ := exists_next_populated cfg s a ha hpa
    obtain ⟨hrun_b, _⟩ := hall b hb hpb
    have e2 := update_counter_frame s.heap (s.registered_threads (a : Int))
      { s.heap (s.registered_threads (a : Int)) with
          switch_counter := cfg.MAX_SWITCH_COUNTER } rfl rfl
    have key : ∃ s1, scan cfg probe s.thread_ptr fuel
          { s with thread_ptr := s.thread_ptr + 1,
                   heap := Function.update s.heap (s.registered_threads (a : Int))
                     { s.heap (s.registered_threads (a : Int)) with
                         switch_counter := cfg.MAX_SWITCH_COUNTER } }
            = some (s.registered_threads (b : Int), s1) ∧ s1.thread_ptr = (b : Int) ∧
          s1.registered_threads = s.registered_threads ∧
          (∀ q, (s1.heap q).exec_state = (s.heap q).exec_state ∧
            (s1.heap q).allow_ctx_switch = (s.heap q).allow_ctx_switch) := by
      by_cases hlt : a < b
      · rw [if_pos hlt] at hnext
        obtain ⟨s1, h1, h2, h3, h4, _, _⟩ := scan_find cfg probe s.thread_ptr (b - a - 1)
          { s with thread_ptr := s.thread_ptr + 1,
                   heap := Function.update s.heap (s.registered_threads (a : Int))
                     { s.heap (s.registered_threads (a : Int)) with
                         switch_counter := cfg.MAX_SWITCH_COUNTER } }
          fuel b (s.registered_threads (b : Int))
          (by dsimp only; rw [hc]; omega) hb
          (by
            intro j hj
            dsimp only
            rw [hc]
            have e : (a : Int) + 1 + (j : Int) = ((a + 1 + j : Nat) : Int) := by
              push_cast; ring
            rw [e]
            exact hnext (a + 1 + j) (by omega) (by omega))
          rfl hpb
          (by dsimp only; rw [(e2 _).1]; exact hrun_b)
          (by omega)
        refine ⟨s1, h1, h2, h3, fun q => ?_⟩
        rw [h4]
        have e1 := update_counter_frame
          (Function.update s.heap (s.registered_threads (a : Int))
            { s.heap (s.registered_threads (a : Int)) with
                switch_counter := cfg.MAX_SWITCH_COUNTER })
          (s.registered_threads (b : Int)) _
          (set_switch_counter_exec_state cfg (b : Int) s.thread_ptr _)
          (set_switch_counter_allow cfg (b : Int) s.thread_ptr _) q
        exact ⟨e1.1.trans (e2 q).1, e1.2.trans (e2 q).2⟩
      · rw [if_neg hlt] at hnext
        obtain ⟨s1, h1, h2, h3, h4, _, _⟩ := scan_find_wrap cfg probe s.thread_ptr
          (cfg.NUM_MAX_THREADS - a - 1)
          { s with thread_ptr := s.thread_ptr + 1,
                   heap := Function.update s.heap (s.registered_threads (a : Int))
                     { s.heap (s.registered_threads (a : Int)) with
                         switch_counter := cfg.MAX_SWITCH_COUNTER } }
          fuel b (s.registered_threads (b : Int))
          (by dsimp only; rw [hc]; omega)
          (by
            intro j hj
            dsimp only
            rw [hc]
            have e : (a : Int) + 1 + (j : Int) = ((a + 1 + j : Nat) : Int) := by
              push_cast; ring
            rw [e]
            exact hnext (a + 1 + j) (Or.inl ⟨by omega, by omega⟩))
          hb
          (by intro j hj; exact hnext j (Or.inr hj))
          rfl hpb
          (by dsimp only; rw [(e2 _).1]; exact hrun_b)
          (by omega)
        refine ⟨s1, h1, h2, h3, fun q => ?_⟩
        rw [h4]
        have e1 := update_counter_frame
          (Function.update s.heap (s.registered_threads (a : Int))
            { s.heap (s.registered_threads (a : Int)) with
                switch_counter := cfg.MAX_SWITCH_COUNTER })
          (s.registered_threads (b : Int)) _
          (set_switch_counter_exec_state cfg (b : Int) s.thread_ptr _)
          (set_switch_counter_allow cfg (b : Int) s.thread_ptr _) q
        exact ⟨e1.1.trans (e2 q).1, e1.2.trans (e2 q).2⟩
    obtain ⟨s1, h1, h2, h3, h4⟩ := key
    exact ⟨b, s1, h1, h2, h3,
      all_runnable_of_frame cfg s s1 hall h3 (fun q => (h4 q).1) (fun q => (h4 q).2),
      hb, hpb, Or.inr ⟨hb, hpb, hnext⟩⟩

theorem between_slots_irrefl (a b : Nat) : ¬ between_slots a b a := by
  unfold between_slots; omega

/-- Rotating away from `a` lands on `b` or strictly between `a` and `b`: the next
populated slot cannot lie beyond the populated slot `b`. -/
theorem next_populated_first (cfg : Config) (s : Sched) (a b c : Nat)
    (hb : b < cfg.NUM_MAX_THREADS) (hpb : s.registered_threads (b : Int) ≠ 0)
    (hab : b ≠ a) (hca : c ≠ a) (h : NextPopulated cfg s a c) :
    c = b ∨ between_slots a b c := by
  obtain ⟨hc, _, hnull⟩ := h
  unfold between_slots
  by_cases hlt : a < c
  · rw [if_pos hlt] at hnull
    have hnb : ¬ (a < b ∧ b < c) := fun h => hpb (hnull b h.1 h.2)
    omega
  · rw [if_neg hlt] at hnull
    have hnb : ¬ ((a < b ∧ b < cfg.NUM_MAX_THREADS) ∨ b < c) := fun h => hpb (hnull b h)
    omega

/-- From strictly between `a` and `b`, the next populated slot is `b` or still strictly
between `a` and `b`. -/
theorem next_populated_stays (cfg : Config) (s : Sched) (a b c c1 : Nat)
    (hb : b < cfg.NUM_MAX_THREADS) (hpb : s.registered_threads (b : Int) ≠ 0)
    (hbet : between_slots a b c) (h : NextPopulated cfg s c c1) :
    c1 = b ∨ between_slots a b c1 := by
  obtain ⟨hc1, _, hnull⟩ := h
  unfold between_slots at hbet ⊢
  by_cases hlt : c < c1
  · rw [if_pos hlt] at hnull
    have hnb : ¬ (c < b ∧ b < c1) := fun h => hpb (hnull b h.1 h.2)
    omega
  · rw [if_neg hlt] at hnull
    have hnb : ¬ ((c < b ∧ b < cfg.NUM_MAX_THREADS) ∨ b < c1) := fun h => hpb (hnull b h)
    omega

/-- With every registered thread runnable, the successive calls all return, each with the
cursor on a populated slot and the context of that slot as its result. -/
theorem all_runnable_run (cfg : Config) (probe : ProbeOracle) (fuel : Nat) (s : Sched)
    (a : Nat) (hall : AllRunnable cfg s) (ha : a < cfg.NUM_MAX_THREADS)
    (hpa : s.registered_threads (a : Int) ≠ 0) (hc : s.thread_ptr = (a : Int))
    (hf : cfg.NUM_MAX_THREADS + 1 ≤ fuel) :
    ∀ k, ∃ (c : Nat) (sk : Sched),
      sched_run cfg probe fuel k s (s.registered_threads (a : Int))
        = some (s.registered_threads (c : Int), sk) ∧
      sk.thread_ptr = (c : Int) ∧ sk.registered_threads = s.registered_threads ∧
      AllRunnable cfg sk ∧ c < cfg.NUM_MAX_THREADS ∧ s.registered_threads (c : Int) ≠ 0 := by
  intro k
  induction k with
  | zero => exact ⟨a, s, rfl, hc, rfl, hall, ha, hpa⟩
  | succ k ih =>
    obtain ⟨c, sk, h1, h2, h3, h4, h5, h6⟩ := ih
    obtain ⟨b, s1, g1, g2, g3, g4, g5, g6, _⟩ := all_runnable_step cfg probe fuel sk c h4 h5
      (by rw [h3]; exact h6) h2 hf
    rw [h3] at g1 g3 g6
    exact ⟨b, s1, by rw [sched_run_succ cfg probe fuel k s _ _ sk h1, g1], g2, g3, g4, g5, g6⟩

/-- From one call to the next the cursor stays or moves to the next populated slot. -/
theorem all_runnable_pace (cfg : Config) (probe : ProbeOracle) (fuel : Nat) (s : Sched)
    (a : Nat) (hall : AllRunnable cfg s) (ha : a < cfg.NUM_MAX_THREADS)
    (hpa : s.registered_threads (a : Int) ≠ 0) (hc : s.thread_ptr = (a : Int))
    (hf : cfg.NUM_MAX_THREADS + 1 ≤ fuel) (k : Nat) :
    ∃ c c1 : Nat,
      sched_cursor cfg probe fuel s (s.registered_threads (a : Int)) k = some (c : Int) ∧
      sched_cursor cfg probe fuel s (s.registered_threads (a : Int)) (k + 1)
        = some (c1 : Int) ∧
      (sched_run cfg probe fuel (k + 1) s (s.registered_threads (a : Int))).map Prod.fst
        = some (s.registered_threads (c1 : Int)) ∧
      c1 < cfg.NUM_MAX_THREADS ∧ s.registered_threads (c1 : Int) ≠ 0 ∧
      (c1 = c ∨ NextPopulated cfg s c c1) := by
  obtain ⟨c, sk, h1, h2, h3, h4, h5, h6⟩ := all_runnable_run cfg probe fuel s a hall ha hpa hc hf k
  obtain ⟨b, s1, g1, g2, g3, _, g5, g6, g7⟩ := all_runnable_step cfg probe fuel sk c h4 h5
    (by rw [h3]; exact h6) h2 hf
  rw [h3] at g1 g6
  have hrun : sched_run cfg probe fuel (k + 1) s (s.registered_threads (a : Int))
      = some (s.registered_threads (b : Int), s1) := by
    rw [sched_run_succ cfg probe fuel k s _ _ sk h1, g1]
  refine ⟨c, b, ?_, ?_, ?_, g5, g6, ?_⟩
  · unfold sched_cursor; rw [h1]; simp [h2]
  · unfold sched_cursor; rw [hrun]; simp [g2]
  · rw [hrun]; rfl
  · rcases g7 with h | h
    · exact Or.inl h
    · exact Or.inr (next_populated_congr cfg s sk c b h3 h)

/-- C18: a fixed registry whose threads are all unparked and allow the switch, the cursor
on the slot of the context passed first, each call passing what the call before
returned.  (1) Every call returns the context of the slot the cursor ends on, and the
cursor stays where it was or moves to the next populated slot in cyclic increasing
order.  (2) Hence, once the cursor has left a slot, it is not back on that slot before it
has been on every other populated slot. -/
theorem rotation_is_cyclic (cfg : Config) (probe : ProbeOracle) (fuel : Nat) (s : Sched)
    (a : Nat) (hall : AllRunnable cfg s) (ha : a < cfg.NUM_MAX_THREADS)
    (hpa : s.registered_threads (a : Int) ≠ 0) (hc : s.thread_ptr = (a : Int))
    (hf : cfg.NUM_MAX_THREADS + 1 ≤ fuel) :
    (∀ k, ∃ c c1 : Nat,
      sched_cursor cfg probe fuel s (s.registered_threads (a : Int)) k = some (c : Int) ∧
      sched_cursor cfg probe fuel s (s.registered_threads (a : Int)) (k + 1)
        = some (c1 : Int) ∧
      (sched_run cfg probe fuel (k + 1) s (s.registered_threads (a : Int))).map Prod.fst
        = some (s.registered_threads (c1 : Int)) ∧
      c1 < cfg.NUM_MAX_THREADS ∧ s.registered_threads (c1 : Int) ≠ 0 ∧
      (c1 = c ∨ NextPopulated cfg s c c1)) ∧
    (∀ (i j a1 b : Nat), i < j →
      sched_cursor cfg probe fuel s (s.registered_threads (a : Int)) i = some (a1 : Int) →
      sched_cursor cfg probe fuel s (s.registered_threads (a : Int)) (i + 1)
        ≠ some (a1 : Int) →
      sched_cursor cfg probe fuel s (s.registered_threads (a : Int)) j = some (a1 : Int) →
      b < cfg.NUM_MAX_THREADS → s.registered_threads (b : Int) ≠ 0 → b ≠ a1 →
      ∃ k, i < k ∧ k < j ∧
        sched_cursor cfg probe fuel s (s.registered_threads (a : Int)) k = some (b : Int)) := by
  have pace := all_runnable_pace cfg probe fuel s a hall ha hpa hc hf
  refine ⟨pace, ?_⟩
  intro i j a1 b hij hi hi1 hj hb hpb hba
  by_contra hno
  have hnot : ∀ k, i < k → k < j →
      sched_cursor cfg probe fuel s (s.registered_threads (a : Int)) k ≠ some (b : Int) :=
    fun k h1 h2 h3 => hno ⟨k, h1, h2, h3⟩
  have hi1j : i + 1 < j := by
    rcases Nat.lt_or_ge (i + 1) j with h | h
    · exact h
    · have : i + 1 = j := by omega
      rw [this] at hi1
      exact absurd hj hi1
  have walk : ∀ m, i + 1 + m ≤ j → ∃ c : Nat,
      sched_cursor cfg probe fuel s (s.registered_threads (a : Int)) (i + 1 + m)
        = some (c : Int) ∧ between_slots a1 b c := by
    intro m
    induction m with
    | zero =>
      intro _
      obtain ⟨c, c1, p1, p2, _, _, _, p6⟩ := pace i
      rw [hi] at p1
      have hca : c = a1 := by
        have := Option.some.inj p1
        omega
      subst hca
      have hc1 : c1 ≠ c := by
        intro h; rw [h] at p2; exact hi1 p2
      rcases p6 with h | h
      · exact absurd h hc1
      · rcases next_populated_first cfg s c b c1 hb hpb hba hc1 h with g | g
        · rw [g] at p2
          exact absurd p2 (hnot (i + 1) (by omega) hi1j)
        · exact ⟨c1, p2, g⟩
    | succ m ih =>
      intro hm
      obtain ⟨c, q1, q2⟩ := ih (by omega)
      obtain ⟨c0, c1, p1, p2, _, _, _, p6⟩ := pace (i + 1 + m)
      rw [q1] at p1
      have hcc : c0 = c := by
        have := Option.some.inj p1
        omega
      subst hcc
      have hstep : c1 = b ∨ between_slots a1 b c1 := by
        rcases p6 with h | h
        · rw [h]; exact Or.inr q2
        · exact next_populated_stays cfg s a1 b c0 c1 hb hpb q2 h
      rcases hstep with g | g
      · rw [g] at p2
        rcases Nat.lt_or_ge (i + 1 + m + 1) j with h | h
        · exact absurd p2 (hnot (i + 1 + m + 1) (by omega) h)
        · have e : i + 1 + m + 1 = j := by omega
          rw [e, hj] at p2
          have := Option.some.inj p2
          omega
      · exact ⟨c1, p2, g⟩
  obtain ⟨c, w1, w2⟩ := walk (j - (i + 1)) (by omega)
  have e : i + 1 + (j - (i + 1)) = j := by omega
  rw [e, hj] at w1
  have hca : a1 = c := by
    have := Option.some.inj w1
    omega
  rw [← hca] at w2
  exact between_slots_irrefl a1 b w2

theorem three_threads_all_runnable (sc : Int) : AllRunnable cfg4 (three_threads sc) := by
  intro i hi hne
  have hi4 : i < 4 := hi
  interval_cases i
  · exact ⟨by simp [three_threads, ctx_of], by simp [three_threads, ctx_of]⟩
  · exact ⟨by simp [three_threads, ctx_of], by simp [three_threads, ctx_of]⟩
  · exact absurd rfl hne
  · exact ⟨by simp [three_threads, ctx_of], by simp [three_threads, ctx_of]⟩

/-- The instance of C18 at three running threads in slots 0, 1 and 3 with the cursor on
slot 1: the cursor goes 1, 1, 3, 3, 3, 3, 0, and between leaving slot 1 and coming back to
it, it has been on slot 3 (and on slot 0). -/
theorem rotation_is_cyclic_witness :
    (List.range 12).map (sched_cursor cfg4 never_ready 5 (three_threads 0) 1)
      = [some 1, some 1, some 3, some 3, some 3, some 3, some 0, some 0, some 0, some 0,
         some 1, some 1] ∧
    ∃ k, 1 < k ∧ k < 10 ∧ sched_cursor cfg4 never_ready 5 (three_threads 0) 1 k = some 3 :=
  ⟨by decide,
    (rotation_is_cyclic cfg4 never_ready 5 (three_threads 0) 1 (three_threads_all_runnable 0)
      (by decide) (by decide) rfl (by decide)).2 1 10 1 3 (by decide) (by decide) (by decide)
      (by decide) (by decide) (by decide) (by decide)⟩

/-! ## `compensate_branch_count`: the catch-up loop -/

theorem singlesteps_append (a b : List Op) : singlesteps (a ++ b) = singlesteps a + singlesteps b := by
  unfold singlesteps
  exact List.countP_append _ a b

theorem singlestep_ret (env : ReplayEnv) (w w1 : Replay) (sig expected_val : Int)
    (h : singlestep env w sig expected_val = Res.ret w1) :
    w1.ops = w.ops ++ [Op.sys_ptrace_singlestep w.ctx.child_tid sig, Op.sys_waitpid w.ctx.child_tid] ∧
    w1.ctx.trace = w.ctx.trace ∧ w1.ctx.child_tid = w.ctx.child_tid ∧
    env.wait_status (w.ops.length + 1) = expected_val := by
  unfold singlestep at h
  dsimp only at h
  split at h
  · cases h
  · rename_i hs
    injection h with h
    subst h
    refine ⟨by simp, rfl, rfl, ?_⟩
    simpa using hs

theorem catch_up_iter_ret (env : ReplayEnv) (st st1 : Pos)
    (h : catch_up_iter env st = Res.ret st1) :
    st1.w.ops = st.w.ops ++ [Op.sys_ptrace_singlestep st.w.ctx.child_tid 0,
      Op.sys_waitpid st.w.ctx.child_tid, Op.read_rbc_up] ∧
    st1.rbc_now = env.rbc_up (st.w.ops.length + 2) ∧ st1.found_spot = st.found_spot := by
  unfold catch_up_iter at h
  split at h
  · rename_i w1 hs
    injection h with h
    subst h
    obtain ⟨h1, _, _, _⟩ := singlestep_ret env st.w w1 0 0x57f hs
    refine ⟨by simp [h1], ?_, rfl⟩
    show env.rbc_up w1.ops.length = _
    rw [h1]; simp
  · cases h
  · cases h

/-- How many single-steps the catch-up loop makes. -/
theorem catch_up_count (env : ReplayEnv) (rbc_rec : Nat) :
    ∀ (fuel : Nat) (st st0 : Pos), 1 ≤ st.w.ops.length →
      st.rbc_now = env.rbc_up (st.w.ops.length - 1) →
      catch_up env rbc_rec fuel st = Res.ret st0 →
      ∃ k : Nat, singlesteps st0.w.ops = singlesteps st.w.ops + k ∧
        (∀ j : Nat, j < k → env.rbc_up (st.w.ops.length - 1 + 3 * j) < rbc_rec) ∧
        rbc_rec ≤ env.rbc_up (st.w.ops.length - 1 + 3 * k) ∧
        st0.rbc_now = env.rbc_up (st.w.ops.length - 1 + 3 * k) ∧
        st0.found_spot = st.found_spot := by
  intro fuel
  induction fuel with
  | zero => intro st st0 _ _ h; cases h
  | succ f ih =>
    intro st st0 hl hnow h
    rw [catch_up] at h
    split at h
    · rename_i hlt
      cases hit : catch_up_iter env st with
      | ret st1 =>
        rw [hit] at h
        dsimp only at h
        obtain ⟨ho, hr, hf⟩ := catch_up_iter_ret env st st1 hit
        have hl1 : st1.w.ops.length = st.w.ops.length + 3 := by rw [ho]; simp
        obtain ⟨k, h1, h2, h3, h4, h5⟩ := ih st1 st0 (by omega)
          (by rw [hr, hl1]; congr 1) h
        refine ⟨k + 1, ?_, ?_, ?_, ?_, ?_⟩
        · rw [h1, ho, singlesteps_append]
          simp [singlesteps]
          omega
        · intro j hj
          cases j with
          | zero => simpa [← hnow] using hlt
          | succ j =>
            have := h2 j (by omega)
            rw [hl1] at this
            have e : st.w.ops.length + 3 - 1 + 3 * j = st.w.ops.length - 1 + 3 * (j + 1) := by
              omega
            rwa [e] at this
        · rw [hl1] at h3
          have e : st.w.ops.length + 3 - 1 + 3 * k = st.w.ops.length - 1 + 3 * (k + 1) := by
            omega
          rwa [e] at h3
        · rw [hl1] at h4
          have e : st.w.ops.length + 3 - 1 + 3 * k = st.w.ops.length - 1 + 3 * (k + 1) := by
            omega
          rwa [e] at h4
        · rw [h5, hf]
      | abort why a => rw [hit] at h; cases h
      | timeout => rw [hit] at h; cases h
    · rename_i hge
      injection h with h
      subst h
      refine ⟨0, by simp, by intro j hj; omega, ?_, by simpa using hnow, rfl⟩
      simp only [Nat.mul_zero, Nat.add_zero]
      rw [← hnow]; omega

/-- C14 (amended): when `compensate_branch_count` runs with `trace.rbc_up == 1` and passes
the overshoot check, the catch-up loop single-steps until the counter reads at least 1.
If the loop is left after `k` single-steps, the counter read 0 at line 55 and after each
of the first `k - 1` single-steps, and at least 1 after the `k`-th (at line 55 when
`k = 0`); so the loop makes exactly one single-step if and only if the counter reads 0 at
line 55 and at least 1 after the first single-step.  In that case, when the status of the
single-step is `0x57f`, the loop does return, having made one single-step. -/
theorem catch_up_steps_until_count_reached (env : ReplayEnv) (w : Replay)
    (hrec : w.ctx.trace.rbc_up = 1) :
    (∀ (fuel : Nat) (st0 : Pos),
      catch_up env w.ctx.trace.rbc_up fuel (position_entry env w) = Res.ret st0 →
      ∃ k : Nat, singlesteps st0.w.ops = singlesteps w.ops + k ∧
        (∀ j : Nat, j < k → env.rbc_up (w.ops.length + 1 + 3 * j) = 0) ∧
        1 ≤ env.rbc_up (w.ops.length + 1 + 3 * k) ∧
        (k = 1 ↔ env.rbc_up (w.ops.length + 1) = 0 ∧ 1 ≤ env.rbc_up (w.ops.length + 4))) ∧
    (env.rbc_up (w.ops.length + 1) = 0 → env.wait_status (w.ops.length + 3) = 0x57f →
      1 ≤ env.rbc_up (w.ops.length + 4) →
      ∀ fuel : Nat, 2 ≤ fuel →
        ∃ st0 : Pos, catch_up env w.ctx.trace.rbc_up fuel (position_entry env w) = Res.ret st0 ∧
          singlesteps st0.w.ops = singlesteps w.ops + 1) := by
  have hlen : (position_entry env w).w.ops.length = w.ops.length + 2 := by
    simp [position_entry]
  have hcount : ∀ (fuel : Nat) (st0 : Pos),
      catch_up env w.ctx.trace.rbc_up fuel (position_entry env w) = Res.ret st0 →
      ∃ k : Nat, singlesteps st0.w.ops = singlesteps w.ops + k ∧
        (∀ j : Nat, j < k → env.rbc_up (w.ops.length + 1 + 3 * j) = 0) ∧
        1 ≤ env.rbc_up (w.ops.length + 1 + 3 * k) ∧
        (k = 1 ↔ env.rbc_up (w.ops.length + 1) = 0 ∧ 1 ≤ env.rbc_up (w.ops.length + 4)) := by
    intro fuel st0 h
    obtain ⟨k, h1, h2, h3, _, _⟩ := catch_up_count env w.ctx.trace.rbc_up fuel
      (position_entry env w) st0 (by omega) (by rw [hlen]; simp [position_entry]) h
    rw [hlen, hrec] at h2 h3
    have e : w.ops.length + 2 - 1 = w.ops.length + 1 := by omega
    rw [e] at h2 h3
    have hs : singlesteps (position_entry env w).w.ops = singlesteps w.ops := by
      simp [position_entry, singlesteps]
    rw [hs] at h1
    have h2z : ∀ j : Nat, j < k → env.rbc_up (w.ops.length + 1 + 3 * j) = 0 := by
      intro j hj
      have := h2 j hj
      omega
    refine ⟨k, h1, h2z, h3, ?_⟩
    constructor
    · intro hk
      subst hk
      exact ⟨by simpa using h2z 0 (by omega), by simpa using h3⟩
    · intro ⟨ha, hb⟩
      rcases Nat.lt_trichotomy k 1 with hk | hk | hk
      · have : k = 0 := by omega
        subst this
        simp at h3
        omega
      · exact hk
      · have := h2z 1 hk
        simp at this
        have e4 : w.ops.length + 1 + 3 = w.ops.length + 4 := by omega
        rw [e4] at this
        omega
  refine ⟨hcount, ?_⟩
  intro ha hs hb fuel hf
  obtain ⟨f, rfl⟩ : ∃ f, fuel = f + 2 := ⟨fuel - 2, by omega⟩
  have hrun : ∃ st0 : Pos,
      catch_up env w.ctx.trace.rbc_up (f + 2) (position_entry env w) = Res.ret st0 := by
    rw [catch_up, if_pos (by rw [hrec]; simp [position_entry, ha])]
    have hit : ∃ st1, catch_up_iter env (position_entry env w) = Res.ret st1 ∧
        st1.rbc_now = env.rbc_up (w.ops.length + 4) := by
      unfold catch_up_iter singlestep
      simp [position_entry, hs]
    obtain ⟨st1, hit, hnow⟩ := hit
    rw [hit]
    dsimp only
    rw [catch_up, if_neg (by rw [hrec, hnow]; omega)]
    exact ⟨st1, rfl⟩
  obtain ⟨st0, hst0⟩ := hrun
  refine ⟨st0, hst0, ?_⟩
  obtain ⟨k, h1, _, _, h4⟩ := hcount (f + 2) st0 hst0
  rw [h1, h4.2 ⟨ha, hb⟩]

/-- The instance of the amended C14 at a counter that goes up by one with every
single-step and a recorded count of 1: the counter reads 0 at line 55 and 1 after the
first single-step, and the catch-up loop returns after one single-step. -/
theorem catch_up_steps_until_count_reached_witness :
    (replay_at 1).ctx.trace.rbc_up = 1 ∧
    (env_of (fun t => t / 3) 0).rbc_up ((replay_at 1).ops.length + 1) = 0 ∧
    (env_of (fun t => t / 3) 0).wait_status ((replay_at 1).ops.length + 3) = 0x57f ∧
    1 ≤ (env_of (fun t => t / 3) 0).rbc_up ((replay_at 1).ops.length + 4) ∧
    ∃ st0 : Pos,
      catch_up (env_of (fun t => t / 3) 0) (replay_at 1).ctx.trace.rbc_up 2
        (position_entry (env_of (fun t => t / 3) 0) (replay_at 1)) = Res.ret st0 ∧
      singlesteps st0.w.ops = singlesteps (replay_at 1).ops + 1 :=
  ⟨rfl, by decide, by decide, by decide,
    (catch_up_steps_until_count_reached (env_of (fun t => t / 3) 0) (replay_at 1) rfl).2
      (by decide) (by decide) (by decide) 2 (le_refl 2)⟩

/-- C14 (counterexample): the recorded count is 1, the event a `SIGIO`, the registers
match, and no run hits the overshoot abort.  With a counter that still reads 0 after the
first single-step and 1 after the second, the catch-up loop makes two single-steps before
the register-match loop is entered (and the call returns with two single-steps made in
all).  With a counter that reads 1 from the start, it makes none. -/
theorem catch_up_one_step_counterexample :
    (catch_up (env_of rbc_late 0) (replay_at 1).ctx.trace.rbc_up 3
        (position_entry (env_of rbc_late 0) (replay_at 1))).value.map
      (fun st => (st.rbc_now, singlesteps st.w.ops)) = some (1, 2) ∧
    (compensate_branch_count (env_of rbc_late 0) 3 (replay_at 1) 29).value.map
      (fun w => singlesteps w.ops) = some 2 ∧
    (catch_up (env_of (fun _ => 1) 0) (replay_at 1).ctx.trace.rbc_up 3
        (position_entry (env_of (fun _ => 1) 0) (replay_at 1))).value.map
      (fun st => (st.rbc_now, singlesteps st.w.ops)) = some (1, 0) ∧
    (compensate_branch_count (env_of (fun _ => 1) 0) 3 (replay_at 1) 29).value.map
      (fun w => singlesteps w.ops) = some 0 := by
  refine ⟨by decide, by decide, by decide, by decide⟩

/-! ## `compensate_branch_count`: the register-match loop -/

theorem segv_resume_trace (env : ReplayEnv) (sig : Int) (w : Replay) :
    (segv_resume env sig w).ctx.trace = w.ctx.trace ∧
    (segv_resume env sig w).ctx.child_tid = w.ctx.child_tid := by
  unfold segv_resume
  split <;> exact ⟨rfl, rfl⟩

/-- One pass of the register-match loop: it breaks exactly when the registers read at
its first operation compare to 0 or 0x80. -/
theorem match_iter_ret (env : ReplayEnv) (sig : Int) (st : Pos) (it : Iter)
    (h : match_iter env sig st = Res.ret it) :
    (it.is_next = true ∧ ¬ st.regs_match env ∧ it.pos.found_spot = st.found_spot) ∨
    (it.is_next = false ∧ st.regs_match env ∧ it.pos.found_spot = st.found_spot + 1 ∧
      it.pos.rbc_now = st.rbc_now) := by
  unfold match_iter at h
  dsimp only at h
  have ht := (segv_resume_trace env sig
    { ctx := st.w.ctx, ops := st.w.ops ++ [Op.read_child_registers st.w.ctx.child_tid] }).1
  generalize segv_resume env sig _ = w2 at h ht
  have hm : st.regs_match env ↔
      (env.compare_register_files (env.child_regs st.w.ops.length)
          w2.ctx.trace.recorded_regs 0 0 = 0 ∨
        env.compare_register_files (env.child_regs st.w.ops.length)
          w2.ctx.trace.recorded_regs 0 0 = 0x80) := by
    rw [ht]; rfl
  split at h
  · rename_i hc
    right
    split at h
    · split at h
      · injection h with h; subst h; exact ⟨rfl, hm.2 hc, rfl, rfl⟩
      · cases h
      · cases h
    · injection h with h; subst h; exact ⟨rfl, hm.2 hc, rfl, rfl⟩
  · rename_i hc
    left
    split at h
    · injection h with h; subst h; exact ⟨rfl, fun hr => hc (hm.1 hr), rfl⟩
    · cases h
    · cases h

/-- A pass through the register-match loop with `sig == SIGSEGV`, as the code stands: its
operations start with the register read, the resume and the wait, in this order; the pass
ends at the `break` exactly when the registers read at its first operation, before the
resume, compare to 0 or 0x80; and a child that differs only in the registers it has at
other operations (so after the resume) gives the same pass. -/
theorem segv_pass_order (env : ReplayEnv) (st : Pos) (it : Iter)
    (h : match_iter env SIGSEGV st = Res.ret it) :
    (∃ rest : List Op, it.pos.w.ops =
      st.w.ops ++ [Op.read_child_registers st.w.ctx.child_tid,
        Op.sys_ptrace_syscall st.w.ctx.child_tid, Op.sys_waitpid st.w.ctx.child_tid] ++ rest) ∧
    (it.is_next = false ↔
      env.compare_register_files (env.child_regs st.w.ops.length)
          st.w.ctx.trace.recorded_regs 0 0 = 0 ∨
        env.compare_register_files (env.child_regs st.w.ops.length)
          st.w.ctx.trace.recorded_regs 0 0 = 0x80) ∧
    (∀ env1 : ReplayEnv, env1.rbc_up = env.rbc_up → env1.wait_status = env.wait_status →
      env1.compare_register_files = env.compare_register_files →
      env1.child_regs st.w.ops.length = env.child_regs st.w.ops.length →
      match_iter env1 SIGSEGV st = Res.ret it) := by
  refine ⟨?_, ?_, ?_⟩
  · unfold match_iter at h
    simp only [segv_resume, if_true] at h
    split at h
    · split at h
      · rename_i w3 hs
        injection h with h; subst h
        obtain ⟨h1, _⟩ := singlestep_ret env _ w3 0 0xb7f hs
        exact ⟨[Op.sys_ptrace_singlestep st.w.ctx.child_tid 0, Op.sys_waitpid st.w.ctx.child_tid],
          by simp only [Iter.pos]; rw [h1]; simp⟩
      · cases h
      · cases h
    · split at h
      · rename_i w3 hs
        injection h with h; subst h
        obtain ⟨h1, _⟩ := singlestep_ret env _ w3 0 0x57f hs
        exact ⟨[Op.sys_ptrace_singlestep st.w.ctx.child_tid 0, Op.sys_waitpid st.w.ctx.child_tid,
          Op.read_rbc_up], by simp only [Iter.pos]; rw [h1]; simp⟩
      · cases h
      · cases h
  · rcases match_iter_ret env SIGSEGV st it h with ⟨h1, h2, _⟩ | ⟨h1, h2, _⟩
    · constructor
      · intro hf; rw [h1] at hf; cases hf
      · intro hm; exact absurd hm h2
    · exact ⟨fun _ => h2, fun _ => h1⟩
  · intro env1 h1 h2 h3 h4
    rw [← h]
    unfold match_iter segv_resume singlestep
    simp only [h1, h2, h3, h4]

theorem catch_up_exit (env : ReplayEnv) (rbc_rec : Nat) :
    ∀ (fuel : Nat) (st st1 : Pos), catch_up env rbc_rec fuel st = Res.ret st1 →
      rbc_rec ≤ st1.rbc_now ∧ st1.found_spot = st.found_spot ∧
      (st.read_before env → st1.read_before env) := by
  intro fuel
  induction fuel with
  | zero => intro st st1 h; cases h
  | succ f ih =>
    intro st st1 h
    rw [catch_up] at h
    split at h
    · cases hit : catch_up_iter env st with
      | ret st2 =>
        rw [hit] at h
        dsimp only at h
        obtain ⟨ho, hr, hf⟩ := catch_up_iter_ret env st st2 hit
        obtain ⟨h1, h2, h3⟩ := ih st2 st1 h
        refine ⟨h1, by rw [h2, hf], fun _ => h3 ⟨st.w.ops.length + 2, ?_, hr⟩⟩
        rw [ho]; simp
      | abort why a => rw [hit] at h; cases h
      | timeout => rw [hit] at h; cases h
    · rename_i hge
      injection h with h
      subst h
      exact ⟨by omega, rfl, id⟩

theorem pass_start_off_target (env : ReplayEnv) (sig : Int) (rbc_rec : Nat) (st : Pos)
    (h : st.rbc_now ≠ rbc_rec) : ¬ match_occurs env sig rbc_rec st := by
  rintro ⟨k, stk, hk, _⟩
  cases k with
  | zero => simp [pass_start, h] at hk
  | succ k => simp [pass_start, h] at hk

theorem match_occurs_next (env : ReplayEnv) (sig : Int) (rbc_rec : Nat) (st st1 : Pos)
    (heq : st.rbc_now = rbc_rec) (hit : match_iter env sig st = Res.ret (Iter.next st1))
    (hno : ¬ st.regs_match env) :
    match_occurs env sig rbc_rec st ↔ match_occurs env sig rbc_rec st1 := by
  constructor
  · rintro ⟨k, stk, hk, hm⟩
    cases k with
    | zero =>
      simp only [pass_start, heq, if_true, Option.some.injEq] at hk
      subst hk
      exact absurd hm hno
    | succ k =>
      simp only [pass_start, heq, if_true, hit] at hk
      exact ⟨k, stk, hk, hm⟩
  · rintro ⟨k, stk, hk, hm⟩
    refine ⟨k + 1, stk, ?_, hm⟩
    simp only [pass_start, heq, if_true, hit]
    exact hk

/-- What the register-match loop leaves: either no pass matched, `found_spot` is as
before and `rbc_now` is off the target, or a pass matched, `found_spot` is one more and
`rbc_now` is the target. -/
theorem match_loop_exit (env : ReplayEnv) (sig : Int) (rbc_rec : Nat) :
    ∀ (fuel : Nat) (st st1 : Pos), match_loop env sig rbc_rec fuel st = Res.ret st1 →
      (st1.found_spot = st.found_spot ∧ st1.rbc_now ≠ rbc_rec ∧
        ¬ match_occurs env sig rbc_rec st) ∨
      (st1.found_spot = st.found_spot + 1 ∧ st1.rbc_now = rbc_rec ∧
        match_occurs env sig rbc_rec st) := by
  intro fuel
  induction fuel with
  | zero => intro st st1 h; cases h
  | succ f ih =>
    intro st st1 h
    rw [match_loop] at h
    split at h
    · rename_i heq
      cases hit : match_iter env sig st with
      | ret it =>
        rw [hit] at h
        cases it with
        | next st2 =>
          dsimp only at h
          rcases match_iter_ret env sig st _ hit with ⟨_, hno, hf⟩ | ⟨hn, _⟩
          · simp only [Iter.pos] at hf
            have hiff := match_occurs_next env sig rbc_rec st st2 heq hit hno
            rcases ih st2 st1 h with ⟨h1, h2, h3⟩ | ⟨h1, h2, h3⟩
            · exact Or.inl ⟨by rw [h1, hf], h2, fun hm => h3 (hiff.1 hm)⟩
            · exact Or.inr ⟨by rw [h1, hf], h2, hiff.2 h3⟩
          · simp [Iter.is_next] at hn
        | brk st2 =>
          dsimp only at h
          injection h with h
          subst h
          rcases match_iter_ret env sig st _ hit with ⟨hn, _⟩ | ⟨_, hm, hf, hr⟩
          · simp [Iter.is_next] at hn
          · simp only [Iter.pos] at hf hr
            refine Or.inr ⟨hf, by rw [hr, heq], 0, st, ?_, hm⟩
            simp [pass_start, heq]
      | abort why a => rw [hit] at h; cases h
      | timeout => rw [hit] at h; cases h
    · rename_i hne
      injection h with h
      subst h
      exact Or.inl ⟨rfl, hne, pass_start_off_target env sig rbc_rec _ hne⟩

theorem match_iter_next_reading (env : ReplayEnv) (sig : Int) (st st1 : Pos)
    (h : match_iter env sig st = Res.ret (Iter.next st1)) :
    ∃ t : Nat, st.w.ops.length ≤ t ∧ t < st1.w.ops.length ∧ st1.rbc_now = env.rbc_up t := by
  unfold match_iter at h
  dsimp only at h
  have hw := segv_resume_ops env sig
    { ctx := st.w.ctx, ops := st.w.ops ++ [Op.read_child_registers st.w.ctx.child_tid] }
  generalize segv_resume env sig _ = w2 at h hw
  split at h
  · split at h
    · split at h
      · injection h with h; cases h
      · cases h
      · cases h
    · injection h with h; cases h
  · split at h
    · rename_i w3 hs
      injection h with h
      injection h with h
      subst h
      have hl := singlestep_ops env _ w3 0 0x57f hs
      simp only [List.length_append, List.length_singleton] at hw
      exact ⟨w3.ops.length, by omega, by simp, rfl⟩
    · cases h
    · cases h

/-- With a counter that never goes down, the register-match loop never leaves `rbc_now`
below the target. -/
theorem match_loop_monotone (env : ReplayEnv) (hmono : env.counter_monotone) (sig : Int)
    (rbc_rec : Nat) :
    ∀ (fuel : Nat) (st st1 : Pos), st.read_before env → rbc_rec ≤ st.rbc_now →
      match_loop env sig rbc_rec fuel st = Res.ret st1 → rbc_rec ≤ st1.rbc_now := by
  intro fuel
  induction fuel with
  | zero => intro st st1 _ _ h; cases h
  | succ f ih =>
    intro st st1 hb hle h
    rw [match_loop] at h
    split at h
    · rename_i heq
      cases hit : match_iter env sig st with
      | ret it =>
        rw [hit] at h
        cases it with
        | next st2 =>
          dsimp only at h
          obtain ⟨t, ht1, ht2, hr⟩ := match_iter_next_reading env sig st st2 hit
          obtain ⟨t0, ht0, hnow⟩ := hb
          refine ih st2 st1 ⟨t, ht2, hr⟩ ?_ h
          rw [hr, ← heq, hnow]
          exact hmono t0 t (by omega)
        | brk st2 =>
          dsimp only at h
          injection h with h
          subst h
          rcases match_iter_ret env sig st _ hit with ⟨hn, _⟩ | ⟨_, _, _, hr⟩
          · simp [Iter.is_next] at hn
          · simp only [Iter.pos] at hr
            rw [hr]; exact hle
      | abort why a => rw [hit] at h; cases h
      | timeout => rw [hit] at h; cases h
    · injection h with h
      subst h
      exact hle

/-- C11: take a run of `compensate_branch_count` that passes the overshoot check and in
which both loops run to their exit (so every status assertion of a single-step in them
held).  Then `found_spot` at the exit of the register-match loop is 0 or 1; the function
returns normally if and only if some pass of the loop, made while `rbc_now == rbc_rec`,
compared the registers with the result 0 or 0x80, and this is exactly when `found_spot`
is 1; `found_spot` is 0 exactly when the loop was left with `rbc_now` off `rbc_rec` and no
pass matched, and then the function aborts at the final assertion; with a counter that
never goes down, `rbc_now` is then greater than `rbc_rec`. -/
theorem found_spot_zero_or_one (env : ReplayEnv) (fuel : Nat) (w : Replay) (sig : Int)
    (st0 st1 : Pos)
    (hover : ¬ env.rbc_up w.ops.length > w.ctx.trace.rbc_up)
    (hcu : catch_up env w.ctx.trace.rbc_up fuel (position_entry env w) = Res.ret st0)
    (hml : match_loop env sig w.ctx.trace.rbc_up fuel st0 = Res.ret st1) :
    (st1.found_spot = 0 ∨ st1.found_spot = 1) ∧
    ((∃ w1 : Replay, compensate_branch_count env fuel w sig = Res.ret w1) ↔
      match_occurs env sig w.ctx.trace.rbc_up st0) ∧
    (st1.found_spot = 1 ↔ match_occurs env sig w.ctx.trace.rbc_up st0) ∧
    (st1.found_spot = 1 → compensate_branch_count env fuel w sig = Res.ret st1.w) ∧
    (st1.found_spot = 0 ↔
      st1.rbc_now ≠ w.ctx.trace.rbc_up ∧ ¬ match_occurs env sig w.ctx.trace.rbc_up st0) ∧
    (st1.found_spot = 0 → compensate_branch_count env fuel w sig =
      Res.abort (Fault.assert_found_spot sig st1.w.ctx.trace.global_time 0) st1.w) ∧
    (env.counter_monotone → st1.found_spot = 0 → w.ctx.trace.rbc_up < st1.rbc_now) := by
  have hcomp : compensate_branch_count env fuel w sig =
      if st1.found_spot ≠ 1 then
        Res.abort (Fault.assert_found_spot sig st1.w.ctx.trace.global_time st1.found_spot) st1.w
      else Res.ret st1.w := by
    unfold compensate_branch_count
    simp only [hover, if_false]
    have : ({ w := { ctx := w.ctx, ops := w.ops ++ [Op.read_rbc_up] ++ [Op.read_rbc_up] },
              rbc_now := env.rbc_up (w.ops ++ [Op.read_rbc_up]).length,
              found_spot := 0 } : Pos) = position_entry env w := rfl
    rw [this, hcu]
    dsimp only
    rw [hml]
  obtain ⟨hge, hf0, hrb⟩ := catch_up_exit env w.ctx.trace.rbc_up fuel _ st0 hcu
  have hf0 : st0.found_spot = 0 := by rw [hf0]; rfl
  have hentry : (position_entry env w).read_before env :=
    ⟨(w.ops ++ [Op.read_rbc_up]).length, by simp [position_entry], rfl⟩
  rcases match_loop_exit env sig w.ctx.trace.rbc_up fuel st0 st1 hml with
    ⟨h1, h2, h3⟩ | ⟨h1, h2, h3⟩
  · have hz : st1.found_spot = 0 := by rw [h1, hf0]
    have hc : compensate_branch_count env fuel w sig =
        Res.abort (Fault.assert_found_spot sig st1.w.ctx.trace.global_time 0) st1.w := by
      rw [hcomp, hz]; rfl
    refine ⟨Or.inl hz, ?_, ?_, ?_, ?_, fun _ => hc, ?_⟩
    · constructor
      · rintro ⟨w1, hw1⟩; rw [hc] at hw1; cases hw1
      · intro hm; exact absurd hm h3
    · constructor
      · intro h; omega
      · intro hm; exact absurd hm h3
    · intro h; omega
    · exact ⟨fun _ => ⟨h2, h3⟩, fun _ => hz⟩
    · intro hmono _
      have := match_loop_monotone env hmono sig w.ctx.trace.rbc_up fuel st0 st1
        (hrb hentry) hge hml
      omega
  · have ho : st1.found_spot = 1 := by rw [h1, hf0]
    have hc : compensate_branch_count env fuel w sig = Res.ret st1.w := by
      rw [hcomp, ho]; rfl
    refine ⟨Or.inr ho, ?_, ?_, fun _ => hc, ?_, ?_, ?_⟩
    · exact ⟨fun _ => h3, fun _ => ⟨_, hc⟩⟩
    · exact ⟨fun _ => h3, fun _ => ho⟩
    · constructor
      · intro h; omega
      · rintro ⟨hne, _⟩; exact absurd h2 hne
    · intro h; omega
    · intro _ h; omega

/-- The instance of C11 at a counter that goes up by one with every single-step, a
recorded count of 1 and registers that match: one single-step in the catch-up loop, a
match in the first pass, `found_spot == 1` and a normal return. -/
theorem found_spot_zero_or_one_witness :
    ¬ ((env_of (fun t => t / 3) 0).rbc_up (replay_at 1).ops.length
        > (replay_at 1).ctx.trace.rbc_up) ∧
    ∃ st0 st1 : Pos,
      catch_up (env_of (fun t => t / 3) 0) (replay_at 1).ctx.trace.rbc_up 3
        (position_entry (env_of (fun t => t / 3) 0) (replay_at 1)) = Res.ret st0 ∧
      match_loop (env_of (fun t => t / 3) 0) 29 (replay_at 1).ctx.trace.rbc_up 3 st0
        = Res.ret st1 ∧
      st1.found_spot = 1 ∧
      match_occurs (env_of (fun t => t / 3) 0) 29 (replay_at 1).ctx.trace.rbc_up st0 ∧
      compensate_branch_count (env_of (fun t => t / 3) 0) 3 (replay_at 1) 29 = Res.ret st1.w := by
  have hcu : catch_up (env_of (fun t => t / 3) 0) (replay_at 1).ctx.trace.rbc_up 3
      (position_entry (env_of (fun t => t / 3) 0) (replay_at 1)) =
      Res.ret
        { w := { ctx := { (replay_at 1).ctx with status := 0, child_sig := 0 },
                 ops := [Op.read_rbc_up, Op.read_rbc_up, Op.sys_ptrace_singlestep 1 0,
                   Op.sys_waitpid 1, Op.read_rbc_up] },
          rbc_now := 1, found_spot := 0 } := by
    rfl
  have hml : match_loop (env_of (fun t => t / 3) 0) 29 (replay_at 1).ctx.trace.rbc_up 3
      { w := { ctx := { (replay_at 1).ctx with status := 0, child_sig := 0 },
               ops := [Op.read_rbc_up, Op.read_rbc_up, Op.sys_ptrace_singlestep 1 0,
                 Op.sys_waitpid 1, Op.read_rbc_up] },
        rbc_now := 1, found_spot := 0 } =
      Res.ret
        { w := { ctx := { (replay_at 1).ctx with status := 0, child_sig := 0 },
                 ops := [Op.read_rbc_up, Op.read_rbc_up, Op.sys_ptrace_singlestep 1 0,
                   Op.sys_waitpid 1, Op.read_rbc_up, Op.read_child_registers 1] },
          rbc_now := 1, found_spot := 1 } := by
    rfl
  have hover : ¬ ((env_of (fun t => t / 3) 0).rbc_up (replay_at 1).ops.length
        > (replay_at 1).ctx.trace.rbc_up) := by decide
  have key := found_spot_zero_or_one (env_of (fun t => t / 3) 0) 3 (replay_at 1) 29 _ _
    hover hcu hml
  exact ⟨hover, _, _, hcu, hml, rfl, key.2.2.1.1 rfl, key.2.2.2.1 rfl⟩

/-! ## `rep_process_signal` -/

/-- C12: for a `SIG_SEGV_RDTSC` event replayed by a call that passes the entry assertion
(`child_sig == 0`), with the stop after `goto_next_event` a `SIGSEGV` stop and the
instruction at the child's `eip` starting with "rdtsc", of length `size`:
`rep_process_signal` issues `goto_next_event`, `get_inst`, one register read and one
register write, and the register file written is the one read except that `eax` and
`edx` are `trace.recorded_regs.eax` and `trace.recorded_regs.edx` and `eip` is the read
`eip` plus `size`; the other fourteen registers are as read.  When the final
`compare_register_files` returns, the call returns with `child_sig == 0`; when it ends
the program, the write has been made all the same. -/
theorem rdtsc_patches_eax_edx_eip (scfg : SignalConfig) (env : SignalEnv) (fuel : Nat)
    (w : Replay) (h0 : w.ctx.child_sig = 0)
    (hev : w.ctx.trace.stop_reason = scfg.SIG_SEGV_RDTSC)
    (hstop : WSTOPSIG (env.goto_next_event w.ops.length w.ctx).status = SIGSEGV)
    (hinst : (env.get_inst (w.ops.length + 1)).1.take 5 = ['r', 'd', 't', 's', 'c']) :
    ∃ regs regs1 : user_regs_struct,
      regs = env.child_regs (w.ops.length + 2) ∧
      regs1.eax = (env.goto_next_event w.ops.length w.ctx).trace.recorded_regs.eax ∧
      regs1.edx = (env.goto_next_event w.ops.length w.ctx).trace.recorded_regs.edx ∧
      regs1.eip = regs.eip + (env.get_inst (w.ops.length + 1)).2 ∧
      regs1.ebx = regs.ebx ∧ regs1.ecx = regs.ecx ∧ regs1.esi = regs.esi ∧
      regs1.edi = regs.edi ∧ regs1.ebp = regs.ebp ∧ regs1.xds = regs.xds ∧
      regs1.xes = regs.xes ∧ regs1.xfs = regs.xfs ∧ regs1.xgs = regs.xgs ∧
      regs1.orig_eax = regs.orig_eax ∧ regs1.xcs = regs.xcs ∧ regs1.eflags = regs.eflags ∧
      regs1.esp = regs.esp ∧ regs1.xss = regs.xss ∧
      (env.compare_stops regs1
          (env.goto_next_event w.ops.length w.ctx).trace.recorded_regs 1 1 = false →
        rep_process_signal scfg env fuel w =
          Res.ret
            { ctx := { env.goto_next_event w.ops.length w.ctx with child_sig := 0 },
              ops := w.ops ++ [Op.goto_next_event, Op.get_inst w.ctx.child_tid,
                Op.read_child_registers w.ctx.child_tid,
                Op.write_child_registers w.ctx.child_tid regs1] }) ∧
      (env.compare_stops regs1
          (env.goto_next_event w.ops.length w.ctx).trace.recorded_regs 1 1 = true →
        rep_process_signal scfg env fuel w =
          Res.abort Fault.compare_stopped
            { ctx := env.goto_next_event w.ops.length w.ctx,
              ops := w.ops ++ [Op.goto_next_event, Op.get_inst w.ctx.child_tid,
                Op.read_child_registers w.ctx.child_tid,
                Op.write_child_registers w.ctx.child_tid regs1] }) := by
  refine ⟨env.child_regs (w.ops.length + 2),
    { env.child_regs (w.ops.length + 2) with
        eax := (env.goto_next_event w.ops.length w.ctx).trace.recorded_regs.eax,
        edx := (env.goto_next_event w.ops.length w.ctx).trace.recorded_regs.edx,
        eip := (env.child_regs (w.ops.length + 2)).eip + (env.get_inst (w.ops.length + 1)).2 },
    rfl, rfl, rfl, rfl, rfl, rfl, rfl, rfl, rfl, rfl, rfl, rfl, rfl, rfl, rfl, rfl, rfl, rfl,
    ?_, ?_⟩
  · intro hc
    unfold rep_process_signal replay_rdtsc
    simp [h0, hev, hstop, hinst, hc]
  · intro hc
    unfold rep_process_signal replay_rdtsc
    simp [h0, hev, hstop, hinst, hc]

/-- The instance of C12 at a child that stops at a two-byte `rdtsc` at `0x8048000`, with
`0xDEADBEEF` and `0x12345678` recorded for `eax` and `edx`. -/
theorem rdtsc_patches_eax_edx_eip_witness :
    (event_at (-1005) 0 regs_after_rdtsc).ctx.child_sig = 0 ∧
    (event_at (-1005) 0 regs_after_rdtsc).ctx.trace.stop_reason
      = sample_signals.SIG_SEGV_RDTSC ∧
    WSTOPSIG (env_rdtsc.goto_next_event (event_at (-1005) 0 regs_after_rdtsc).ops.length
      (event_at (-1005) 0 regs_after_rdtsc).ctx).status = SIGSEGV ∧
    (env_rdtsc.get_inst ((event_at (-1005) 0 regs_after_rdtsc).ops.length + 1)).1.take 5
      = ['r', 'd', 't', 's', 'c'] ∧
    ∃ regs1 : user_regs_struct,
      regs1.eax = 0xDEADBEEF ∧ regs1.edx = 0x12345678 ∧ regs1.eip = 0x8048002 ∧
      regs1.ebx = 6 ∧ regs1.esp = 0xbffff000 ∧
      rep_process_signal sample_signals env_rdtsc 0 (event_at (-1005) 0 regs_after_rdtsc) =
        Res.ret
          { ctx := { (event_at (-1005) 0 regs_after_rdtsc).ctx with
                       status := 0xb7f, child_sig := 0 },
            ops := [Op.goto_next_event, Op.get_inst 1, Op.read_child_registers 1,
              Op.write_child_registers 1 regs1] } := by
  obtain ⟨regs, regs1, hr, h1, h2, h3, h4, _, _, _, _, _, _, _, _, _, _, _, h16, _, hret, _⟩ :=
    rdtsc_patches_eax_edx_eip sample_signals env_rdtsc 0
      (event_at (-1005) 0 regs_after_rdtsc) rfl rfl (by decide) (by decide)
  subst hr
  exact ⟨rfl, rfl, by decide, by decide, regs1, h1, h2, h3.trans (by decide), h4, h16,
    hret rfl⟩

/-- C13: for a context with `child_sig == 0` whose trace record encodes `SIGIO` or
`SIGCHLD` with `rbc_up == 0`, `rep_process_signal` returns with `replay_sig` set to that
signal number, every other field of the context as it was, and no operation issued: no
counter operation, no ptrace resume, no single-step. -/
theorem synchronous_signal_is_deferred (scfg : SignalConfig) (env : SignalEnv) (fuel : Nat)
    (w : Replay) (hlab : scfg.labels_distinct) (h0 : w.ctx.child_sig = 0)
    (hsig : - w.ctx.trace.stop_reason = SIGIO ∨ - w.ctx.trace.stop_reason = SIGCHLD)
    (hrbc : w.ctx.trace.rbc_up = 0) :
    rep_process_signal scfg env fuel w =
      Res.ret { ctx := { w.ctx with replay_sig := - w.ctx.trace.stop_reason },
                ops := w.ops } := by
  unfold SignalConfig.labels_distinct at hlab
  simp only [List.nodup_cons, List.mem_cons, not_or] at hlab
  obtain ⟨⟨_, h1, h2, _⟩, ⟨h3, h4, _⟩, _⟩ := hlab
  have n1 : ¬ (- w.ctx.trace.stop_reason = - scfg.SIG_SEGV_RDTSC) := by
    intro h; rcases hsig with hs | hs
    · exact h1 (by rw [← h, hs])
    · exact h2 (by rw [← h, hs])
  have n2 : ¬ (- w.ctx.trace.stop_reason = - scfg.USR_SCHED) := by
    intro h; rcases hsig with hs | hs
    · exact h3 (by rw [← h, hs])
    · exact h4 (by rw [← h, hs])
  unfold rep_process_signal replay_async
  simp only [h0, ne_eq, not_true_eq_false, if_false, n1, n2, hsig, if_true, hrbc]

/-- The instance of C13 at a `SIGCHLD` (17) recorded at branch count 0. -/
theorem synchronous_signal_is_deferred_witness :
    sample_signals.labels_distinct ∧
    (event_at (-17) 0 user_regs_struct.zero).ctx.child_sig = 0 ∧
    (- (event_at (-17) 0 user_regs_struct.zero).ctx.trace.stop_reason = SIGIO ∨
      - (event_at (-17) 0 user_regs_struct.zero).ctx.trace.stop_reason = SIGCHLD) ∧
    (event_at (-17) 0 user_regs_struct.zero).ctx.trace.rbc_up = 0 ∧
    rep_process_signal sample_signals env_rdtsc 0 (event_at (-17) 0 user_regs_struct.zero) =
      Res.ret { ctx := { (event_at (-17) 0 user_regs_struct.zero).ctx with replay_sig := 17 },
                ops := [] } :=
  ⟨by decide, rfl, Or.inr (by decide), rfl,
    synchronous_signal_is_deferred sample_signals env_rdtsc 0
      (event_at (-17) 0 user_regs_struct.zero) (by decide) rfl (Or.inr (by decide)) rfl⟩

/-- The threshold `rbc_up - SKID_SIZE` in 64-bit unsigned arithmetic: below 55 it wraps. -/
theorem u64_sub_skid_size (r : Nat) (h : r < 2 ^ 64) :
    u64_sub r SKID_SIZE = if r < 55 then r + (2 ^ 64 - 55) else r - 55 := by
  unfold u64_sub SKID_SIZE
  split <;> omega

/-- C15 (the code at `rbc_up == 10`): the threshold `trace->rbc_up - SKID_SIZE`, computed
modulo `2 ^ 64`, is 18446744073709551571, which is greater than 10; this is the value
handed to `reset_hpc` both for a `SIGIO` event and for a `USR_SCHED` event recorded at
branch count 10.  At `rbc_up == 1000` the threshold is 945. -/
theorem reset_hpc_threshold_wraps_below_skid :
    u64_sub 10 SKID_SIZE = 18446744073709551571 ∧ 10 < u64_sub 10 SKID_SIZE ∧
    ((rep_process_signal sample_signals (signal_env (env_of (fun _ => 10) 0) 0x1d7f ([], 0) 1)
        2 (event_at (-29) 10 user_regs_struct.zero)).final id).map (fun w => w.ops) =
      some [Op.reset_hpc 18446744073709551571, Op.stop_hpc_down, Op.read_rbc_up,
        Op.read_rbc_up, Op.read_child_registers 1, Op.stop_hpc] ∧
    ((rep_process_signal sample_signals (signal_env (env_of (fun _ => 10) 0) 0x1d7f ([], 0) 1)
        2 (event_at (-1006) 10 user_regs_struct.zero)).final id).map (fun w => w.ops) =
      some [Op.reset_hpc 18446744073709551571, Op.goto_next_event, Op.fcntl_getown,
        Op.stop_hpc_down, Op.read_rbc_up, Op.read_rbc_up, Op.read_child_registers 1,
        Op.stop_hpc] ∧
    u64_sub 1000 SKID_SIZE = 945 ∧
    ((rep_process_signal sample_signals (signal_env (env_of (fun _ => 1000) 0) 0x1d7f ([], 0) 1)
        2 (event_at (-1006) 1000 user_regs_struct.zero)).final id).map (fun w => w.ops.head?) =
      some (some (Op.reset_hpc 945)) := by
  refine ⟨by decide, by decide, by decide, by decide, by decide, by decide⟩

end RR
